import Mathlib

/-!
# The Right Angle: potentiometer angle gauge

A shallow embedding of the signal pipeline of the browser client
(`src/src/src/App.jsx`, called the *src draft* below, and its sibling
`src/src/lib/App.jsx`, the *lib draft*), followed by theorems about it.

Modelling conventions.

* Numbers, first part.  The parts *Numbers* to *Manual calibration entry* take
  sensor readings, calibration bounds and angles as exact integers (`ℤ`) and
  the quotient inside `convertToAngle` as an exact rational (`ℚ`); `NaN`, the
  only non-integer `parseInt` returns, is written `none`.  The theorems on
  these parts are those that do not depend on the rounding of doubles.
* Numbers, second part.  The part *IEEE numbers* embeds the Numbers of the
  program as they are: doubles with the rounding to 53 bits
  (roundTiesToEven), the two infinities and `NaN`; the two zeros are one
  value.  The namespace `Ieee` holds the signal pipeline on these Numbers.  A
  handler made by `useCallback` takes the range of the render that made it as
  arguments and writes to the state of the moment.
* React state is an explicit record; `toast` calls are appended to the field
  `toasts`, `Date.now()` is an argument.
* Connections, first part.  In the part *Connections* a handler reads the
  state that is current when it runs and runs to its end before the next one
  starts.
* Connections, second part.  In the part *Connections with closures* a handler
  is a function of one render (`Closure.Snapshot`): it reads the state
  variables of that render; a function made by `useCallback` has an identity
  that changes when a dependency changes; `removeEventListener` removes a
  listener only when it is given the registered function;
  `gatt.disconnect()` fires `gattserverdisconnected` before it returns; after
  a handler the component is rendered again, and the effect of the src draft
  (lines 195-199) calls the `disconnect` of the previous render whenever
  `disconnect` has been replaced.  The page offers a click only on a button it
  renders (`ConnectionStatus.jsx`).
* The values of `Math.random()` and `Math.sin(..)` are arguments, taken as
  exact numbers.
* A chunk of text is the list of its characters; the calls of
  `processIncomingData` that a reader makes for a chunk are the list of their
  arguments, in order.
* The measurement wizard (`src/src/pages/MeasurementPage.jsx`) is a transition
  system: an event is a click on a button the page renders, or the interval
  firing; the effect of the countdown runs right after the transition.
-/

namespace RightAngle

/-! ## Numbers -/

/-- The function `Math.round`: the nearest integer, ties towards `+∞`. -/
def mathRound (x : ℚ) : ℤ := ⌊x + 1 / 2⌋

/-- JavaScript `/` on two integers, with the non-finite results (`NaN`,
`±Infinity`, produced exactly when the divisor is zero) written `none`. -/
def jsDivide (a b : ℤ) : Option ℚ :=
  if b = 0 then none else some ((a : ℚ) / (b : ℚ))

/-- The function `convertToAngle` (src draft lines 62-66, lib draft lines 62-66), with the
division checked: `none` would be a non-finite quotient. -/
def convertToAngleChecked (value currentMin currentMax : ℤ) : Option ℤ :=
  if currentMax = currentMin then some 0
  else
    (jsDivide (value - currentMin) (currentMax - currentMin)).map
      fun q => mathRound (max 0 (min 1 q) * 360)

/-- The function `convertToAngle` (src draft lines 62-66, lib draft lines 62-66):
```
if (currentMax === currentMin) return 0;
const normalizedValue = Math.max(0, Math.min(1, (value - currentMin) / (currentMax - currentMin)));
return Math.round(normalizedValue * 360);
``` -/
def convertToAngle (value currentMin currentMax : ℤ) : ℤ :=
  if currentMax = currentMin then 0
  else
    let normalizedValue : ℚ :=
      max 0 (min 1 (((value - currentMin : ℤ) : ℚ) / ((currentMax - currentMin : ℤ) : ℚ)))
    mathRound (normalizedValue * 360)

/-! ## Strings -/

/-- The characters removed by `String.prototype.trim` and skipped by `Number`
and `parseInt`: ECMAScript `WhiteSpace` and `LineTerminator`. -/
def isStrWhiteSpaceChar (c : Char) : Bool :=
  let n := c.toNat
  n == 0x09 || n == 0x0A || n == 0x0B || n == 0x0C || n == 0x0D || n == 0x20 ||
  n == 0xA0 || n == 0x1680 || (0x2000 ≤ n && n ≤ 0x200A) || n == 0x2028 ||
  n == 0x2029 || n == 0x202F || n == 0x205F || n == 0x3000 || n == 0xFEFF

/-- The method `String.prototype.trim`. -/
def jsTrim (s : List Char) : List Char :=
  ((s.dropWhile isStrWhiteSpaceChar).reverse.dropWhile isStrWhiteSpaceChar).reverse

/-- A character `0`..`9`. -/
def isDecimalDigit (c : Char) : Bool := 48 ≤ c.toNat && c.toNat ≤ 57

/-- The mathematical value of a run of decimal digits. -/
def decimalValue (ds : List Char) : ℕ :=
  ds.foldl (fun acc c => 10 * acc + (c.toNat - 48)) 0

/-- Removes one leading `+` or `-`. -/
def dropSign : List Char → List Char
  | '+' :: t => t
  | '-' :: t => t
  | s => s

/-- An `ExponentPart`, or nothing: `e` or `E`, an optional sign, then digits. -/
def isExponentPartOrEmpty : List Char → Bool
  | [] => true
  | c :: t => (c == 'e' || c == 'E') && dropSign t != [] && (dropSign t).all isDecimalDigit

/-- The `StrUnsignedDecimalLiteral` of the ECMAScript `StringToNumber` grammar. -/
def isStrUnsignedDecimalLiteral (s : List Char) : Bool :=
  s == "Infinity".data ||
  match s.dropWhile isDecimalDigit with
  | '.' :: t =>
      (s.takeWhile isDecimalDigit != [] || t.takeWhile isDecimalDigit != []) &&
        isExponentPartOrEmpty (t.dropWhile isDecimalDigit)
  | rest => s.takeWhile isDecimalDigit != [] && isExponentPartOrEmpty rest

/-- A `NonDecimalIntegerLiteral`: `0x`, `0o` or `0b` and at least one digit. -/
def isNonDecimalIntegerLiteral : List Char → Bool
  | '0' :: c :: ds =>
      ds != [] &&
        (((c == 'x' || c == 'X') &&
            ds.all fun d => d.isDigit || ('a' ≤ d && d ≤ 'f') || ('A' ≤ d && d ≤ 'F')) ||
         ((c == 'o' || c == 'O') && ds.all fun d => '0' ≤ d && d ≤ '7') ||
         ((c == 'b' || c == 'B') && ds.all fun d => d == '0' || d == '1'))
  | _ => false

/-- The call `isNaN(text)` for a string argument: `Number(text)` is `NaN` unless the
text, white space removed, is empty or a `StrNumericLiteral`. -/
def isNaN (text : List Char) : Bool :=
  let t := jsTrim text
  !(t == [] || isStrUnsignedDecimalLiteral (dropSign t) || isNonDecimalIntegerLiteral t)

/-- The call `parseInt(text, 10)`: leading white space and one sign are skipped, the
longest run of decimal digits is read; `none` is `NaN` (no digit). -/
def parseInt (text : List Char) : Option ℤ :=
  let s := text.dropWhile isStrWhiteSpaceChar
  let z := (dropSign s).takeWhile isDecimalDigit
  if z = [] then none
  else some (if s.head? = some '-' then -(decimalValue z : ℤ) else (decimalValue z : ℤ))

/-! ## Component state -/

/-- The argument of `array.slice(-k)`: the last `k` entries. -/
def sliceFromEnd {α : Type} (k : ℕ) (xs : List α) : List α :=
  xs.drop (xs.length - k)

/-- The `variant` field of a toast; `default` when the call gives none. -/
inductive ToastVariant where
  | default
  | destructive
  | success
  deriving DecidableEq, Repr

/-- One `toast({ title, description, variant })` call. -/
structure Toast where
  title : String
  description : String
  variant : ToastVariant
  deriving DecidableEq, Repr

/-- The value of `connectionMethod` when it is not `null`. -/
inductive ConnectionMethod where
  | serial
  | ble
  | demo
  deriving DecidableEq, Repr

/-- An entry of `history`: `{ value, angle, timestamp }`. -/
structure Reading where
  value : ℤ
  angle : ℤ
  timestamp : ℕ
  deriving DecidableEq, Repr

/-- The state of the `App` component (src draft lines 14-26), with the log of
toasts.  Port, reader and interval handles are abstract identifiers. -/
structure AppState where
  isConnected : Bool
  connectionMethod : Option ConnectionMethod
  potValue : ℤ
  angle : ℤ
  minValue : ℤ
  maxValue : ℤ
  serialPort : Option ℕ
  serialReader : Option ℕ
  isReading : Bool
  history : List Reading
  demoIntervalRef : Option ℕ
  toasts : List Toast
  deriving DecidableEq, Repr

/-- The initial values of the `useState` and `useRef` calls. -/
def AppState.initial : AppState where
  isConnected := false
  connectionMethod := none
  potValue := 0
  angle := 0
  minValue := 0
  maxValue := 1023
  serialPort := none
  serialReader := none
  isReading := false
  history := []
  demoIntervalRef := none
  toasts := []

/-- The update `setHistory(prev => [...prev, r].slice(-50))`. -/
def appendHistory (prev : List Reading) (r : Reading) : List Reading :=
  sliceFromEnd 50 (prev ++ [r])

/-- The handler `processIncomingData` of the src draft (lines 28-48).  A reading inside
`0..1023` but outside the calibration range is converted on the full scale.
The result is `none` when `parseInt` yields `NaN` for a text that `isNaN`
accepts (such as `.5`): the draft then stores `NaN` as a reading, which an
integer-valued `Reading` cannot hold.  The effect of lines 68-70, which
recomputes `angle` from `potValue` and the range after the render, is a later
step and not part of this handler; it does not touch `history`. -/
def processIncomingData (s : AppState) (rawValue : String) (now : ℕ) : Option AppState :=
  let trimmed := jsTrim rawValue.data
  if trimmed ≠ [] ∧ isNaN trimmed = false then
    match parseInt trimmed with
    | none => none
    | some newValue =>
      let fullScale : Bool :=
        !(decide (newValue ≥ s.minValue) && decide (newValue ≤ s.maxValue)) &&
          (decide (newValue ≥ 0) && decide (newValue ≤ 1023))
      let currentMin := if fullScale then 0 else s.minValue
      let currentMax := if fullScale then 1023 else s.maxValue
      let newAngle := convertToAngle newValue currentMin currentMax
      some { s with
        potValue := newValue
        angle := newAngle
        history := appendHistory s.history ⟨newValue, newAngle, now⟩ }
  else some s

/-- The handler `processIncomingData` of the lib draft (lines 38-60), on the fields the
two drafts share.  A reading outside both the calibration range and `0..1023`
is dropped, and so is a `NaN` reading (every comparison with it is false). -/
def LibDraft.processIncomingData (s : AppState) (rawValue : String) (now : ℕ) : AppState :=
  let trimmed := jsTrim rawValue.data
  if trimmed ≠ [] ∧ isNaN trimmed = false then
    match parseInt trimmed with
    | none => s
    | some newValue =>
      if newValue ≥ s.minValue ∧ newValue ≤ s.maxValue then
        let currentAngle := convertToAngle newValue s.minValue s.maxValue
        { s with
          potValue := newValue
          angle := currentAngle
          history := appendHistory s.history ⟨newValue, currentAngle, now⟩ }
      else if newValue ≥ 0 ∧ newValue ≤ 1023 then
        let currentAngle := convertToAngle newValue 0 1023
        { s with
          potValue := newValue
          angle := currentAngle
          history := appendHistory s.history ⟨newValue, currentAngle, now⟩ }
      else s
  else s

/-- The call `Math.min(...values)` for a non-empty argument list. -/
def mathMin (values : List ℤ) (h : values ≠ []) : ℤ :=
  values.tail.foldl min (values.head h)

/-- The call `Math.max(...values)` for a non-empty argument list. -/
def mathMax (values : List ℤ) (h : values ≠ []) : ℤ :=
  values.tail.foldl max (values.head h)

/-- The toast of `resetCalibration`. -/
def calibrationResetToast : Toast :=
  ⟨"Calibration Reset", "Min/Max values reset to default (0-1023).", .default⟩

/-- The toast of `calibrateRange` on fewer than 10 readings. -/
def insufficientDataToast : Toast :=
  ⟨"Insufficient Data", "Need at least 10 readings for calibration.", .destructive⟩

/-- The toast of `calibrateRange` when all readings are equal. -/
def calibrationErrorToast : Toast :=
  ⟨"Calibration Error", "Min and Max values are the same. Please provide varying data.",
    .destructive⟩

/-- The toast of a successful `calibrateRange`. -/
def calibrationCompleteToast (newMin newMax : ℤ) : Toast :=
  ⟨"Calibration Complete! ✨",
    "Range set to " ++ toString newMin ++ " - " ++ toString newMax ++ ".", .default⟩

/-- The handler `resetCalibration` (src draft lines 171-176). -/
def resetCalibration (s : AppState) : AppState :=
  { s with
    minValue := 0
    maxValue := 1023
    history := []
    toasts := s.toasts ++ [calibrationResetToast] }

/-- The handler `calibrateRange` (src draft lines 178-193, the same text as lib draft
lines 337-352). -/
def calibrateRange (s : AppState) : AppState :=
  if h : s.history.length < 10 then
    { s with toasts := s.toasts ++ [insufficientDataToast] }
  else
    let values := s.history.map (fun r => r.value)
    have hne : values ≠ [] := by
      intro e
      have hlen := congrArg List.length e
      simp only [values, List.length_map, List.length_nil] at hlen
      omega
    let newMin := mathMin values hne
    let newMax := mathMax values hne
    if newMin = newMax then
      { s with toasts := s.toasts ++ [calibrationErrorToast] }
    else
      { s with
        minValue := newMin
        maxValue := newMax
        toasts := s.toasts ++ [calibrationCompleteToast newMin newMax] }

/-- The handlers of the src draft that read or write `history`. -/
inductive PipelineEvent where
  | line (rawValue : String) (now : ℕ)
  | calibrate
  | reset
  deriving DecidableEq, Repr

/-- One handler call. -/
def applyEvent (s : AppState) : PipelineEvent → Option AppState
  | .line rawValue now => processIncomingData s rawValue now
  | .calibrate => some (calibrateRange s)
  | .reset => some (resetCalibration s)

/-- A sequence of handler calls, in order. -/
def runEvents (s : AppState) : List PipelineEvent → Option AppState
  | [] => some s
  | e :: es => (applyEvent s e).bind fun s1 => runEvents s1 es

/-- A base-10 integer literal and its value: an optional sign, then at least
one decimal digit. -/
def IsIntegerLiteral (t : List Char) (n : ℤ) : Prop :=
  ∃ ds : List Char, ds ≠ [] ∧ (∀ c ∈ ds, isDecimalDigit c = true) ∧
    ((t = ds ∧ n = decimalValue ds) ∨ (t = '+' :: ds ∧ n = decimalValue ds) ∨
      (t = '-' :: ds ∧ n = -(decimalValue ds : ℤ)))

/-- A state whose history holds ten readings with values between 3 and 50. -/
def variedState : AppState :=
  { AppState.initial with
    history := [⟨3, 1, 0⟩, ⟨3, 1, 1⟩, ⟨3, 1, 2⟩, ⟨7, 2, 3⟩, ⟨50, 18, 4⟩, ⟨12, 4, 5⟩,
      ⟨8, 3, 6⟩, ⟨3, 1, 7⟩, ⟨20, 7, 8⟩, ⟨41, 14, 9⟩] }

/-- A state calibrated to the range 100..200. -/
def narrowState : AppState :=
  { AppState.initial with minValue := 100, maxValue := 200 }

/-! ## Manual calibration entry -/

/-- The value of a hexadecimal digit, if the character is one. -/
def hexDigitValue (c : Char) : Option ℕ :=
  if 48 ≤ c.toNat ∧ c.toNat ≤ 57 then some (c.toNat - 48)
  else if 97 ≤ c.toNat ∧ c.toNat ≤ 102 then some (c.toNat - 87)
  else if 65 ≤ c.toNat ∧ c.toNat ≤ 70 then some (c.toNat - 55)
  else none

/-- The call `parseInt(text)` with no radix: as `parseInt(text, 10)`, except
that digits after a leading `0x` or `0X` are read in base 16. -/
def parseIntAuto (text : List Char) : Option ℤ :=
  let s := text.dropWhile isStrWhiteSpaceChar
  let sign : ℤ := if s.head? = some '-' then -1 else 1
  match dropSign s with
  | '0' :: 'x' :: rest | '0' :: 'X' :: rest =>
    let z := rest.takeWhile fun c => (hexDigitValue c).isSome
    if z = [] then none
    else some (sign * (z.foldl (fun acc c => 16 * acc + (hexDigitValue c).getD 0) 0 : ℕ))
  | body =>
    let z := body.takeWhile isDecimalDigit
    if z = [] then none else some (sign * (decimalValue z : ℤ))

/-! ## Connections

The connection handlers of the src draft (`connectToSerial`, `disconnect`,
`startDemo`, `handleSerialDisconnectCleanup`) and of the hook
`src/src/src/hooks/useBluetooth.js`.  A handler is run as the sequence of its
statements that write state or call the platform; each statement is an
`Action`, applied to the state and appended to `trace`.  In this part a
handler runs to its end before the next one starts and reads the state current
when it runs; the part *Connections with closures* runs the handlers with the
functions of a render, the listeners with their identity, and the lifecycle
effect. -/

/-- The constant `MAX_RECONNECT_ATTEMPTS` of the hook. -/
def MAX_RECONNECT_ATTEMPTS : ℕ := 3

/-- The statements of the connection handlers.  A platform call that can
reject carries its result (`ok`, or the handle it resolved to). -/
inductive Action where
  | setIsConnected (connected : Bool)
  | setConnectionMethod (method : Option ConnectionMethod)
  | setIsReading (reading : Bool)
  | setSerialPort (port : Option ℕ)
  | setSerialReader (reader : Option ℕ)
  | setDemoIntervalRef (interval : Option ℕ)
  | toast (t : Toast)
  | clearInterval (interval : ℕ)
  | setInterval (interval : ℕ)
  | requestPort (port : Option ℕ)
  | portOpen (port : ℕ) (ok : Bool)
  | getReader (reader : ℕ)
  | readSerialData (reader : ℕ)
  | readerCancel (reader : ℕ)
  | portClose (port : ℕ)
  | setBleDevice (device : Option ℕ)
  | setBleServerRef (server : Option ℕ)
  | setBleTxCharacteristicRef (characteristic : Option ℕ)
  | setReconnectAttempts (n : ℕ)
  | requestDevice (device : Option ℕ)
  | addLostListener (device : ℕ)
  | removeLostListener (device : ℕ)
  | gattConnect (device : ℕ) (ok : Bool)
  | getPrimaryService (ok : Bool)
  | getCharacteristic (ok : Bool)
  | startNotifications (characteristic : ℕ) (ok : Bool)
  | stopNotifications (characteristic : ℕ)
  | addValueListener (characteristic : ℕ)
  | removeValueListener (characteristic : ℕ)
  | gattDisconnect (device : ℕ)
  | setTimeoutReconnect (delay : ℕ)
  deriving DecidableEq, Repr

/-- The state of the hook `useBluetooth` (lines 12-15). -/
structure BleState where
  bleDevice : Option ℕ
  bleServerRef : Option ℕ
  bleTxCharacteristicRef : Option ℕ
  reconnectAttemptsRef : ℕ
  deriving DecidableEq, Repr

/-- What the platform holds for the page: running intervals, open ports,
connected GATT servers, the characteristics and devices with a registered
listener, `gattserverdisconnected` events not yet delivered, and pending
`setTimeout(attemptBleReconnect, ...)` timers. -/
structure Platform where
  activeIntervals : List ℕ
  openPorts : List ℕ
  connectedDevices : List ℕ
  valueListeners : List ℕ
  lostListeners : List ℕ
  pendingLostEvents : ℕ
  reconnectTimers : ℕ
  deriving DecidableEq, Repr

/-- The component, the hook, the platform, and the statements run so far. -/
structure Sys where
  app : AppState
  ble : BleState
  platform : Platform
  trace : List Action
  deriving DecidableEq, Repr

/-- The state of a freshly mounted page. -/
def Sys.initial : Sys where
  app := AppState.initial
  ble := ⟨none, none, none, 0⟩
  platform := ⟨[], [], [], [], [], 0, 0⟩
  trace := []

/-- Registers `x` once: `addEventListener` ignores a listener already there. -/
def register (x : ℕ) (xs : List ℕ) : List ℕ :=
  if x ∈ xs then xs else x :: xs

/-- Removes every `x`. -/
def unregister (x : ℕ) (xs : List ℕ) : List ℕ :=
  xs.filter fun y => y ≠ x

/-- The effect of one statement on the state. -/
def exec (a : Action) (s : Sys) : Sys :=
  match a with
  | .setIsConnected b => { s with app := { s.app with isConnected := b } }
  | .setConnectionMethod m => { s with app := { s.app with connectionMethod := m } }
  | .setIsReading b => { s with app := { s.app with isReading := b } }
  | .setSerialPort p => { s with app := { s.app with serialPort := p } }
  | .setSerialReader r => { s with app := { s.app with serialReader := r } }
  | .setDemoIntervalRef i => { s with app := { s.app with demoIntervalRef := i } }
  | .toast t => { s with app := { s.app with toasts := s.app.toasts ++ [t] } }
  | .clearInterval i =>
    { s with platform := { s.platform with activeIntervals := unregister i s.platform.activeIntervals } }
  | .setInterval i =>
    { s with platform := { s.platform with activeIntervals := register i s.platform.activeIntervals } }
  | .requestPort _ => s
  | .portOpen p ok =>
    if ok then
      { s with platform := { s.platform with openPorts := register p s.platform.openPorts } }
    else s
  | .getReader _ => s
  | .readSerialData _ => s
  | .readerCancel _ => s
  | .portClose p =>
    { s with platform := { s.platform with openPorts := unregister p s.platform.openPorts } }
  | .setBleDevice d => { s with ble := { s.ble with bleDevice := d } }
  | .setBleServerRef v => { s with ble := { s.ble with bleServerRef := v } }
  | .setBleTxCharacteristicRef c => { s with ble := { s.ble with bleTxCharacteristicRef := c } }
  | .setReconnectAttempts n => { s with ble := { s.ble with reconnectAttemptsRef := n } }
  | .requestDevice _ => s
  | .addLostListener d =>
    { s with platform := { s.platform with lostListeners := register d s.platform.lostListeners } }
  | .removeLostListener d =>
    { s with platform := { s.platform with lostListeners := unregister d s.platform.lostListeners } }
  | .gattConnect d ok =>
    if ok then
      { s with
        platform := { s.platform with connectedDevices := register d s.platform.connectedDevices } }
    else s
  | .getPrimaryService _ => s
  | .getCharacteristic _ => s
  | .startNotifications _ _ => s
  | .stopNotifications _ => s
  | .addValueListener c =>
    { s with platform := { s.platform with valueListeners := register c s.platform.valueListeners } }
  | .removeValueListener c =>
    { s with
      platform := { s.platform with valueListeners := unregister c s.platform.valueListeners } }
  | .gattDisconnect d =>
    { s with
      platform := { s.platform with
        connectedDevices := unregister d s.platform.connectedDevices
        pendingLostEvents :=
          if d ∈ s.platform.lostListeners then s.platform.pendingLostEvents + 1
          else s.platform.pendingLostEvents } }
  | .setTimeoutReconnect _ =>
    { s with platform := { s.platform with reconnectTimers := s.platform.reconnectTimers + 1 } }

/-- Runs one statement: its effect, and its entry in the trace. -/
def act (s : Sys) (a : Action) : Sys :=
  { exec a s with trace := s.trace ++ [a] }

/-- Runs statements in order. -/
def acts (s : Sys) (as : List Action) : Sys :=
  as.foldl act s

/-- Whether `device.gatt.connected` holds of the held device; a held
characteristic belongs to the held device. -/
def gattConnected (s : Sys) : Bool :=
  match s.ble.bleDevice with
  | some d => decide (d ∈ s.platform.connectedDevices)
  | none => false

/-- The toast a statement shows, if it is a `toast` call. -/
def Action.toast? : Action → Option Toast
  | .toast t => some t
  | _ => none

/-! ### Toasts of the connection handlers -/

/-- The toast of src draft line 124. -/
def webSerialNotSupportedToast : Toast :=
  ⟨"Web Serial Not Supported", "Try Chrome or Edge.", .destructive⟩

/-- The toast of src draft line 139. -/
def serialConnectedToast : Toast :=
  ⟨"Serial Connected! 🎉", "Receiving data from Arduino.", .default⟩

/-- The toast of src draft line 143, with `error.message`. -/
def serialConnectionFailedToast (message : String) : Toast :=
  ⟨"Serial Connection Failed", message, .destructive⟩

/-- The toast of src draft line 96. -/
def serialDisconnectedToast : Toast :=
  ⟨"Serial Disconnected", "Connection closed.", .default⟩

/-- The toast of src draft line 160. -/
def demoDisconnectedToast : Toast :=
  ⟨"Demo Disconnected", "Demo mode stopped.", .default⟩

/-- The toast of src draft line 168. -/
def demoStartedToast : Toast :=
  ⟨"Demo Mode Started! 🚀", "Simulating Arduino data.", .default⟩

/-- The toast of hook line 57. -/
def bluetoothDisconnectedToast : Toast :=
  ⟨"Bluetooth Disconnected", "Connection closed.", .default⟩

/-- The toast of hook line 64. -/
def bleReconnectFailedToast : Toast :=
  ⟨"BLE Reconnect Failed", "Max attempts reached. Please reconnect manually.", .destructive⟩

/-- The toast of hook line 70. -/
def bleReconnectingToast (attempt : ℕ) : Toast :=
  ⟨"BLE Reconnecting...",
    "Attempt " ++ toString attempt ++ " of " ++ toString MAX_RECONNECT_ATTEMPTS ++ ".", .default⟩

/-- The toast of hook line 83. -/
def bluetoothReconnectedToast : Toast :=
  ⟨"Bluetooth Reconnected! 📡", "Receiving data from Arduino.", .default⟩

/-- The toast of hook line 91, with `event.target.name || 'Unknown'`. -/
def connectionLostToast (name : String) : Toast :=
  ⟨"Bluetooth Disconnected",
    "Device " ++ (if name = "" then "Unknown" else name) ++
      " connection lost. Attempting to reconnect...", .destructive⟩

/-- The toast of hook line 118. -/
def webBluetoothNotSupportedToast : Toast :=
  ⟨"Web Bluetooth Not Supported", "Try Chrome or Edge on a compatible OS.", .destructive⟩

/-- The toast of hook line 122. -/
def requestingDeviceToast : Toast :=
  ⟨"Requesting Bluetooth Device...", "Please select 'PotUART' or your UART device.", .default⟩

/-- The toast of hook line 137, with `device.name || device.id`. -/
def connectingGattToast (label : String) : Toast :=
  ⟨"Connecting to GATT Server...", "Device: " ++ label, .default⟩

/-- The toast of hook line 139. -/
def gattNotFoundToast : Toast :=
  ⟨"GATT Server Not Found", "Selected device lacks GATT server.", .destructive⟩

/-- The toast of hook line 147. -/
def fetchingServiceToast : Toast :=
  ⟨"Fetching UART Service...", "Almost there!", .default⟩

/-- The toast of hook line 150. -/
def fetchingCharacteristicToast : Toast :=
  ⟨"Fetching TX Characteristic...", "Finalizing connection...", .default⟩

/-- The toast of hook line 159. -/
def bluetoothConnectedToast (label : String) : Toast :=
  ⟨"Bluetooth Connected! 📡", "Successfully connected to " ++ label ++ ".", .default⟩

/-- The toast of hook line 163, with `error.message || "Unknown error."`. -/
def bluetoothConnectionFailedToast (message : String) : Toast :=
  ⟨"Bluetooth Connection Failed", if message = "" then "Unknown error." else message,
    .destructive⟩

/-! ### Serial and demo handlers of the src draft -/

/-- The call `handleConnectionChange(connected, method, reading)` (src draft
lines 50-54), which the hook receives as `onConnectionChange`. -/
def handleConnectionChange (connected : Bool) (method : Option ConnectionMethod)
    (reading : Bool) : List Action :=
  [.setIsConnected connected, .setConnectionMethod method, .setIsReading reading]

/-- The statements of `handleSerialDisconnectCleanup(informUser)` (src draft
lines 79-98).  A failing `cancel` or `close` is only logged. -/
def handleSerialDisconnectCleanupScript (informUser : Bool) (s : Sys) : List Action :=
  (match s.app.serialReader with
    | some r => [.readerCancel r, .setSerialReader none]
    | none => []) ++
  (match s.app.serialPort with
    | some p => [.portClose p, .setSerialPort none]
    | none => []) ++
  [.setIsConnected false, .setConnectionMethod none, .setIsReading false] ++
  (if informUser then [.toast serialDisconnectedToast] else [])

/-- The handler `handleSerialDisconnectCleanup` (src draft lines 79-98). -/
def handleSerialDisconnectCleanup (informUser : Bool) (s : Sys) : Sys :=
  acts s (handleSerialDisconnectCleanupScript informUser s)

/-! ### The hook `useBluetooth` -/

/-- The statements of `handleBleDisconnectCleanup(informUser)` (hook lines
28-59).  A failing `stopNotifications` is only logged. -/
def handleBleDisconnectCleanupScript (informUser : Bool) (s : Sys) : List Action :=
  [.setBleTxCharacteristicRef none, .setBleServerRef none] ++
  (match s.ble.bleTxCharacteristicRef with
    | some c => if gattConnected s then [.removeValueListener c, .stopNotifications c] else []
    | none => []) ++
  (match s.ble.bleDevice with
    | some d =>
      .removeLostListener d ::
        (if d ∈ s.platform.connectedDevices then [.gattDisconnect d] else [])
    | none => []) ++
  [.setBleDevice none] ++ handleConnectionChange false none false ++
  [.setReconnectAttempts 0] ++
  (if informUser then [.toast bluetoothDisconnectedToast] else [])

/-- The handler `handleBleDisconnectCleanup` (hook lines 28-59). -/
def handleBleDisconnectCleanup (informUser : Bool) (s : Sys) : Sys :=
  acts s (handleBleDisconnectCleanupScript informUser s)

/-- How far the GATT negotiation of a connect or reconnect gets: the call that
rejects, or the server and characteristic it resolves to. -/
inductive BleOutcome where
  | connectFails
  | serviceFails (server : ℕ)
  | characteristicFails (server : ℕ)
  | notificationsFail (server characteristic : ℕ)
  | ok (server characteristic : ℕ)
  deriving DecidableEq, Repr

/-- Whether a call of the negotiation rejects. -/
def BleOutcome.isFailure : BleOutcome → Bool
  | .ok _ _ => false
  | _ => true

/-- What the platform answers to `connectToBle`. -/
structure BleRequest where
  supported : Bool
  device : Option ℕ
  label : String
  hasGatt : Bool
  outcome : BleOutcome
  message : String
  deriving DecidableEq, Repr

/-- The `try` block of `connectToBle` from `device.gatt.connect()` on (hook
lines 144-159) up to the call that rejects, or to its end. -/
def connectTryScript (d : ℕ) (label : String) : BleOutcome → List Action
  | .connectFails => [.gattConnect d false]
  | .serviceFails v =>
    [.gattConnect d true, .setBleServerRef (some v), .toast fetchingServiceToast,
      .getPrimaryService false]
  | .characteristicFails v =>
    [.gattConnect d true, .setBleServerRef (some v), .toast fetchingServiceToast,
      .getPrimaryService true, .toast fetchingCharacteristicToast, .getCharacteristic false]
  | .notificationsFail v c =>
    [.gattConnect d true, .setBleServerRef (some v), .toast fetchingServiceToast,
      .getPrimaryService true, .toast fetchingCharacteristicToast, .getCharacteristic true,
      .setBleTxCharacteristicRef (some c), .startNotifications c false]
  | .ok v c =>
    [.gattConnect d true, .setBleServerRef (some v), .toast fetchingServiceToast,
      .getPrimaryService true, .toast fetchingCharacteristicToast, .getCharacteristic true,
      .setBleTxCharacteristicRef (some c), .startNotifications c true, .addValueListener c] ++
    handleConnectionChange true (some .ble) true ++
    [.setReconnectAttempts 0, .toast (bluetoothConnectedToast label)]

/-- The handler `connectToBle` (hook lines 116-166). -/
def connectToBle (r : BleRequest) (s : Sys) : Sys :=
  if !r.supported then act s (.toast webBluetoothNotSupportedToast)
  else
    match r.device with
    | none =>
      handleBleDisconnectCleanup false
        (acts s
          [.toast requestingDeviceToast, .requestDevice none,
            .toast (bluetoothConnectionFailedToast r.message)])
    | some d =>
      let s1 :=
        acts s
          [.toast requestingDeviceToast, .requestDevice (some d), .setBleDevice (some d),
            .removeLostListener d, .addLostListener d, .toast (connectingGattToast r.label)]
      if !r.hasGatt then handleBleDisconnectCleanup false (act s1 (.toast gattNotFoundToast))
      else if r.outcome.isFailure then
        handleBleDisconnectCleanup false
          (acts s1
            (connectTryScript d r.label r.outcome ++
              [.toast (bluetoothConnectionFailedToast r.message)]))
      else acts s1 (connectTryScript d r.label r.outcome)

/-- The handler `disconnectBle` (hook lines 168-170). -/
def disconnectBle (s : Sys) : Sys :=
  handleBleDisconnectCleanup true s

/-! ### The lifecycle manager of the src draft -/

/-- The handler `disconnect` (src draft lines 148-162). -/
def disconnect (s : Sys) : Sys :=
  let s1 := act s (.setIsReading false)
  if s.app.connectionMethod = some .serial ∧ s.app.serialPort ≠ none then
    handleSerialDisconnectCleanup true s1
  else if s.app.connectionMethod = some .ble then disconnectBle s1
  else
    match s.app.demoIntervalRef with
    | some i =>
      if s.app.connectionMethod = some .demo then
        acts s1
          [.clearInterval i, .setDemoIntervalRef none, .setIsConnected false,
            .setConnectionMethod none, .toast demoDisconnectedToast]
      else s1
    | none => s1

/-- What the platform answers to `connectToSerial`. -/
structure SerialRequest where
  supported : Bool
  port : Option ℕ
  openOk : Bool
  reader : ℕ
  message : String
  deriving DecidableEq, Repr

/-- The handler `connectToSerial` (src draft lines 122-146). -/
def connectToSerial (r : SerialRequest) (s : Sys) : Sys :=
  if !r.supported then act s (.toast webSerialNotSupportedToast)
  else
    let s1 := disconnect s
    match r.port with
    | none =>
      handleSerialDisconnectCleanup false
        (acts s1 [.requestPort none, .toast (serialConnectionFailedToast r.message)])
    | some p =>
      if !r.openOk then
        handleSerialDisconnectCleanup false
          (acts s1
            [.requestPort (some p), .portOpen p false,
              .toast (serialConnectionFailedToast r.message)])
      else
        acts s1
          ([.requestPort (some p), .portOpen p true, .setSerialPort (some p),
              .getReader r.reader, .setSerialReader (some r.reader)] ++
            handleConnectionChange true (some .serial) true ++
            [.toast serialConnectedToast, .readSerialData r.reader])

/-- The handler `startDemo` (src draft lines 164-169); `interval` is the
identifier `setInterval` returns. -/
def startDemo (interval : ℕ) (s : Sys) : Sys :=
  acts (disconnect s)
    (handleConnectionChange true (some .demo) true ++
      [.setInterval interval, .setDemoIntervalRef (some interval), .toast demoStartedToast])

/-- A page whose demo adapter runs on interval 1. -/
def demoSys : Sys :=
  startDemo 1 Sys.initial

/-- Whether a statement starts or stops an interval or writes
`demoIntervalRef`. -/
def Action.touchesDemo : Action → Bool
  | .clearInterval _ => true
  | .setInterval _ => true
  | .setDemoIntervalRef _ => true
  | _ => false

/-- A serial request whose device picker the user dismisses. -/
def dismissedSerialRequest : SerialRequest :=
  ⟨true, none, true, 5, "No port selected by the user."⟩

/-- A BLE request whose device picker the user dismisses. -/
def dismissedBleRequest : BleRequest :=
  ⟨true, none, "", true, .connectFails, "User cancelled the requestDevice() chooser."⟩

/-! ## The measurement wizard

The page `src/src/pages/MeasurementPage.jsx`: its state, its handlers, the
effect of the countdown and the buttons it renders.  The `duration` field of a
toast is not recorded. -/

/-- The state of `MeasurementPage` (lines 14-17), with the log of toasts. -/
structure WizardState where
  step : ℕ
  timer : ℤ
  strengthTestActive : Bool
  showStartStrengthButton : Bool
  toasts : List Toast
  deriving DecidableEq, Repr

/-- The initial values of the `useState` calls. -/
def WizardState.initial : WizardState where
  step := 1
  timer := 3
  strengthTestActive := false
  showStartStrengthButton := false
  toasts := []

/-- The toast of line 33. -/
def strengthTestCompleteToast : Toast :=
  ⟨"Strength Test Complete", "Unlock the brace and continue ROM.", .success⟩

/-- The toast of line 51. -/
def strengthTestStartedToast : Toast :=
  ⟨"Strength Test Started!", "Maintain pressure.", .default⟩

/-- The handler `handleNextStep` (lines 38-45). -/
def handleNextStep (s : WizardState) : WizardState :=
  if s.step = 2 then { s with step := 3, showStartStrengthButton := true }
  else if s.step < 5 then { s with step := s.step + 1 }
  else s

/-- The handler `startStrengthTestCountdown` (lines 47-52). -/
def startStrengthTestCountdown (s : WizardState) : WizardState :=
  { s with
    strengthTestActive := true
    showStartStrengthButton := false
    timer := 3
    toasts := s.toasts ++ [strengthTestStartedToast] }

/-- The callback of the interval (line 27), `setTimer(prev => prev - 1)`. -/
def intervalTick (s : WizardState) : WizardState :=
  { s with timer := s.timer - 1 }

/-- The second branch of the countdown effect (lines 29-34), run after a
render in which the test is active and the timer is 0. -/
def countdownEffect (s : WizardState) : WizardState :=
  if s.strengthTestActive = true ∧ s.timer = 0 then
    { s with
      strengthTestActive := false
      showStartStrengthButton := false
      step := 4
      toasts := s.toasts ++ [strengthTestCompleteToast] }
  else s

/-- What can happen on the page: a click on the button that calls
`handleNextStep`, a click on Start Strength Test, or the interval firing after
one second. -/
inductive WizardEvent where
  | clickNext
  | clickStart
  | tick
  deriving DecidableEq, Repr

/-- Whether the page offers the event: `handleNextStep` is bound to the buttons
of steps 1, 2 and 4 (lines 128-137, 148-152), `startStrengthTestCountdown` to
the button of line 138, and the interval exists while the test is active with
a positive timer (line 25). -/
def WizardEvent.enabled (s : WizardState) : WizardEvent → Bool
  | .clickNext => s.step = 1 || s.step = 2 || s.step = 4
  | .clickStart => s.step = 3 && s.showStartStrengthButton
  | .tick => s.strengthTestActive && decide (s.timer > 0)

/-- The handler of an event. -/
def WizardEvent.handler : WizardEvent → WizardState → WizardState
  | .clickNext => handleNextStep
  | .clickStart => startStrengthTestCountdown
  | .tick => intervalTick

/-- One transition: the handler of an offered event, then the effect of the
render that follows.  An event that is not offered changes nothing. -/
def wizardStep (s : WizardState) (e : WizardEvent) : WizardState :=
  if e.enabled s then countdownEffect (e.handler s) else s

/-- The state after a sequence of events on a fresh page. -/
def runWizard (events : List WizardEvent) : WizardState :=
  events.foldl wizardStep WizardState.initial

/-- The state after `k` seconds. -/
def ticks (k : ℕ) (s : WizardState) : WizardState :=
  (List.replicate k WizardEvent.tick).foldl wizardStep s

/-- The states a run can be in, toasts aside. -/
def WizardInv (s : WizardState) : Prop :=
  ((s.step = 1 ∨ s.step = 2) ∧ s.timer = 3 ∧ s.strengthTestActive = false ∧
      s.showStartStrengthButton = false) ∨
    (s.step = 3 ∧ s.timer = 3 ∧ s.strengthTestActive = false ∧
      s.showStartStrengthButton = true) ∨
    (s.step = 3 ∧ 1 ≤ s.timer ∧ s.timer ≤ 3 ∧ s.strengthTestActive = true ∧
      s.showStartStrengthButton = false) ∨
    ((s.step = 4 ∨ s.step = 5) ∧ s.timer = 0 ∧ s.strengthTestActive = false ∧
      s.showStartStrengthButton = false)

/-- What a completed session hands to `updateResults`. -/
structure SessionResult where
  romDegrees : ℤ
  strengthUnits : ℤ
  recommendations : List String
  deriving DecidableEq, Repr

/-- The list `finalRecommendations` of `handleEndTest` in
`MeasurementPage.jsx` (lines 57-62); the header is copied byte for byte. -/
def finalRecommendations (finalRom finalStrength : ℤ) : List String :=
  ["Based on ROM (" ++ toString finalRom ++ "Â°) and Strength (" ++ toString finalStrength ++
      " pounds):",
    "Perform gentle active-assisted ROM exercises twice daily.",
    "Isometric strengthening for 10-second holds, 10 repetitions.",
    "Consider applying heat pack before exercises."]

/-- The handler `handleEndTest` of `MeasurementPage.jsx` (lines 54-71): what it
passes to `updateResults`, given the two values of `Math.random()`. -/
def handleEndTest (random1 random2 : ℚ) : SessionResult :=
  let finalRom : ℤ := ⌊random1 * 90⌋ + 90
  let finalStrength : ℤ := ⌊random2 * 70⌋ + 30
  ⟨finalRom, finalStrength, finalRecommendations finalRom finalStrength⟩

/-- The list `finalRecommendations` of `handleEndTest` in `src/src/App.jsx`
(lines 220-225). -/
def AppDraft.finalRecommendations (finalRom finalStrength : ℤ) : List String :=
  ["Based on ROM (" ++ toString finalRom ++ "°) and Strength (" ++ toString finalStrength ++
      " units):",
    "Perform gentle active-assisted ROM exercises twice daily.",
    "Isometric strengthening for 10-second holds, 10 repetitions.",
    "Consider applying heat pack before exercises."]

/-- The handler `handleEndTest` of `src/src/App.jsx` (lines 216-233). -/
def AppDraft.handleEndTest (random1 random2 : ℚ) : SessionResult :=
  let finalRom : ℤ := ⌊random1 * 90⌋ + 90
  let finalStrength : ℤ := ⌊random2 * 70⌋ + 30
  ⟨finalRom, finalStrength, AppDraft.finalRecommendations finalRom finalStrength⟩

/-- The function `getRecommendations` of `src/src/lib/utils.js` (lines 8-35). -/
def getRecommendations (rom strength : ℤ) : List String :=
  let recommendations : List String :=
    ["Based on ROM (" ++ toString rom ++ "°) and Strength (" ++ toString strength ++ " pounds):"]
  let recommendations :=
    if rom ≥ 160 then
      recommendations ++ ["Excellent ROM! Maintain current flexibility routine."]
    else if rom ≥ 130 then
      recommendations ++ ["Good ROM — consider gentle stretching exercises daily."]
    else
      recommendations ++ ["Limited ROM — focus on active-assisted ROM exercises twice daily."]
  let recommendations :=
    if strength ≥ 80 then
      recommendations ++ ["Strength is excellent — continue current strengthening program."]
    else if strength ≥ 50 then
      recommendations ++
        ["Moderate strength — add isometric strengthening: 10-sec holds, 10 reps."]
    else
      recommendations ++ ["Low strength — begin with light resistance and high-rep exercises."]
  recommendations ++ ["Consider applying a heat pack before exercises to improve mobility."]

/-! ## The demo generator -/

/-- The function `simulateArduinoData` (src draft lines 72-77): the value it
passes to `processIncomingData`, given `Math.sin(Date.now() / 1000)` and
`Math.random()`.  The numbers are taken in any ordered field with a floor, so
that the sine may be any real. -/
def simulateArduinoData {K : Type} [LinearOrderedField K] [FloorRing K] (sine random : K) : ℤ :=
  let baseValue : K := 512 + sine * 400
  let noise : K := (random - 1 / 2) * 50
  max 0 (min 1023 ⌊baseValue + noise + 1 / 2⌋)

/-! ## Splitting chunks into lines -/

/-- Puts a character in front of the first piece. -/
def consHead (c : Char) : List (List Char) → List (List Char)
  | [] => [[c]]
  | piece :: rest => (c :: piece) :: rest

/-- The call `text.split(separator)` for a one-character separator, and for
any set of separator characters: the pieces between separators; two
separators in a row give an empty piece. -/
def splitAtEach (isSeparator : Char → Bool) : List Char → List (List Char)
  | [] => [[]]
  | c :: cs =>
    if isSeparator c then [] :: splitAtEach isSeparator cs
    else consHead c (splitAtEach isSeparator cs)

/-- The characters of the class `[\r\n]`. -/
def isLineBreak (c : Char) : Bool := c == '\r' || c == '\n'

/-- The call `text.split(/[\r\n]+/)`, read from the left: `current` is the
piece being read, reversed, and `inRun` tells that the last character was a
separator, whose run is one match of the pattern. -/
def splitOnRunsFrom : List Char → List Char → Bool → List (List Char)
  | [], current, _ => [current.reverse]
  | c :: cs, current, inRun =>
    if isLineBreak c then
      if inRun then splitOnRunsFrom cs current true
      else current.reverse :: splitOnRunsFrom cs [] true
    else splitOnRunsFrom cs (c :: current) false

/-- The call `text.split(/[\r\n]+/)`. -/
def splitOnRuns (text : List Char) : List (List Char) :=
  splitOnRunsFrom text [] false

/-- The loop body of `readSerialData` (src draft lines 106-107): the arguments
of the calls of `processIncomingData` for one chunk, in order. -/
def readSerialChunk (value : List Char) : List (List Char) :=
  splitAtEach (fun c => c == '\n') value

/-- The handler `handleCharacteristicValueChanged` (hook lines 18-26, lib draft
lines 129-137): the arguments of the calls of `processIncomingData` for one
decoded payload, in order. -/
def handleCharacteristicValueChanged (value : List Char) : List (List Char) :=
  (splitOnRuns value).foldl
    (fun calls line => if jsTrim line != [] then calls ++ [jsTrim line] else calls) []

/-- The lines that `processIncomingData` does not drop as blank (src draft
lines 29-30, lib draft lines 39-40). -/
def nonBlank (lines : List (List Char)) : List (List Char) :=
  lines.filter fun line => jsTrim line != []

/-! ## IEEE numbers

The Numbers of the program are IEEE 754 doubles.  This part embeds them with
their rounding, their infinities and `NaN`, for the properties whose truth
depends on it. -/

/-- A JavaScript Number.  A finite value is given by the rational it denotes;
the two zeros are one value (the program never divides by a computed zero and
never prints the sign of a zero). -/
inductive JsNumber where
  | nan
  | negInf
  | posInf
  | finite (x : ℚ)
  deriving DecidableEq, Repr

namespace JsNumber

/-- The exponent of the binade of `x`, not below that of the subnormals. -/
def binade (x : ℚ) : ℤ := max (Int.log 2 |x|) (-1022)

/-- The distance between neighbouring doubles at `x` (53 significant bits). -/
def ulp (x : ℚ) : ℚ := (2 : ℚ) ^ (binade x - 52)

/-- The nearest integer, a tie going to the even one. -/
def roundHalfEven (y : ℚ) : ℤ :=
  if y - ⌊y⌋ < 1 / 2 then ⌊y⌋
  else if 1 / 2 < y - ⌊y⌋ then ⌊y⌋ + 1
  else if ⌊y⌋ % 2 = 0 then ⌊y⌋
  else ⌊y⌋ + 1

/-- The nearest multiple of the spacing at `x`, before the test for overflow. -/
def roundToGrid (x : ℚ) : ℚ := roundHalfEven (x / ulp x) * ulp x

/-- The double nearest to a real result (roundTiesToEven): a result that rounds
to `2 ^ 1024` or beyond is an infinity. -/
def roundToDouble (x : ℚ) : JsNumber :=
  if (2 : ℚ) ^ 1024 ≤ roundToGrid x then posInf
  else if roundToGrid x ≤ -(2 : ℚ) ^ 1024 then negInf
  else finite (roundToGrid x)

/-- The operator `-` on Numbers. -/
def sub : JsNumber → JsNumber → JsNumber
  | nan, _ => nan
  | _, nan => nan
  | posInf, posInf => nan
  | negInf, negInf => nan
  | posInf, _ => posInf
  | negInf, _ => negInf
  | finite _, posInf => negInf
  | finite _, negInf => posInf
  | finite a, finite b => roundToDouble (a - b)

/-- The operator `*` on Numbers. -/
def mul : JsNumber → JsNumber → JsNumber
  | nan, _ => nan
  | _, nan => nan
  | finite a, finite b => roundToDouble (a * b)
  | finite a, posInf => if a = 0 then nan else if 0 < a then posInf else negInf
  | finite a, negInf => if a = 0 then nan else if 0 < a then negInf else posInf
  | posInf, finite b => if b = 0 then nan else if 0 < b then posInf else negInf
  | negInf, finite b => if b = 0 then nan else if 0 < b then negInf else posInf
  | posInf, posInf => posInf
  | negInf, negInf => posInf
  | posInf, negInf => negInf
  | negInf, posInf => negInf

/-- The operator `/` on Numbers.  A zero divisor is taken as `+0`. -/
def div : JsNumber → JsNumber → JsNumber
  | nan, _ => nan
  | _, nan => nan
  | finite a, finite b =>
    if b = 0 then (if a = 0 then nan else if 0 < a then posInf else negInf)
    else roundToDouble (a / b)
  | finite _, posInf => finite 0
  | finite _, negInf => finite 0
  | posInf, finite b => if 0 ≤ b then posInf else negInf
  | negInf, finite b => if 0 ≤ b then negInf else posInf
  | posInf, posInf => nan
  | posInf, negInf => nan
  | negInf, posInf => nan
  | negInf, negInf => nan

/-- The operator `<=` on Numbers: false when an operand is `NaN`. -/
def le : JsNumber → JsNumber → Bool
  | nan, _ => false
  | _, nan => false
  | negInf, _ => true
  | _, posInf => true
  | posInf, _ => false
  | _, negInf => false
  | finite a, finite b => decide (a ≤ b)

/-- The operator `>=` on Numbers. -/
def ge (a b : JsNumber) : Bool := le b a

/-- The operator `<` on Numbers. -/
def lt : JsNumber → JsNumber → Bool
  | nan, _ => false
  | _, nan => false
  | posInf, _ => false
  | _, negInf => false
  | negInf, _ => true
  | _, posInf => true
  | finite a, finite b => decide (a < b)

/-- The operator `===` on Numbers: `NaN` equals nothing. -/
def strictEquals : JsNumber → JsNumber → Bool
  | nan, _ => false
  | _, nan => false
  | a, b => decide (a = b)

/-- The call `Math.min(a, b)`. -/
def mathMin2 (a b : JsNumber) : JsNumber :=
  match a, b with
  | nan, _ => nan
  | _, nan => nan
  | a, b => if le a b then a else b

/-- The call `Math.max(a, b)`. -/
def mathMax2 (a b : JsNumber) : JsNumber :=
  match a, b with
  | nan, _ => nan
  | _, nan => nan
  | a, b => if le a b then b else a

/-- The function `Math.round`: the nearest integer, ties towards `+∞`. -/
def mathRound : JsNumber → JsNumber
  | finite x => finite ⌊x + 1 / 2⌋
  | other => other

/-- The global function `isNaN` on a Number. -/
def isNaN : JsNumber → Bool
  | nan => true
  | _ => false

/-- The largest magnitude that does not round to an infinity is below
`2 ^ 1024 - 2 ^ 970`. -/
def overflowThreshold : ℚ := (2 : ℚ) ^ 1024 - (2 : ℚ) ^ 970

/-- The value of the clamp as a rational. -/
def saturate : JsNumber → ℚ
  | posInf => 1
  | negInf => 0
  | finite x => max 0 (min 1 x)
  | nan => 0

/-- The angle for a normalized value `c` in `[0, 1]`. -/
def angleOf (c : ℚ) : ℤ := ⌊roundToGrid (c * 360) + 1 / 2⌋

end JsNumber

/-- The function `convertToAngle` (src draft lines 62-66, lib draft lines
62-66) on Numbers. -/
def Ieee.convertToAngle (value currentMin currentMax : JsNumber) : JsNumber :=
  if JsNumber.strictEquals currentMax currentMin then .finite 0
  else
    let normalizedValue :=
      JsNumber.mathMax2 (.finite 0)
        (JsNumber.mathMin2 (.finite 1)
          (JsNumber.div (JsNumber.sub value currentMin) (JsNumber.sub currentMax currentMin)))
    JsNumber.mathRound (JsNumber.mul normalizedValue (.finite 360))

/-! ## The signal pipeline on Numbers

The handlers of the pipeline with readings, bounds and angles as Numbers.  A
handler made by `useCallback` is a closure: the values of `minValue` and
`maxValue` it reads are those of the render that created it and are given as
arguments; what it writes goes to the state of the moment. -/

namespace Ieee

/-- The call `parseInt(text, 10)`: the double nearest to the integer that is
read, `NaN` when no digit is read. -/
def parseInt (text : List Char) : JsNumber :=
  match RightAngle.parseInt text with
  | none => .nan
  | some n => JsNumber.roundToDouble n

/-- The call `parseInt(text)` with no radix. -/
def parseIntAuto (text : List Char) : JsNumber :=
  match RightAngle.parseIntAuto text with
  | none => .nan
  | some n => JsNumber.roundToDouble n

/-- An entry of `history`: `{ value, angle, timestamp }`. -/
structure Reading where
  value : JsNumber
  angle : JsNumber
  timestamp : ℕ
  deriving DecidableEq, Repr

/-- A piece of a template literal: text, or a Number that `ToString` renders. -/
inductive Part where
  | text (s : String)
  | number (x : JsNumber)
  deriving DecidableEq, Repr

/-- One `toast({ title, description, variant })` call. -/
structure Toast where
  title : String
  description : List Part
  variant : ToastVariant
  deriving DecidableEq, Repr

/-- The state variables of `App` that the signal pipeline reads or writes,
with the log of toasts. -/
structure AppState where
  potValue : JsNumber
  angle : JsNumber
  minValue : JsNumber
  maxValue : JsNumber
  history : List Reading
  toasts : List Toast
  deriving DecidableEq, Repr

/-- The initial values of the `useState` calls. -/
def AppState.initial : AppState where
  potValue := .finite 0
  angle := .finite 0
  minValue := .finite 0
  maxValue := .finite 1023
  history := []
  toasts := []

/-- The update `setHistory(prev => [...prev, r].slice(-50))`. -/
def appendHistory (prev : List Reading) (r : Reading) : List Reading :=
  sliceFromEnd 50 (prev ++ [r])

/-- The handler `processIncomingData` of the src draft (lines 28-48), created
in a render with the range `minValue`, `maxValue`. -/
def processIncomingData (minValue maxValue : JsNumber) (s : AppState) (rawValue : String)
    (now : ℕ) : AppState :=
  let trimmed := jsTrim rawValue.data
  if trimmed ≠ [] ∧ RightAngle.isNaN trimmed = false then
    let newValue := parseInt trimmed
    let fullScale : Bool :=
      !(newValue.ge minValue && newValue.le maxValue) &&
        (newValue.ge (.finite 0) && newValue.le (.finite 1023))
    let currentMin := if fullScale then .finite 0 else minValue
    let currentMax := if fullScale then .finite 1023 else maxValue
    let newAngle := convertToAngle newValue currentMin currentMax
    { s with
      potValue := newValue
      angle := newAngle
      history := appendHistory s.history ⟨newValue, newAngle, now⟩ }
  else s

/-- The handler `processIncomingData` of the lib draft (lines 38-60), created
in a render with the range `minValue`, `maxValue`. -/
def LibDraft.processIncomingData (minValue maxValue : JsNumber) (s : AppState)
    (rawValue : String) (now : ℕ) : AppState :=
  let trimmed := jsTrim rawValue.data
  if trimmed ≠ [] ∧ RightAngle.isNaN trimmed = false then
    let newValue := parseInt trimmed
    if newValue.ge minValue && newValue.le maxValue then
      let currentAngle := convertToAngle newValue minValue maxValue
      { s with
        potValue := newValue
        angle := currentAngle
        history := appendHistory s.history ⟨newValue, currentAngle, now⟩ }
    else if newValue.ge (.finite 0) && newValue.le (.finite 1023) then
      let currentAngle := convertToAngle newValue (.finite 0) (.finite 1023)
      { s with
        potValue := newValue
        angle := currentAngle
        history := appendHistory s.history ⟨newValue, currentAngle, now⟩ }
    else s
  else s

/-- The loop of `Math.min`: `NaN` as soon as an argument is `NaN`, otherwise
the lowest argument so far. -/
def mathMinFrom (lowest : JsNumber) : List JsNumber → JsNumber
  | [] => lowest
  | number :: rest =>
    if number.isNaN then .nan
    else mathMinFrom (if number.lt lowest then number else lowest) rest

/-- The call `Math.min(...values)`. -/
def mathMin (values : List JsNumber) : JsNumber := mathMinFrom .posInf values

/-- The loop of `Math.max`. -/
def mathMaxFrom (highest : JsNumber) : List JsNumber → JsNumber
  | [] => highest
  | number :: rest =>
    if number.isNaN then .nan
    else mathMaxFrom (if highest.lt number then number else highest) rest

/-- The call `Math.max(...values)`. -/
def mathMax (values : List JsNumber) : JsNumber := mathMaxFrom .negInf values

/-- The toast of `resetCalibration`. -/
def calibrationResetToast : Toast :=
  ⟨"Calibration Reset", [.text "Min/Max values reset to default (0-1023)."], .default⟩

/-- The toast of `calibrateRange` on fewer than 10 readings. -/
def insufficientDataToast : Toast :=
  ⟨"Insufficient Data", [.text "Need at least 10 readings for calibration."], .destructive⟩

/-- The toast of `calibrateRange` when `newMin === newMax`. -/
def calibrationErrorToast : Toast :=
  ⟨"Calibration Error",
    [.text "Min and Max values are the same. Please provide varying data."], .destructive⟩

/-- The toast of a successful `calibrateRange`. -/
def calibrationCompleteToast (newMin newMax : JsNumber) : Toast :=
  ⟨"Calibration Complete! ✨",
    [.text "Range set to ", .number newMin, .text " - ", .number newMax, .text "."], .default⟩

/-- The handler `resetCalibration` (src draft lines 171-176). -/
def resetCalibration (s : AppState) : AppState :=
  { s with
    minValue := .finite 0
    maxValue := .finite 1023
    history := []
    toasts := s.toasts ++ [calibrationResetToast] }

/-- The handler `calibrateRange` (src draft lines 178-193, the same text as
lib draft lines 337-352). -/
def calibrateRange (s : AppState) : AppState :=
  if s.history.length < 10 then
    { s with toasts := s.toasts ++ [insufficientDataToast] }
  else
    let values := s.history.map fun h => h.value
    let newMin := mathMin values
    let newMax := mathMax values
    if newMin.strictEquals newMax then
      { s with toasts := s.toasts ++ [calibrationErrorToast] }
    else
      { s with
        minValue := newMin
        maxValue := newMax
        toasts := s.toasts ++ [calibrationCompleteToast newMin newMax] }

/-- The first digit of `String(x)` for a double `x ≥ 10 ^ 21`, which is in
exponent notation: `String` takes the shortest decimal that rounds to `x`, so
the digit is that of a one-digit decimal `d × 10 ^ n` that rounds to `x` when
there is one, and the first digit of `x` otherwise. -/
def shortestLeadingDigit (x : ℚ) : ℤ :=
  let m : ℕ := Nat.log 10 ⌊x⌋₊
  let oneDigit : Option ℕ := (List.range 10).find? fun (d : ℕ) =>
    decide (0 < d) && decide (JsNumber.roundToDouble ((d : ℚ) * 10 ^ m) = .finite x)
  match oneDigit with
  | some d => (d : ℤ)
  | none =>
    if JsNumber.roundToDouble (10 ^ (m + 1)) = .finite x then 1 else ⌊x / 10 ^ m⌋

/-- The call `parseInt(val)` on a Number that is an integer or an infinity:
`parseInt(String(val))`.  Below `10 ^ 21` the string is a decimal numeral that
rounds to `val`; from `10 ^ 21` on it is in exponent notation and `parseInt`
stops after the first digit; `Infinity` and `NaN` have no digit. -/
def parseIntOfNumber : JsNumber → JsNumber
  | .finite x =>
    if |x| < 10 ^ 21 then .finite x
    else if 0 < x then .finite (shortestLeadingDigit x)
    else .finite (-shortestLeadingDigit (-x))
  | _ => .nan

/-- The expression `x || fallback` on a Number: `0` and `NaN` are falsy. -/
def orElse (x fallback : JsNumber) : JsNumber :=
  if x.isNaN || decide (x = .finite 0) then fallback else x

/-- The minimum field: `onChange` of ControlsPanel.jsx line 25,
`onMinValueChange(parseInt(e.target.value) || 0)`, into the callback of the
src draft line 254, `setMinValue(isNaN(parseInt(val)) ? 0 : parseInt(val))`. -/
def onMinValueChange (s : AppState) (inputValue : String) : AppState :=
  let val := orElse (parseIntAuto inputValue.data) (.finite 0)
  { s with
    minValue := if (parseIntOfNumber val).isNaN then .finite 0 else parseIntOfNumber val }

/-- The maximum field: `onChange` of ControlsPanel.jsx line 35,
`onMaxValueChange(parseInt(e.target.value) || 1023)`, into the callback of the
src draft line 255, `setMaxValue(isNaN(parseInt(val)) ? 1023 : parseInt(val))`. -/
def onMaxValueChange (s : AppState) (inputValue : String) : AppState :=
  let val := orElse (parseIntAuto inputValue.data) (.finite 1023)
  { s with
    maxValue := if (parseIntOfNumber val).isNaN then .finite 1023 else parseIntOfNumber val }

/-- The handlers that read or write the calibration range or the history: a
line handled by a `processIncomingData` that was created with the range
`minValue`, `maxValue`; the two calibration buttons. -/
inductive PipelineEvent where
  | line (minValue maxValue : JsNumber) (rawValue : String) (now : ℕ)
  | calibrate
  | reset
  deriving DecidableEq, Repr

/-- One handler call of the src draft. -/
def applyEvent (s : AppState) : PipelineEvent → AppState
  | .line minValue maxValue rawValue now => processIncomingData minValue maxValue s rawValue now
  | .calibrate => calibrateRange s
  | .reset => resetCalibration s

/-- One handler call of the lib draft. -/
def LibDraft.applyEvent (s : AppState) : PipelineEvent → AppState
  | .line minValue maxValue rawValue now =>
    LibDraft.processIncomingData minValue maxValue s rawValue now
  | .calibrate => calibrateRange s
  | .reset => resetCalibration s

/-- Whether the src draft stores `NaN` for a line: the text passes `isNaN` and
`parseInt` reads no digit (`.5`, `Infinity`). -/
def storesNaN (rawValue : String) : Bool :=
  let trimmed := jsTrim rawValue.data
  trimmed != [] && !RightAngle.isNaN trimmed && (parseInt trimmed).isNaN

/-- The calibration invariant: both bounds are numbers and they differ. -/
def RangeOk (s : AppState) : Prop :=
  s.minValue ≠ .nan ∧ s.maxValue ≠ .nan ∧ s.minValue ≠ s.maxValue

/-- No reading of the history is `NaN`. -/
def Numeric (history : List Reading) : Prop := ∀ r ∈ history, r.value ≠ .nan

end Ieee

namespace Ieee

/-- The state after ten lines `.5` on a fresh page of the src draft: ten
readings whose value is `NaN`. -/
def nanState : AppState :=
  { AppState.initial with
    potValue := .nan
    angle := .nan
    history := (List.range 10).map fun i => ⟨.nan, .nan, i⟩ }

/-- A state whose history holds one `NaN` reading and nine readings with
values between 3 and 50. -/
def mixedState : AppState :=
  { AppState.initial with
    history := [⟨.nan, .nan, 0⟩, ⟨.finite 3, .finite 1, 1⟩, ⟨.finite 3, .finite 1, 2⟩,
      ⟨.finite 7, .finite 2, 3⟩, ⟨.finite 50, .finite 18, 4⟩, ⟨.finite 12, .finite 4, 5⟩,
      ⟨.finite 8, .finite 3, 6⟩, ⟨.finite 3, .finite 1, 7⟩, ⟨.finite 20, .finite 7, 8⟩,
      ⟨.finite 41, .finite 14, 9⟩] }

/-- A state whose history holds ten readings with values between 3 and 50. -/
def variedState : AppState :=
  { AppState.initial with
    history := [⟨.finite 3, .finite 1, 0⟩, ⟨.finite 3, .finite 1, 1⟩, ⟨.finite 3, .finite 1, 2⟩,
      ⟨.finite 7, .finite 2, 3⟩, ⟨.finite 50, .finite 18, 4⟩, ⟨.finite 12, .finite 4, 5⟩,
      ⟨.finite 8, .finite 3, 6⟩, ⟨.finite 3, .finite 1, 7⟩, ⟨.finite 20, .finite 7, 8⟩,
      ⟨.finite 41, .finite 14, 9⟩] }

/-- A state whose history holds ten readings of value 10. -/
def constantState : AppState :=
  { AppState.initial with history := List.replicate 10 ⟨.finite 10, .finite 4, 0⟩ }

end Ieee

/-! ## Connections with closures

The connection handlers of the src draft and of the hook once more, now with
what React and the DOM add to them.

* A handler is a function of one render: it reads the state variables of that
  render (`Snapshot`), whatever the state is when it runs.  A function made by
  `useCallback` is replaced in a render in which one of its dependencies has
  changed; the identifiers in a `Snapshot` tell these functions apart.
* A ref is read when the statement runs.
* `addEventListener` registers a function and `removeEventListener` removes a
  listener only when it is given the same function.
* `gatt.disconnect()` on a connected device fires `gattserverdisconnected` at
  the device before it returns, and each listener runs before the next
  statement of the caller.
* After a handler has run, the component is rendered again when a state
  variable has changed, and the effect of src draft lines 195-199 calls the
  `disconnect` of the previous render when `disconnect` has been replaced.
* A handler runs without a render in between, except `connectToBle`, which
  waits for the GATT server and goes on in a later step, and `connectToSerial`,
  which waits for the user after `await disconnect()`. -/

namespace Closure

/-- The state variables of `App` and of the hook as they are written; the
range stands for `minValue` and `maxValue`, of which only changes matter. -/
structure ReactState where
  isConnected : Bool
  connectionMethod : Option ConnectionMethod
  isReading : Bool
  serialPort : Option ℕ
  serialReader : Option ℕ
  bleDevice : Option ℕ
  rangeVersion : ℕ
  deriving DecidableEq, Repr

/-- One render: the values its functions close over, and the renders that made
the memoized functions it holds: `valueHandlerId` for `processIncomingData`
and `handleCharacteristicValueChanged` (dependency: the range), `bleId` for
`handleBleDisconnectCleanup`, `attemptBleReconnect`, `onBleDisconnected` and
`disconnectBle` (dependencies: `bleDevice` and the former), `serialId` for
`handleSerialDisconnectCleanup` (dependencies: `serialPort`, `serialReader`),
`disconnectId` for `disconnect` (dependencies: `connectionMethod`,
`serialPort` and the two cleanups). -/
structure Snapshot where
  render : ℕ
  state : ReactState
  valueHandlerId : ℕ
  bleId : ℕ
  serialId : ℕ
  disconnectId : ℕ
  deriving DecidableEq, Repr

/-- The statements of the connection handlers.  A platform call that can
reject carries its result; a call that takes a function carries the
identifier of the function (for a listener of `gattserverdisconnected` and for
a timer also the render that made it, which the function reads when it
runs). -/
inductive Action where
  | setIsConnected (connected : Bool)
  | setConnectionMethod (method : Option ConnectionMethod)
  | setIsReading (reading : Bool)
  | setSerialPort (port : Option ℕ)
  | setSerialReader (reader : Option ℕ)
  | setDemoIntervalRef (interval : Option ℕ)
  | toast (t : Toast)
  | clearInterval (interval : ℕ)
  | setInterval (interval : ℕ)
  | requestPort (port : Option ℕ)
  | portOpen (port : ℕ) (ok : Bool)
  | getReader (reader : ℕ)
  | readerRead (reader : ℕ)
  | readerCancel (reader : ℕ)
  | portClose (port : ℕ)
  | setBleDevice (device : Option ℕ)
  | setBleServerRef (server : Option ℕ)
  | setBleTxCharacteristicRef (characteristic : Option ℕ)
  | setReconnectAttempts (n : ℕ)
  | requestDevice (device : Option ℕ) (name : String)
  | addLostListener (device : ℕ) (handlerId : ℕ) (handler : Snapshot)
  | removeLostListener (device : ℕ) (handlerId : ℕ)
  | gattConnect (device : ℕ) (ok : Bool)
  | getPrimaryService (ok : Bool)
  | getCharacteristic (device : ℕ) (characteristic : Option ℕ)
  | startNotifications (characteristic : ℕ) (ok : Bool)
  | stopNotifications (characteristic : ℕ)
  | addValueListener (characteristic : ℕ) (handlerId : ℕ)
  | removeValueListener (characteristic : ℕ) (handlerId : ℕ)
  | gattDisconnect (device : ℕ)
  | setTimeoutReconnect (handler : Snapshot)
  deriving DecidableEq, Repr

/-- What the platform answers to `connectToBle`: the chosen device with its
`name` and `id`, whether it has a GATT server, how far the negotiation gets,
and the message of the error if a call rejects. -/
structure BleRequest where
  supported : Bool
  device : Option ℕ
  name : String
  id : String
  hasGatt : Bool
  outcome : BleOutcome
  message : String
  deriving DecidableEq, Repr

/-- The page and what the platform holds for it: the state as written, the
latest render, the refs, the running intervals, the open ports, the names of
the devices, the connected GATT servers, the device of each characteristic,
the characteristics that notify, the registered listeners (of a
characteristic: the identifier of the function; of a device: the identifier
and the render of the function), the pending reconnect timers, the calls of
`connectToBle` that wait for the GATT server, the toasts, and the statements
run so far. -/
structure World where
  state : ReactState
  rendered : Snapshot
  demoIntervalRef : Option ℕ
  bleServerRef : Option ℕ
  bleTxCharacteristicRef : Option ℕ
  reconnectAttemptsRef : ℕ
  activeIntervals : List ℕ
  openPorts : List ℕ
  deviceNames : List (ℕ × String)
  connectedDevices : List ℕ
  characteristics : List (ℕ × ℕ)
  notifying : List ℕ
  valueListeners : List (ℕ × ℕ)
  lostListeners : List (ℕ × ℕ × Snapshot)
  timers : List Snapshot
  pendingConnects : List (Snapshot × BleRequest)
  toasts : List Toast
  trace : List Action
  deriving DecidableEq, Repr

/-- The initial values of the `useState` calls. -/
def ReactState.initial : ReactState := ⟨false, none, false, none, none, none, 0⟩

/-- The first render. -/
def Snapshot.initial : Snapshot := ⟨0, ReactState.initial, 0, 0, 0, 0⟩

/-- A freshly mounted page. -/
def World.initial : World where
  state := ReactState.initial
  rendered := Snapshot.initial
  demoIntervalRef := none
  bleServerRef := none
  bleTxCharacteristicRef := none
  reconnectAttemptsRef := 0
  activeIntervals := []
  openPorts := []
  deviceNames := []
  connectedDevices := []
  characteristics := []
  notifying := []
  valueListeners := []
  lostListeners := []
  timers := []
  pendingConnects := []
  toasts := []
  trace := []

/-- Adds `x` unless it is there: `addEventListener` ignores a function that is
already registered. -/
def addOnce {α : Type} [DecidableEq α] (x : α) (xs : List α) : List α :=
  if x ∈ xs then xs else xs ++ [x]

/-- The `name` of a device, empty if it has none. -/
def World.deviceName (w : World) (d : ℕ) : String :=
  match w.deviceNames.find? fun p => p.1 = d with
  | some p => p.2
  | none => ""

/-- Whether the device of characteristic `ch` is connected
(`characteristic.service.device.gatt.connected`). -/
def World.characteristicConnected (w : World) (ch : ℕ) : Bool :=
  w.characteristics.any fun p => p.1 = ch ∧ p.2 ∈ w.connectedDevices

/-- The platform drops the link to `d`: the device is no longer connected and
its characteristics no longer notify. -/
def World.dropLink (w : World) (d : ℕ) : World :=
  { w with
    connectedDevices := w.connectedDevices.filter fun x => x ≠ d
    notifying := w.notifying.filter fun ch => (ch, d) ∉ w.characteristics }

/-- The effect of a statement, the dispatch of events apart. -/
def execBasic (a : Action) (w : World) : World :=
  match a with
  | .setIsConnected b => { w with state := { w.state with isConnected := b } }
  | .setConnectionMethod m => { w with state := { w.state with connectionMethod := m } }
  | .setIsReading b => { w with state := { w.state with isReading := b } }
  | .setSerialPort p => { w with state := { w.state with serialPort := p } }
  | .setSerialReader r => { w with state := { w.state with serialReader := r } }
  | .setDemoIntervalRef i => { w with demoIntervalRef := i }
  | .toast t => { w with toasts := w.toasts ++ [t] }
  | .clearInterval i => { w with activeIntervals := w.activeIntervals.filter fun j => j ≠ i }
  | .setInterval i => { w with activeIntervals := addOnce i w.activeIntervals }
  | .requestPort _ => w
  | .portOpen p ok => if ok then { w with openPorts := addOnce p w.openPorts } else w
  | .getReader _ => w
  | .readerRead _ => w
  | .readerCancel _ => w
  | .portClose p => { w with openPorts := w.openPorts.filter fun q => q ≠ p }
  | .setBleDevice d => { w with state := { w.state with bleDevice := d } }
  | .setBleServerRef v => { w with bleServerRef := v }
  | .setBleTxCharacteristicRef c => { w with bleTxCharacteristicRef := c }
  | .setReconnectAttempts n => { w with reconnectAttemptsRef := n }
  | .requestDevice d name =>
    match d with
    | some x => { w with deviceNames := addOnce (x, name) w.deviceNames }
    | none => w
  | .addLostListener d id h =>
    if w.lostListeners.any fun l => l.1 = d ∧ l.2.1 = id then w
    else { w with lostListeners := w.lostListeners ++ [(d, id, h)] }
  | .removeLostListener d id =>
    { w with lostListeners := w.lostListeners.filter fun l => ¬(l.1 = d ∧ l.2.1 = id) }
  | .gattConnect d ok =>
    if ok then { w with connectedDevices := addOnce d w.connectedDevices } else w
  | .getPrimaryService _ => w
  | .getCharacteristic d c =>
    match c with
    | some ch => { w with characteristics := addOnce (ch, d) w.characteristics }
    | none => w
  | .startNotifications c ok => if ok then { w with notifying := addOnce c w.notifying } else w
  | .stopNotifications c => { w with notifying := w.notifying.filter fun x => x ≠ c }
  | .addValueListener c id => { w with valueListeners := addOnce (c, id) w.valueListeners }
  | .removeValueListener c id =>
    { w with valueListeners := w.valueListeners.filter fun l => l ≠ (c, id) }
  | .gattDisconnect d => w.dropLink d
  | .setTimeoutReconnect h => { w with timers := w.timers ++ [h] }

/-- Runs one statement without dispatch: its effect, and its entry in the
trace. -/
def actBasic (w : World) (a : Action) : World :=
  { execBasic a w with trace := w.trace ++ [a] }

/-- The call `handleConnectionChange(connected, method, reading)` (src draft
lines 50-54), which the hook receives as `onConnectionChange`. -/
def handleConnectionChange (connected : Bool) (method : Option ConnectionMethod)
    (reading : Bool) : List Action :=
  [.setIsConnected connected, .setConnectionMethod method, .setIsReading reading]

/-- Whether `device.gatt.connected` holds of the device a function closes
over. -/
def gattConnected (c : Snapshot) (w : World) : Bool :=
  match c.state.bleDevice with
  | some d => decide (d ∈ w.connectedDevices)
  | none => false

/-- The statements of `handleBleDisconnectCleanup(informUser)` (hook lines
28-59) of the render `c`: `bleDevice` and the two listeners are those of `c`,
the refs are read when it runs.  A failing `stopNotifications` is only
logged. -/
def handleBleDisconnectCleanupScript (c : Snapshot) (informUser : Bool) (w : World) :
    List Action :=
  [.setBleTxCharacteristicRef none, .setBleServerRef none] ++
  (match w.bleTxCharacteristicRef with
    | some ch =>
      if gattConnected c w then [.removeValueListener ch c.valueHandlerId, .stopNotifications ch]
      else []
    | none => []) ++
  (match c.state.bleDevice with
    | some d =>
      .removeLostListener d c.bleId ::
        (if d ∈ w.connectedDevices then [.gattDisconnect d] else [])
    | none => []) ++
  [.setBleDevice none] ++ handleConnectionChange false none false ++
  [.setReconnectAttempts 0] ++
  (if informUser then [.toast bluetoothDisconnectedToast] else [])

/-- The statements of `handleBleDisconnectCleanup()` of the lib draft (lines
251-282) of the render `c`.  The lib draft memoizes none of its BLE functions:
each render makes its own, told apart by `c.render`. -/
def LibDraft.handleBleDisconnectCleanupScript (c : Snapshot) (w : World) : List Action :=
  [.setBleTxCharacteristicRef none, .setBleServerRef none, .setBleDevice none] ++
  (match w.bleTxCharacteristicRef with
    | some ch =>
      .removeValueListener ch c.render ::
        (if gattConnected c w then [.stopNotifications ch] else [])
    | none => []) ++
  (match c.state.bleDevice with
    | some d =>
      .removeLostListener d c.render ::
        (if d ∈ w.connectedDevices then [.gattDisconnect d] else [])
    | none => []) ++
  [.setIsConnected false, .setConnectionMethod none, .setIsReading false,
    .setReconnectAttempts 0]

/-- The statements of `onBleDisconnected` (hook lines 90-114) of the render `c`
up to the test of `bleDevice`, and its first branch; `name` is
`event.target.name`. -/
def onBleDisconnectedScript (c : Snapshot) (name : String) (w : World) : List Action :=
  [.toast (connectionLostToast name)] ++
  (match w.bleTxCharacteristicRef with
    | some ch =>
      [.removeValueListener ch c.valueHandlerId] ++
        (if w.characteristicConnected ch then [.stopNotifications ch] else []) ++
        [.setBleTxCharacteristicRef none]
    | none => []) ++
  [.setBleServerRef none] ++ handleConnectionChange false none false ++
  (match c.state.bleDevice with
    | some _ => [.setReconnectAttempts 0, .setTimeoutReconnect c]
    | none => [])

/-- The handler `onBleDisconnected` (hook lines 90-114) of the render `c`, its
statements run by `runner`: with a device in `c` it arms the reconnect timer,
else it calls the cleanup of `c`. -/
def onBleDisconnectedWith (runner : World → List Action → World) (c : Snapshot)
    (name : String) (w : World) : World :=
  let w1 := runner w (onBleDisconnectedScript c name w)
  match c.state.bleDevice with
  | some _ => w1
  | none => runner w1 (handleBleDisconnectCleanupScript c false w1)

/-- The statements of `onBleDisconnected` of the lib draft (lines 169-196) of
the render `c` up to the test of `bleDevice`, and its first branch. -/
def LibDraft.onBleDisconnectedScript (c : Snapshot) (name : String) (w : World) :
    List Action :=
  [.toast (connectionLostToast name)] ++
  (match w.bleTxCharacteristicRef with
    | some ch =>
      [.removeValueListener ch c.render] ++
        (if w.characteristicConnected ch then [.stopNotifications ch] else []) ++
        [.setBleTxCharacteristicRef none]
    | none => []) ++
  [.setBleServerRef none, .setIsConnected false, .setConnectionMethod none,
    .setIsReading false] ++
  (match c.state.bleDevice with
    | some _ => [.setReconnectAttempts 0, .setTimeoutReconnect c]
    | none => [])

/-- The handler `onBleDisconnected` of the lib draft (lines 169-196) of the
render `c`, its statements run by `runner`. -/
def LibDraft.onBleDisconnectedWith (runner : World → List Action → World) (c : Snapshot)
    (name : String) (w : World) : World :=
  let w1 := runner w (LibDraft.onBleDisconnectedScript c name w)
  match c.state.bleDevice with
  | some _ => w1
  | none => runner w1 (LibDraft.handleBleDisconnectCleanupScript c w1)

/-- The dispatch of `gattserverdisconnected` at device `d`: the listeners
registered on `d` run in the order of their registration, one that has been
removed meanwhile is left out. -/
def dispatchWith (handler : Snapshot → String → World → World) (d : ℕ) (w : World) : World :=
  (w.lostListeners.filter fun l => l.1 = d).foldl
    (fun w1 l => if l ∈ w1.lostListeners then handler l.2.2 (w1.deviceName d) w1 else w1)
    w

/-- Runs one statement.  When `gatt.disconnect()` is called on a connected
device, the listeners of the device run before the next statement. -/
def actWith (handler : Snapshot → String → World → World) (w : World) (a : Action) : World :=
  match a with
  | .gattDisconnect d =>
    if d ∈ w.connectedDevices then dispatchWith handler d (actBasic w a) else actBasic w a
  | _ => actBasic w a

/-- Runs statements in order; `listener` is the body of the listeners of
`gattserverdisconnected`.  `depth` bounds the nesting of calls of
`gatt.disconnect()` inside listeners, and a call nested deeper only drops the
link. -/
def actsWith (listener : (World → List Action → World) → Snapshot → String → World → World) :
    (depth : ℕ) → World → List Action → World
  | 0, w, as => as.foldl actBasic w
  | depth + 1, w, as =>
    as.foldl (actWith (listener fun w2 bs => actsWith listener depth w2 bs)) w

/-- Runs statements of the hook in order, with the dispatch of
`gattserverdisconnected`.  A nested call of `gatt.disconnect()` dispatches
only on another device that is still connected, so the number of connected
devices bounds the nesting. -/
def run (w : World) (as : List Action) : World :=
  actsWith onBleDisconnectedWith w.connectedDevices.length w as

/-- Runs statements of the lib draft in order. -/
def LibDraft.run (w : World) (as : List Action) : World :=
  actsWith LibDraft.onBleDisconnectedWith w.connectedDevices.length w as

/-- The handler `onBleDisconnected` of the render `c`. -/
def onBleDisconnected (c : Snapshot) (name : String) (w : World) : World :=
  onBleDisconnectedWith run c name w

/-- The handler `handleBleDisconnectCleanup` (hook lines 28-59) of the render
`c`. -/
def handleBleDisconnectCleanup (c : Snapshot) (informUser : Bool) (w : World) : World :=
  run w (handleBleDisconnectCleanupScript c informUser w)

/-- The handler `handleBleDisconnectCleanup` of the lib draft (lines 251-282)
of the render `c`. -/
def LibDraft.handleBleDisconnectCleanup (c : Snapshot) (w : World) : World :=
  LibDraft.run w (LibDraft.handleBleDisconnectCleanupScript c w)

/-- The handler `disconnectBle` (hook lines 168-170) of the render `c`. -/
def disconnectBle (c : Snapshot) (w : World) : World :=
  handleBleDisconnectCleanup c true w

/-- The `try` block of `attemptBleReconnect` (hook lines 73-83) of the render
`c` up to the call that rejects, or to its end. -/
def reconnectTryScript (c : Snapshot) (d : ℕ) : BleOutcome → List Action
  | .connectFails => [.gattConnect d false]
  | .serviceFails v => [.gattConnect d true, .setBleServerRef (some v), .getPrimaryService false]
  | .characteristicFails v =>
    [.gattConnect d true, .setBleServerRef (some v), .getPrimaryService true,
      .getCharacteristic d none]
  | .notificationsFail v ch =>
    [.gattConnect d true, .setBleServerRef (some v), .getPrimaryService true,
      .getCharacteristic d (some ch), .setBleTxCharacteristicRef (some ch),
      .startNotifications ch false]
  | .ok v ch =>
    [.gattConnect d true, .setBleServerRef (some v), .getPrimaryService true,
      .getCharacteristic d (some ch), .setBleTxCharacteristicRef (some ch),
      .startNotifications ch true, .addValueListener ch c.valueHandlerId] ++
    handleConnectionChange true (some .ble) true ++
    [.setReconnectAttempts 0, .toast bluetoothReconnectedToast]

/-- The handler `attemptBleReconnect` (hook lines 62-88) of the render `c`;
`outcome` is what the platform answers if it tries.  The timer it arms after a
failure holds the same function. -/
def attemptBleReconnect (c : Snapshot) (outcome : BleOutcome) (w : World) : World :=
  match c.state.bleDevice with
  | none => handleBleDisconnectCleanup c false (run w [.toast bleReconnectFailedToast])
  | some d =>
    if w.reconnectAttemptsRef ≥ MAX_RECONNECT_ATTEMPTS then
      handleBleDisconnectCleanup c false (run w [.toast bleReconnectFailedToast])
    else
      run w
        ([.setReconnectAttempts (w.reconnectAttemptsRef + 1),
            .toast (bleReconnectingToast (w.reconnectAttemptsRef + 1))] ++
          reconnectTryScript c d outcome ++
          (if outcome.isFailure then [.setTimeoutReconnect c] else []))

/-- The text `device.name || device.id`. -/
def BleRequest.label (r : BleRequest) : String :=
  if r.name = "" then r.id else r.name

/-- The `try` block of `connectToBle` from `device.gatt.connect()` on (hook
lines 144-159) of the render `c` up to the call that rejects, or to its end. -/
def connectTryScript (c : Snapshot) (d : ℕ) (label : String) : BleOutcome → List Action
  | .connectFails => [.gattConnect d false]
  | .serviceFails v =>
    [.gattConnect d true, .setBleServerRef (some v), .toast fetchingServiceToast,
      .getPrimaryService false]
  | .characteristicFails v =>
    [.gattConnect d true, .setBleServerRef (some v), .toast fetchingServiceToast,
      .getPrimaryService true, .toast fetchingCharacteristicToast, .getCharacteristic d none]
  | .notificationsFail v ch =>
    [.gattConnect d true, .setBleServerRef (some v), .toast fetchingServiceToast,
      .getPrimaryService true, .toast fetchingCharacteristicToast,
      .getCharacteristic d (some ch), .setBleTxCharacteristicRef (some ch),
      .startNotifications ch false]
  | .ok v ch =>
    [.gattConnect d true, .setBleServerRef (some v), .toast fetchingServiceToast,
      .getPrimaryService true, .toast fetchingCharacteristicToast,
      .getCharacteristic d (some ch), .setBleTxCharacteristicRef (some ch),
      .startNotifications ch true, .addValueListener ch c.valueHandlerId] ++
    handleConnectionChange true (some .ble) true ++
    [.setReconnectAttempts 0, .toast (bluetoothConnectedToast label)]

/-- The handler `connectToBle` (hook lines 116-166) of the render `c` up to
`await device.gatt.connect()` (line 144), where the call is left pending, or
to its end if it ends before. -/
def connectToBle (c : Snapshot) (r : BleRequest) (w : World) : World :=
  if !r.supported then run w [.toast webBluetoothNotSupportedToast]
  else
    match r.device with
    | none =>
      handleBleDisconnectCleanup c false
        (run w
          [.toast requestingDeviceToast, .requestDevice none r.name,
            .toast (bluetoothConnectionFailedToast r.message)])
    | some d =>
      let w1 :=
        run w
          [.toast requestingDeviceToast, .requestDevice (some d) r.name, .setBleDevice (some d),
            .removeLostListener d c.bleId, .addLostListener d c.bleId c,
            .toast (connectingGattToast r.label)]
      if !r.hasGatt then handleBleDisconnectCleanup c false (run w1 [.toast gattNotFoundToast])
      else { w1 with pendingConnects := w1.pendingConnects ++ [(c, r)] }

/-- The rest of `connectToBle` (hook lines 144-165) of the render `c`, once
the GATT server has answered. -/
def connectToBleResume (c : Snapshot) (r : BleRequest) (w : World) : World :=
  match r.device with
  | none => w
  | some d =>
    if r.outcome.isFailure then
      handleBleDisconnectCleanup c false
        (run w
          (connectTryScript c d r.label r.outcome ++
            [.toast (bluetoothConnectionFailedToast r.message)]))
    else run w (connectTryScript c d r.label r.outcome)

/-- The statements of `handleSerialDisconnectCleanup(informUser)` (src draft
lines 79-98) of the render `c`.  A failing `cancel` or `close` is only
logged. -/
def handleSerialDisconnectCleanupScript (c : Snapshot) (informUser : Bool) : List Action :=
  (match c.state.serialReader with
    | some r => [.readerCancel r, .setSerialReader none]
    | none => []) ++
  (match c.state.serialPort with
    | some p => [.portClose p, .setSerialPort none]
    | none => []) ++
  [.setIsConnected false, .setConnectionMethod none, .setIsReading false] ++
  (if informUser then [.toast serialDisconnectedToast] else [])

/-- The handler `handleSerialDisconnectCleanup` (src draft lines 79-98) of the
render `c`. -/
def handleSerialDisconnectCleanup (c : Snapshot) (informUser : Bool) (w : World) : World :=
  run w (handleSerialDisconnectCleanupScript c informUser)

/-- The handler `disconnect` (src draft lines 148-162) of the render `c`:
`connectionMethod` and `serialPort` are those of `c`, `demoIntervalRef` is read
when it runs. -/
def disconnect (c : Snapshot) (w : World) : World :=
  let w1 := run w [.setIsReading false]
  if c.state.connectionMethod = some .serial ∧ c.state.serialPort ≠ none then
    handleSerialDisconnectCleanup c true w1
  else if c.state.connectionMethod = some .ble then disconnectBle c w1
  else
    match w1.demoIntervalRef with
    | some i =>
      if c.state.connectionMethod = some .demo then
        run w1
          [.clearInterval i, .setDemoIntervalRef none, .setIsConnected false,
            .setConnectionMethod none, .toast demoDisconnectedToast]
      else w1
    | none => w1

/-- The state a render shows and its functions close over, after the state
`w.state` has been written: a memoized function is made anew when one of its
dependencies differs from the previous render. -/
def nextSnapshot (w : World) : Snapshot :=
  let p := w.rendered
  let n := p.render + 1
  let valueHandlerId :=
    if w.state.rangeVersion = p.state.rangeVersion then p.valueHandlerId else n
  let bleId :=
    if w.state.bleDevice = p.state.bleDevice ∧ valueHandlerId = p.valueHandlerId then p.bleId
    else n
  let serialId :=
    if w.state.serialPort = p.state.serialPort ∧ w.state.serialReader = p.state.serialReader
    then p.serialId
    else n
  let disconnectId :=
    if w.state.connectionMethod = p.state.connectionMethod ∧
        w.state.serialPort = p.state.serialPort ∧ serialId = p.serialId ∧ bleId = p.bleId
    then p.disconnectId
    else n
  ⟨n, w.state, valueHandlerId, bleId, serialId, disconnectId⟩

/-- One render, if a state variable has changed, with the effect of src draft
lines 195-199: when `disconnect` has been replaced, the `disconnect` of the
previous render is called. -/
def render (w : World) : World :=
  if w.state = w.rendered.state then w
  else
    let w1 := { w with rendered := nextSnapshot w }
    if (nextSnapshot w).disconnectId = w.rendered.disconnectId then w1
    else disconnect w.rendered w1

/-- Renders until the state shown is the state written, at most `fuel`
times. -/
def settleFor : (fuel : ℕ) → World → World
  | 0, w => w
  | fuel + 1, w => if w.state = w.rendered.state then w else settleFor fuel (render w)

/-- Renders until the state shown is the state written; sixteen renders are
more than a handler of this page can cause. -/
def settle (w : World) : World := settleFor 16 w

/-- The function `readSerialData(reader)` (src draft lines 100-120) of the
render `c`: the loop reads only if `isReading` and `serialPort` hold in
`c`. -/
def readSerialDataScript (c : Snapshot) (reader : ℕ) : List Action :=
  if c.state.isReading ∧ c.state.serialPort ≠ none then [.readerRead reader] else []

/-- The handler `connectToSerial` (src draft lines 122-146) of the render
`c`. -/
def connectToSerial (c : Snapshot) (r : SerialRequest) (w : World) : World :=
  if !r.supported then run w [.toast webSerialNotSupportedToast]
  else
    let w1 := settle (disconnect c w)
    match r.port with
    | none =>
      handleSerialDisconnectCleanup c false
        (run w1 [.requestPort none, .toast (serialConnectionFailedToast r.message)])
    | some p =>
      if !r.openOk then
        handleSerialDisconnectCleanup c false
          (run w1
            [.requestPort (some p), .portOpen p false,
              .toast (serialConnectionFailedToast r.message)])
      else
        run w1
          ([.requestPort (some p), .portOpen p true, .setSerialPort (some p),
              .getReader r.reader, .setSerialReader (some r.reader)] ++
            handleConnectionChange true (some .serial) true ++
            [.toast serialConnectedToast] ++ readSerialDataScript c r.reader)

/-- The handler `startDemo` (src draft lines 164-169) of the render `c`;
`interval` is the identifier `setInterval` returns. -/
def startDemo (c : Snapshot) (interval : ℕ) (w : World) : World :=
  run (disconnect c w)
    (handleConnectionChange true (some .demo) true ++
      [.setInterval interval, .setDemoIntervalRef (some interval), .toast demoStartedToast])

/-- The link to device `d` drops without a call of the page: the platform
marks it disconnected and fires `gattserverdisconnected` at it. -/
def linkLost (d : ℕ) (w : World) : World :=
  if d ∈ w.connectedDevices then dispatchWith onBleDisconnected d (w.dropLink d) else w

/-- What happens to the page: a click on one of its buttons, an answer of the
platform, or a change of the range. -/
inductive Event where
  | clickStartDemo (interval : ℕ)
  | clickConnectSerial (r : SerialRequest)
  | clickConnectBle (r : BleRequest)
  | gattAnswers
  | clickDisconnect
  | linkLost (device : ℕ)
  | timerFires (outcome : BleOutcome)
  | rangeChanged
  deriving DecidableEq, Repr

/-- Whether the page offers the event: `ConnectionStatus.jsx` lines 62-82
render the three connect buttons while `isConnected` is false and the
Disconnect button while it is true; the platform needs no button. -/
def Event.enabled (w : World) : Event → Bool
  | .clickStartDemo _ => !w.rendered.state.isConnected
  | .clickConnectSerial _ => !w.rendered.state.isConnected
  | .clickConnectBle _ => !w.rendered.state.isConnected
  | .clickDisconnect => w.rendered.state.isConnected
  | .gattAnswers => !w.pendingConnects.isEmpty
  | .linkLost d => decide (d ∈ w.connectedDevices)
  | .timerFires _ => !w.timers.isEmpty
  | .rangeChanged => true

/-- The handler of an event, run with the functions of the latest render; a
pending `connectToBle` and a timer run the function they hold. -/
def handle (e : Event) (w : World) : World :=
  match e with
  | .clickStartDemo interval => startDemo w.rendered interval w
  | .clickConnectSerial r => connectToSerial w.rendered r w
  | .clickConnectBle r => connectToBle w.rendered r w
  | .gattAnswers =>
    match w.pendingConnects with
    | [] => w
    | (c, r) :: rest => connectToBleResume c r { w with pendingConnects := rest }
  | .clickDisconnect => disconnect w.rendered w
  | .linkLost d => linkLost d w
  | .timerFires outcome =>
    match w.timers with
    | [] => w
    | c :: rest => attemptBleReconnect c outcome { w with timers := rest }
  | .rangeChanged => { w with state := { w.state with rangeVersion := w.state.rangeVersion + 1 } }

/-- One step of the page: the handler of an event the page offers, then the
renders it causes with their effects. -/
def step (w : World) (e : Event) : World :=
  if e.enabled w then settle (handle e w) else w

/-- A run of the page. -/
def runEvents (w : World) (events : List Event) : World :=
  events.foldl step w

/-- Whether the demo adapter is active: an interval of the page runs. -/
def demoActive (w : World) : Bool := !w.activeIntervals.isEmpty

/-- Whether the serial adapter is active: a port is open. -/
def serialActive (w : World) : Bool := !w.openPorts.isEmpty

/-- Whether the BLE adapter is active: a characteristic notifies a registered
listener. -/
def bleActive (w : World) : Bool := w.valueListeners.any fun l => l.1 ∈ w.notifying

/-- The number of adapters that are active. -/
def activeAdapters (w : World) : ℕ :=
  (if demoActive w then 1 else 0) + (if serialActive w then 1 else 0) +
    (if bleActive w then 1 else 0)

/-- A request that the BLE platform serves in full: device 7, server 8,
characteristic 9. -/
def goodBleRequest : BleRequest :=
  ⟨true, some 7, "PotUART", "id7", true, .ok 8 9, ""⟩

/-- Whether a statement is a reconnect attempt or a connect: a call of
`gatt.connect()`. -/
def Action.isGattConnect : Action → Bool
  | .gattConnect _ _ => true
  | _ => false

/-- A page connected over BLE: Connect Bluetooth is clicked on a fresh page,
device 7 named PotUART is chosen, and the GATT server answers in full. -/
def connectedWorld : World :=
  runEvents World.initial [.clickConnectBle goodBleRequest, .gattAnswers]

/-- A request that the serial platform serves in full: port 3, reader 5. -/
def goodSerialRequest : SerialRequest :=
  ⟨true, some 3, true, 5, ""⟩

/-- A page connected over serial by a click on Connect Serial. -/
def serialWorld : World :=
  runEvents World.initial [.clickConnectSerial goodSerialRequest]

/-- A page whose demo runs on interval 1 after a click on Start Demo. -/
def demoWorld : World :=
  runEvents World.initial [.clickStartDemo 1]

/-- The statements run between two states of a run. -/
def stepsSince (before after : World) : List Action :=
  after.trace.drop before.trace.length

/-- The toasts shown between two states of a run. -/
def toastsSince (before after : World) : List Toast :=
  after.toasts.drop before.toasts.length

/-- Whether the page offers each event of a run when its turn comes. -/
def allEnabled : World → List Event → Bool
  | _, [] => true
  | w, e :: rest => e.enabled w && allEnabled (step w e) rest

/-- Whether a statement leaves the demo interval and the serial port alone. -/
def Action.leavesDemoAndSerial : Action → Bool
  | .clearInterval _ => false
  | .setInterval _ => false
  | .setDemoIntervalRef _ => false
  | .portOpen _ _ => false
  | .portClose _ => false
  | _ => true

/-- The statements that end every teardown of the hook: the device handle is
released, `Disconnected` is reported, the counter is reset, and the user is
told if asked for. -/
def cleanupTail (informUser : Bool) : List Action :=
  [.setBleDevice none, .setIsConnected false, .setConnectionMethod none, .setIsReading false,
    .setReconnectAttempts 0] ++
  (if informUser then [.toast bluetoothDisconnectedToast] else [])

/-- The statements that end every teardown of the lib draft. -/
def LibDraft.cleanupTail : List Action :=
  [.setIsConnected false, .setConnectionMethod none, .setIsReading false,
    .setReconnectAttempts 0]

/-- The page of `connectedWorld` after the link to device 7 has dropped. -/
def lostWorld : World :=
  step connectedWorld (.linkLost 7)

/-- The page of `connectedWorld` after a click on Disconnect. -/
def disconnectedWorld : World :=
  step connectedWorld .clickDisconnect

/-- A page on which Connect Bluetooth is clicked and device 7 chosen, and
Start Demo is clicked while the GATT server has not answered yet. -/
def demoBesideBle : World :=
  runEvents World.initial [.clickConnectBle goodBleRequest, .clickStartDemo 1]

/-- The events of a page on which Connect Bluetooth is clicked a second time,
and device 7 chosen again, before the GATT server has answered the first
click; then both calls are answered and the link drops. -/
def twoClicksThenLoss : List Event :=
  [.clickConnectBle goodBleRequest, .clickConnectBle goodBleRequest, .gattAnswers, .gattAnswers,
    .linkLost 7]

/-- Whether the renders have caught up with the state before each event of a
run and at its end: the bound of `settle` was not reached. -/
def settledAlong : World → List Event → Bool
  | w, [] => decide (w.state = w.rendered.state)
  | w, e :: rest => decide (w.state = w.rendered.state) && settledAlong (step w e) rest

end Closure

/-! ## The angle converter -/

theorem convertToAngleChecked_eq (v lo hi : ℤ) :
    convertToAngleChecked v lo hi = some (convertToAngle v lo hi) := by
  unfold convertToAngleChecked convertToAngle jsDivide
  by_cases h : hi = lo
  · simp [h]
  · have : hi - lo ≠ 0 := by omega
    simp [h, this]

/-- C4. For all integers `v` and `lo`, `convertToAngle v lo lo = 0`; the guard
returns before the quotient is formed, so that the checked conversion never
meets a zero divisor, whatever its arguments. -/
theorem convertToAngle_degenerate (v lo : ℤ) :
    convertToAngle v lo lo = 0 ∧ convertToAngleChecked v lo lo = some 0 ∧
      ∀ hi : ℤ, convertToAngleChecked v lo hi ≠ none := by
  have h0 : convertToAngle v lo lo = 0 := by simp [convertToAngle]
  refine ⟨h0, ?_, ?_⟩
  · rw [convertToAngleChecked_eq, h0]
  · intro hi
    rw [convertToAngleChecked_eq]
    exact Option.some_ne_none _

/-! ## The history buffer -/

theorem sliceFromEnd_suffix {α : Type} (k : ℕ) (xs : List α) : sliceFromEnd k xs <:+ xs :=
  List.drop_suffix _ _

theorem sliceFromEnd_length {α : Type} (k : ℕ) (xs : List α) :
    (sliceFromEnd k xs).length = min xs.length k := by
  unfold sliceFromEnd
  rw [List.length_drop]
  omega

theorem sliceFromEnd_append_singleton {α : Type} (k : ℕ) (xs : List α) (x : α) :
    sliceFromEnd k (sliceFromEnd k xs ++ [x]) = sliceFromEnd k (xs ++ [x]) := by
  have hlen := sliceFromEnd_length k xs
  unfold sliceFromEnd at hlen ⊢
  have happ : List.drop (xs.length - k) xs ++ [x] = List.drop (xs.length - k) (xs ++ [x]) :=
    (List.drop_append_of_le_length (by omega)).symm
  rw [List.length_append, hlen, happ, List.drop_drop, List.length_append]
  congr 1
  simp only [List.length_singleton]
  omega

theorem foldl_appendHistory (rs : List Reading) :
    rs.foldl appendHistory [] = sliceFromEnd 50 rs := by
  induction rs using List.reverseRecOn with
  | nil => rfl
  | append_singleton rs r ih =>
    rw [List.foldl_append, List.foldl_cons, List.foldl_nil, ih]
    exact sliceFromEnd_append_singleton 50 rs r

theorem appendHistory_length_le (h : List Reading) (r : Reading) :
    (appendHistory h r).length ≤ 50 := by
  unfold appendHistory
  rw [sliceFromEnd_length]
  omega

theorem calibrateRange_history (s : AppState) : (calibrateRange s).history = s.history := by
  unfold calibrateRange
  split
  · rfl
  · dsimp only
    split <;> rfl

theorem processIncomingData_history {s s1 : AppState} {rawValue : String} {now : ℕ}
    (h : processIncomingData s rawValue now = some s1) :
    s1.history = s.history ∨ ∃ r, s1.history = appendHistory s.history r := by
  unfold processIncomingData at h
  dsimp only at h
  split at h
  · split at h
    · exact absurd h (by simp)
    · simp only [Option.some.injEq] at h
      subst h
      exact Or.inr ⟨_, rfl⟩
  · simp only [Option.some.injEq] at h
    subst h
    exact Or.inl rfl

theorem applyEvent_history_le {s s1 : AppState} {e : PipelineEvent}
    (hs : s.history.length ≤ 50) (h : applyEvent s e = some s1) : s1.history.length ≤ 50 := by
  cases e with
  | line rawValue now =>
    rcases processIncomingData_history h with h1 | ⟨r, h1⟩
    · rw [h1]; exact hs
    · rw [h1]; exact appendHistory_length_le _ _
  | calibrate =>
    simp only [applyEvent, Option.some.injEq] at h
    subst h
    rw [calibrateRange_history]
    exact hs
  | reset =>
    simp only [applyEvent, Option.some.injEq] at h
    subst h
    simp [resetCalibration]

theorem runEvents_history_le (evs : List PipelineEvent) :
    ∀ s s1 : AppState, s.history.length ≤ 50 → runEvents s evs = some s1 →
      s1.history.length ≤ 50 := by
  induction evs with
  | nil =>
    intro s s1 hs h
    simp only [runEvents, Option.some.injEq] at h
    subst h
    exact hs
  | cons e es ih =>
    intro s s1 hs h
    simp only [runEvents] at h
    cases hstep : applyEvent s e with
    | none => simp [hstep] at h
    | some s2 =>
      rw [hstep] at h
      exact ih s2 s1 (applyEvent_history_le hs hstep) h

/-- C5. History is a first-in first-out buffer of capacity 50: appending `r`
to `h` leaves the last 50 entries of `h ++ [r]`; after `n` appends to the empty
history it is the last `min n 50` appended readings in arrival order; and in
every state the handlers reach from the initial one it has at most 50
entries. -/
theorem history_fifo :
    (∀ (h : List Reading) (r : Reading),
        appendHistory h r <:+ h ++ [r] ∧ (appendHistory h r).length = min (h.length + 1) 50) ∧
      (∀ rs : List Reading,
        rs.foldl appendHistory [] <:+ rs ∧
          (rs.foldl appendHistory []).length = min rs.length 50) ∧
      (∀ (evs : List PipelineEvent) (s : AppState),
        runEvents AppState.initial evs = some s → s.history.length ≤ 50) := by
  refine ⟨fun h r => ⟨sliceFromEnd_suffix _ _, ?_⟩, fun rs => ?_, fun evs s hrun => ?_⟩
  · unfold appendHistory
    rw [sliceFromEnd_length]
    simp
  · rw [foldl_appendHistory]
    exact ⟨sliceFromEnd_suffix _ _, sliceFromEnd_length _ _⟩
  · exact runEvents_history_le evs AppState.initial s (by simp [AppState.initial]) hrun

/-! ## Reading a line -/

theorem digit_not_whiteSpace {c : Char} (h : isDecimalDigit c = true) :
    isStrWhiteSpaceChar c = false := by
  simp only [isDecimalDigit, Bool.and_eq_true, decide_eq_true_eq] at h
  simp only [isStrWhiteSpaceChar, Bool.or_eq_false_iff, Bool.and_eq_false_imp, beq_eq_false_iff_ne,
    decide_eq_true_eq, decide_eq_false_iff_not]
  omega

theorem digit_ne_plus {c : Char} (h : isDecimalDigit c = true) : c ≠ '+' := by
  rintro rfl
  exact absurd h (by decide)

theorem digit_ne_minus {c : Char} (h : isDecimalDigit c = true) : c ≠ '-' := by
  rintro rfl
  exact absurd h (by decide)

theorem dropSign_digit {c : Char} (t : List Char) (h : isDecimalDigit c = true) :
    dropSign (c :: t) = c :: t := by
  unfold dropSign
  split
  · rename_i heq
    simp only [List.cons.injEq] at heq
    exact absurd heq.1 (digit_ne_plus h)
  · rename_i heq
    simp only [List.cons.injEq] at heq
    exact absurd heq.1 (digit_ne_minus h)
  · rfl

theorem dropWhile_eq_self {p : Char → Bool} :
    ∀ l : List Char, (∀ c, l.head? = some c → p c = false) → l.dropWhile p = l
  | [], _ => rfl
  | c :: t, h => by simp [List.dropWhile_cons, h c rfl]

theorem jsTrim_eq_self {t : List Char} (h : ∀ c ∈ t, isStrWhiteSpaceChar c = false) :
    jsTrim t = t := by
  unfold jsTrim
  rw [dropWhile_eq_self t, dropWhile_eq_self t.reverse, List.reverse_reverse]
  · intro c hc
    exact h c (List.mem_reverse.mp (List.mem_of_mem_head? hc))
  · intro c hc
    exact h c (List.mem_of_mem_head? hc)

theorem isStrUnsignedDecimalLiteral_digits {ds : List Char} (hne : ds ≠ [])
    (hd : ∀ c ∈ ds, isDecimalDigit c = true) : isStrUnsignedDecimalLiteral ds = true := by
  unfold isStrUnsignedDecimalLiteral
  have h1 : ds.dropWhile isDecimalDigit = [] := List.dropWhile_eq_nil_iff.mpr hd
  have h2 : ds.takeWhile isDecimalDigit = ds := List.takeWhile_eq_self_iff.mpr hd
  rw [h1, h2]
  simp [hne, isExponentPartOrEmpty]

theorem parse_integerLiteral {t : List Char} {n : ℤ} (h : IsIntegerLiteral t n) :
    t ≠ [] ∧ isNaN t = false ∧ parseInt t = some n := by
  obtain ⟨ds, hne, hd, hcase⟩ := h
  obtain ⟨d, ds1, rfl⟩ := List.exists_cons_of_ne_nil hne
  have hd0 : isDecimalDigit d = true := hd d (List.mem_cons_self _ _)
  have htake : (d :: ds1).takeWhile isDecimalDigit = d :: ds1 := List.takeWhile_eq_self_iff.mpr hd
  have hws : ∀ c ∈ t, isStrWhiteSpaceChar c = false := by
    intro c hc
    rcases hcase with ⟨rfl, -⟩ | ⟨rfl, -⟩ | ⟨rfl, -⟩
    · exact digit_not_whiteSpace (hd c hc)
    · rcases List.mem_cons.mp hc with rfl | hc1
      · decide
      · exact digit_not_whiteSpace (hd c hc1)
    · rcases List.mem_cons.mp hc with rfl | hc1
      · decide
      · exact digit_not_whiteSpace (hd c hc1)
  have hsign : dropSign t = d :: ds1 := by
    rcases hcase with ⟨rfl, -⟩ | ⟨rfl, -⟩ | ⟨rfl, -⟩
    · exact dropSign_digit _ hd0
    · rfl
    · rfl
  have htne : t ≠ [] := by
    rcases hcase with ⟨rfl, -⟩ | ⟨rfl, -⟩ | ⟨rfl, -⟩ <;> simp
  refine ⟨htne, ?_, ?_⟩
  · unfold isNaN
    simp only [jsTrim_eq_self hws, hsign, isStrUnsignedDecimalLiteral_digits hne hd]
    simp
  · unfold parseInt
    have hdrop : t.dropWhile isStrWhiteSpaceChar = t :=
      dropWhile_eq_self t fun c hc => hws c (List.mem_of_mem_head? hc)
    simp only [hdrop, hsign, htake]
    rcases hcase with ⟨rfl, rfl⟩ | ⟨rfl, rfl⟩ | ⟨rfl, rfl⟩
    · simp [digit_ne_minus hd0]
    · simp
    · simp

/-! ## Calibration -/

/-- C7. For every history with fewer than 10 entries, `calibrateRange` fails
with the Insufficient Data notification (destructive) and changes nothing
else: the calibration range and the history stay as they were. -/
theorem calibrateRange_insufficient (s : AppState) (h : s.history.length < 10) :
    calibrateRange s = { s with toasts := s.toasts ++ [insufficientDataToast] } ∧
      (calibrateRange s).minValue = s.minValue ∧ (calibrateRange s).maxValue = s.maxValue ∧
      (calibrateRange s).history = s.history ∧
      insufficientDataToast.variant = ToastVariant.destructive := by
  have e : calibrateRange s = { s with toasts := s.toasts ++ [insufficientDataToast] } := by
    unfold calibrateRange
    rw [dif_pos h]
  refine ⟨e, ?_, ?_, ?_, rfl⟩ <;> rw [e]

theorem calibrateRange_insufficient_witness :
    narrowState.history.length < 10 ∧
      calibrateRange narrowState =
        { narrowState with toasts := narrowState.toasts ++ [insufficientDataToast] } ∧
      (calibrateRange narrowState).minValue = narrowState.minValue ∧
      (calibrateRange narrowState).maxValue = narrowState.maxValue ∧
      (calibrateRange narrowState).history = narrowState.history ∧
      insufficientDataToast.variant = ToastVariant.destructive :=
  ⟨by decide, calibrateRange_insufficient narrowState (by decide)⟩

/-- C9. From every state `resetCalibration` succeeds: afterwards the
calibration range is 0..1023 and the history is empty; it reports the reset
and touches nothing else. -/
theorem resetCalibration_defaults (s : AppState) :
    (resetCalibration s).minValue = 0 ∧ (resetCalibration s).maxValue = 1023 ∧
      (resetCalibration s).history = [] ∧
      resetCalibration s =
        { s with
          minValue := 0
          maxValue := 1023
          history := []
          toasts := s.toasts ++ [calibrationResetToast] } :=
  ⟨rfl, rfl, rfl, rfl⟩

/-! ## Recording a reading -/

theorem processIncomingData_of_parse (s : AppState) (rawValue : String) (now : ℕ)
    {t : List Char} {n : ℤ} (ht : jsTrim rawValue.data = t) (hne : t ≠ [])
    (hnan : isNaN t = false) (hp : parseInt t = some n) :
    processIncomingData s rawValue now =
      some { s with
        potValue := n
        angle := convertToAngle n
          (if (s.minValue ≤ n ∧ n ≤ s.maxValue) ∨ ¬(0 ≤ n ∧ n ≤ 1023) then s.minValue else 0)
          (if (s.minValue ≤ n ∧ n ≤ s.maxValue) ∨ ¬(0 ≤ n ∧ n ≤ 1023) then s.maxValue else 1023)
        history := appendHistory s.history
          ⟨n, convertToAngle n
            (if (s.minValue ≤ n ∧ n ≤ s.maxValue) ∨ ¬(0 ≤ n ∧ n ≤ 1023) then s.minValue else 0)
            (if (s.minValue ≤ n ∧ n ≤ s.maxValue) ∨ ¬(0 ≤ n ∧ n ≤ 1023) then s.maxValue
              else 1023), now⟩ } := by
  unfold processIncomingData
  simp only [ht, hne, hnan, hp, ne_eq, not_false_eq_true, and_self, if_true]
  by_cases h1 : (s.minValue ≤ n ∧ n ≤ s.maxValue) ∨ ¬(0 ≤ n ∧ n ≤ 1023)
  · have hb : (!(decide (n ≥ s.minValue) && decide (n ≤ s.maxValue)) &&
        (decide (n ≥ 0) && decide (n ≤ 1023))) = false := by
      rcases h1 with h | h
      · simp [h.1, h.2]
      · by_cases h0 : 0 ≤ n
        · have : ¬ n ≤ 1023 := fun h3 => h ⟨h0, h3⟩
          simp [this]
        · simp [h0]
    simp only [hb, h1, if_true, Bool.false_eq_true, if_false]
  · have hb : (!(decide (n ≥ s.minValue) && decide (n ≤ s.maxValue)) &&
        (decide (n ≥ 0) && decide (n ≤ 1023))) = true := by
      simp only [not_or, not_not] at h1
      obtain ⟨h2, h3, h4⟩ := h1
      have h5 : ¬ (s.minValue ≤ n ∧ n ≤ s.maxValue) := h2
      simp only [ge_iff_le, h3, h4, decide_True, Bool.and_self, Bool.and_true, Bool.not_eq_true',
        Bool.and_eq_false_imp, decide_eq_true_eq, decide_eq_false_iff_not]
      exact fun h6 h7 => h5 ⟨h6, h7⟩
    simp only [hb, h1, if_true, if_false]

theorem libDraft_processIncomingData_of_parse (s : AppState) (rawValue : String) (now : ℕ)
    {t : List Char} {n : ℤ} (ht : jsTrim rawValue.data = t) (hne : t ≠ [])
    (hnan : isNaN t = false) (hp : parseInt t = some n) :
    LibDraft.processIncomingData s rawValue now =
      if s.minValue ≤ n ∧ n ≤ s.maxValue then
        { s with
          potValue := n
          angle := convertToAngle n s.minValue s.maxValue
          history := appendHistory s.history ⟨n, convertToAngle n s.minValue s.maxValue, now⟩ }
      else if 0 ≤ n ∧ n ≤ 1023 then
        { s with
          potValue := n
          angle := convertToAngle n 0 1023
          history := appendHistory s.history ⟨n, convertToAngle n 0 1023, now⟩ }
      else s := by
  unfold LibDraft.processIncomingData
  simp only [ht, hne, hnan, hp, ne_eq, not_false_eq_true, and_self, if_true, ge_iff_le]

/-! ## Sample runs -/

theorem convertToAngle_512_full : convertToAngle 512 0 1023 = 180 := by
  norm_num [convertToAngle, mathRound]

theorem runEvents_sample :
    runEvents AppState.initial [.line "512\r" 7, .line "noise" 8, .calibrate] =
      some { AppState.initial with
        potValue := 512
        angle := 180
        history := [⟨512, 180, 7⟩]
        toasts := [insufficientDataToast] } := by
  have h1 : processIncomingData AppState.initial "512\r" 7 =
      some { AppState.initial with
        potValue := 512
        angle := 180
        history := [⟨512, 180, 7⟩] } := by
    rw [processIncomingData_of_parse AppState.initial "512\r" 7 (t := ['5', '1', '2']) (n := 512)
      (by decide) (by decide) (by decide) (by decide)]
    have hc : (AppState.initial.minValue ≤ 512 ∧ (512 : ℤ) ≤ AppState.initial.maxValue) ∨
        ¬((0 : ℤ) ≤ 512 ∧ (512 : ℤ) ≤ 1023) := by decide
    simp only [hc, if_true]
    rw [show convertToAngle 512 AppState.initial.minValue AppState.initial.maxValue = 180 from
      convertToAngle_512_full]
    rfl
  have h2 : ∀ s : AppState, processIncomingData s "noise" 8 = some s := by
    intro s
    have hn : ¬(jsTrim "noise".data ≠ [] ∧ isNaN (jsTrim "noise".data) = false) := by decide
    unfold processIncomingData
    simp only [hn, if_false]
  simp only [runEvents, applyEvent, h1, h2, Option.some_bind]
  rfl

theorem history_fifo_witness :
    runEvents AppState.initial [.line "512\r" 7, .line "noise" 8, .calibrate] =
        some { AppState.initial with
          potValue := 512
          angle := 180
          history := [⟨512, 180, 7⟩]
          toasts := [insufficientDataToast] } ∧
      ({ AppState.initial with
          potValue := 512
          angle := 180
          history := [⟨512, 180, 7⟩]
          toasts := [insufficientDataToast] } : AppState).history.length ≤ 50 :=
  ⟨runEvents_sample, history_fifo.2.2 _ _ runEvents_sample⟩

theorem calibrateRange_variedState :
    (calibrateRange variedState).minValue = 3 ∧ (calibrateRange variedState).maxValue = 50 := by
  decide

theorem history_sixty_appends :
    ((List.range 60).map fun i : ℕ => (⟨(i : ℤ), 0, i⟩ : Reading)).foldl appendHistory [] =
      (List.range' 10 50).map fun i : ℕ => (⟨(i : ℤ), 0, i⟩ : Reading) := by
  rw [foldl_appendHistory]
  rfl

/-! ## Lines that are not numbers -/

theorem convertToAngle_12_full : convertToAngle 12 0 1023 = 4 := by
  norm_num [convertToAngle, mathRound]

theorem not_integerLiteral_12_5 : ¬ ∃ n : ℤ, IsIntegerLiteral (jsTrim "12.5".data) n := by
  rintro ⟨n, ds, -, hd, h⟩
  have ht : jsTrim "12.5".data = ['1', '2', '.', '5'] := by decide
  rw [ht] at h
  rcases h with ⟨h1, -⟩ | ⟨h1, -⟩ | ⟨h1, -⟩
  · have hdot : isDecimalDigit '.' = true := hd '.' (by rw [← h1]; decide)
    exact absurd hdot (by decide)
  · exact absurd (List.cons.inj h1).1 (by decide)
  · exact absurd (List.cons.inj h1).1 (by decide)

/-- C11, as stated, fails. The line `12.5` is not a base-10 integer literal,
yet `isNaN` accepts it and `parseInt` reads 12: both drafts set `potValue` to
12 and append the reading 12 (angle 4) to the empty history. -/
theorem processIncomingData_decimal_counterexample :
    (¬ ∃ n : ℤ, IsIntegerLiteral (jsTrim "12.5".data) n) ∧
      processIncomingData AppState.initial "12.5" 7 =
        some { AppState.initial with
          potValue := 12
          angle := 4
          history := [⟨12, 4, 7⟩] } ∧
      LibDraft.processIncomingData AppState.initial "12.5" 7 =
        { AppState.initial with
          potValue := 12
          angle := 4
          history := [⟨12, 4, 7⟩] } := by
  have ht : jsTrim "12.5".data = ['1', '2', '.', '5'] := by decide
  have hne : ['1', '2', '.', '5'] ≠ [] := by decide
  have hnan : isNaN ['1', '2', '.', '5'] = false := by decide
  have hp : parseInt ['1', '2', '.', '5'] = some 12 := by decide
  refine ⟨not_integerLiteral_12_5, ?_, ?_⟩
  · rw [processIncomingData_of_parse AppState.initial "12.5" 7 ht hne hnan hp]
    have hc : (AppState.initial.minValue ≤ 12 ∧ (12 : ℤ) ≤ AppState.initial.maxValue) ∨
        ¬((0 : ℤ) ≤ 12 ∧ (12 : ℤ) ≤ 1023) := by decide
    simp only [hc, if_true]
    rw [show convertToAngle 12 AppState.initial.minValue AppState.initial.maxValue = 4 from
      convertToAngle_12_full]
    rfl
  · rw [libDraft_processIncomingData_of_parse AppState.initial "12.5" 7 ht hne hnan hp]
    have hc : AppState.initial.minValue ≤ 12 ∧ (12 : ℤ) ≤ AppState.initial.maxValue := by decide
    rw [if_pos hc]
    rw [show convertToAngle 12 AppState.initial.minValue AppState.initial.maxValue = 4 from
      convertToAngle_12_full]
    rfl

/-- C11, amended. Every raw line whose trimmed text is empty or is not numeric
(`isNaN` holds of it, as for `abc`) is discarded by both drafts: the state,
and with it `potValue`, `angle` and the history, is left unchanged. -/
theorem processIncomingData_discards_non_numeric (s : AppState) (rawValue : String) (now : ℕ)
    (h : jsTrim rawValue.data = [] ∨ isNaN (jsTrim rawValue.data) = true) :
    processIncomingData s rawValue now = some s ∧
      LibDraft.processIncomingData s rawValue now = s := by
  have hc : ¬(jsTrim rawValue.data ≠ [] ∧ isNaN (jsTrim rawValue.data) = false) := by
    rintro ⟨h1, h2⟩
    rcases h with h | h
    · exact h1 h
    · rw [h] at h2
      exact absurd h2 (by decide)
  constructor
  · unfold processIncomingData
    simp only [hc, if_false]
  · unfold LibDraft.processIncomingData
    simp only [hc, if_false]

theorem processIncomingData_discards_non_numeric_witness :
    (jsTrim " abc\n".data = [] ∨ isNaN (jsTrim " abc\n".data) = true) ∧
      processIncomingData narrowState " abc\n" 7 = some narrowState ∧
      LibDraft.processIncomingData narrowState " abc\n" 7 = narrowState :=
  ⟨Or.inr (by decide),
    processIncomingData_discards_non_numeric narrowState " abc\n" 7 (Or.inr (by decide))⟩

/-! ## Running statements -/

theorem acts_nil (s : Sys) : acts s [] = s := rfl

theorem acts_cons (s : Sys) (a : Action) (l : List Action) :
    acts s (a :: l) = acts (act s a) l := rfl

theorem acts_append (s : Sys) (l1 l2 : List Action) :
    acts s (l1 ++ l2) = acts (acts s l1) l2 := by
  unfold acts
  rw [List.foldl_append]

theorem acts_trace (s : Sys) (l : List Action) : (acts s l).trace = s.trace ++ l := by
  induction l generalizing s with
  | nil => simp [acts]
  | cons a l ih =>
    rw [acts_cons, ih]
    simp [act]

theorem exec_toasts (a : Action) (s : Sys) :
    (exec a s).app.toasts = s.app.toasts ++ a.toast?.toList := by
  cases a <;> simp [exec, Action.toast?] <;> split <;> rfl

theorem acts_toasts (s : Sys) (l : List Action) :
    (acts s l).app.toasts = s.app.toasts ++ l.filterMap Action.toast? := by
  induction l generalizing s with
  | nil => simp [acts]
  | cons a l ih =>
    rw [acts_cons, ih]
    have h : (act s a).app.toasts = s.app.toasts ++ a.toast?.toList := exec_toasts a s
    rw [h]
    cases ha : a.toast? <;> simp [List.filterMap_cons, ha]

theorem exec_reconnectTimers (a : Action) (s : Sys) :
    (exec a s).platform.reconnectTimers =
      s.platform.reconnectTimers + (match a with | .setTimeoutReconnect _ => 1 | _ => 0) := by
  cases a <;> simp [exec] <;> split <;> rfl

/-! ## Tearing a BLE connection down -/

theorem handleBleDisconnectCleanupScript_cases (informUser : Bool) (s : Sys) :
    ∃ l1 l2 : List Action,
      handleBleDisconnectCleanupScript informUser s =
        [.setBleTxCharacteristicRef none, .setBleServerRef none] ++ l1 ++
          [.setBleDevice none, .setIsConnected false, .setConnectionMethod none,
            .setIsReading false, .setReconnectAttempts 0] ++ l2 ∧
      (∀ a ∈ l1, (∃ c, a = .removeValueListener c) ∨ (∃ c, a = .stopNotifications c) ∨
        (∃ d, a = .removeLostListener d) ∨ (∃ d, a = .gattDisconnect d)) ∧
      (l2 = [] ∨ l2 = [.toast bluetoothDisconnectedToast]) := by
  refine ⟨(match s.ble.bleTxCharacteristicRef with
      | some c => if gattConnected s then [.removeValueListener c, .stopNotifications c] else []
      | none => []) ++
    (match s.ble.bleDevice with
      | some d =>
        .removeLostListener d ::
          (if d ∈ s.platform.connectedDevices then [.gattDisconnect d] else [])
      | none => []),
    if informUser then [.toast bluetoothDisconnectedToast] else [], ?_, ?_, ?_⟩
  · simp [handleBleDisconnectCleanupScript, handleConnectionChange]
  · intro a ha
    rcases List.mem_append.mp ha with h | h
    · cases hc : s.ble.bleTxCharacteristicRef with
      | none => simp [hc] at h
      | some c =>
        simp only [hc] at h
        split at h
        · simp only [List.mem_cons, List.mem_singleton, List.not_mem_nil, or_false] at h
          rcases h with rfl | rfl
          · exact Or.inl ⟨c, rfl⟩
          · exact Or.inr (Or.inl ⟨c, rfl⟩)
        · simp at h
    · cases hd : s.ble.bleDevice with
      | none => simp [hd] at h
      | some d =>
        simp only [hd, List.mem_cons] at h
        rcases h with rfl | h
        · exact Or.inr (Or.inr (Or.inl ⟨d, rfl⟩))
        · split at h
          · simp only [List.mem_singleton] at h
            subst h
            exact Or.inr (Or.inr (Or.inr ⟨d, rfl⟩))
          · simp at h
  · cases informUser <;> simp

/-- Statements that touch only listeners and connected devices. -/
theorem acts_listener_frame (s : Sys) (l : List Action)
    (h : ∀ a ∈ l, (∃ c, a = .removeValueListener c) ∨ (∃ c, a = .stopNotifications c) ∨
      (∃ d, a = .removeLostListener d) ∨ (∃ d, a = .gattDisconnect d)) :
    (acts s l).app = s.app ∧ (acts s l).ble = s.ble ∧
      (acts s l).platform.reconnectTimers = s.platform.reconnectTimers ∧
      (acts s l).platform.activeIntervals = s.platform.activeIntervals ∧
      (acts s l).platform.openPorts = s.platform.openPorts := by
  induction l generalizing s with
  | nil => simp [acts]
  | cons a l ih =>
    rw [acts_cons]
    obtain ⟨h1, h2, h3, h4, h5⟩ := ih (act s a) fun b hb => h b (List.mem_cons_of_mem _ hb)
    rw [h1, h2, h3, h4, h5]
    rcases h a (List.mem_cons_self _ _) with ⟨c, rfl⟩ | ⟨c, rfl⟩ | ⟨d, rfl⟩ | ⟨d, rfl⟩ <;>
      simp [act, exec]

theorem handleBleDisconnectCleanup_result (informUser : Bool) (s : Sys) :
    (handleBleDisconnectCleanup informUser s).ble = ⟨none, none, none, 0⟩ ∧
      (handleBleDisconnectCleanup informUser s).app.isConnected = false ∧
      (handleBleDisconnectCleanup informUser s).app.connectionMethod = none ∧
      (handleBleDisconnectCleanup informUser s).app.isReading = false ∧
      (handleBleDisconnectCleanup informUser s).platform.reconnectTimers =
        s.platform.reconnectTimers ∧
      (handleBleDisconnectCleanup informUser s).platform.activeIntervals =
        s.platform.activeIntervals ∧
      (handleBleDisconnectCleanup informUser s).platform.openPorts = s.platform.openPorts ∧
      (handleBleDisconnectCleanup informUser s).app.demoIntervalRef = s.app.demoIntervalRef ∧
      (handleBleDisconnectCleanup informUser s).app.serialPort = s.app.serialPort ∧
      (handleBleDisconnectCleanup informUser s).app.serialReader = s.app.serialReader := by
  obtain ⟨l1, l2, hs, hl1, hl2⟩ := handleBleDisconnectCleanupScript_cases informUser s
  unfold handleBleDisconnectCleanup
  rw [hs, acts_append, acts_append, acts_append]
  obtain ⟨h1, h2, h3, h4, h5⟩ :=
    acts_listener_frame (acts s [.setBleTxCharacteristicRef none, .setBleServerRef none]) l1 hl1
  generalize acts (acts s [.setBleTxCharacteristicRef none, .setBleServerRef none]) l1 = s1
    at h1 h2 h3 h4 h5
  have e1 : s1.app = s.app := by rw [h1]; simp [acts, act, exec]
  have e2 : s1.platform.reconnectTimers = s.platform.reconnectTimers := by
    rw [h3]; simp [acts, act, exec]
  have e3 : s1.platform.activeIntervals = s.platform.activeIntervals := by
    rw [h4]; simp [acts, act, exec]
  have e4 : s1.platform.openPorts = s.platform.openPorts := by
    rw [h5]; simp [acts, act, exec]
  have e5 : s1.ble.bleServerRef = none := by rw [h2]; simp [acts, act, exec]
  have e6 : s1.ble.bleTxCharacteristicRef = none := by rw [h2]; simp [acts, act, exec]
  rcases hl2 with rfl | rfl <;>
    simp [acts, act, exec, e1, e2, e3, e4, e5, e6]

/-! ## Switching from the demo to serial -/

theorem exec_demo_frame (a : Action) (s : Sys) (h : a.touchesDemo = false) :
    (exec a s).platform.activeIntervals = s.platform.activeIntervals ∧
      (exec a s).app.demoIntervalRef = s.app.demoIntervalRef := by
  cases a <;> simp [Action.touchesDemo] at h <;> simp [exec] <;> split <;> simp

theorem acts_demo_frame (s : Sys) (l : List Action) (h : ∀ a ∈ l, a.touchesDemo = false) :
    (acts s l).platform.activeIntervals = s.platform.activeIntervals ∧
      (acts s l).app.demoIntervalRef = s.app.demoIntervalRef := by
  induction l generalizing s with
  | nil => simp [acts]
  | cons a l ih =>
    rw [acts_cons]
    obtain ⟨h1, h2⟩ := ih (act s a) fun b hb => h b (List.mem_cons_of_mem _ hb)
    obtain ⟨h3, h4⟩ := exec_demo_frame a s (h a (List.mem_cons_self _ _))
    exact ⟨h1.trans h3, h2.trans h4⟩

theorem handleSerialDisconnectCleanupScript_demo (informUser : Bool) (s : Sys) :
    ∀ a ∈ handleSerialDisconnectCleanupScript informUser s, a.touchesDemo = false := by
  intro a ha
  unfold handleSerialDisconnectCleanupScript at ha
  simp only [List.mem_append] at ha
  rcases ha with ((h | h) | h) | h
  · cases hr : s.app.serialReader with
    | none => simp [hr] at h
    | some r =>
      simp only [hr, List.mem_cons, List.mem_singleton, List.not_mem_nil, or_false] at h
      rcases h with rfl | rfl <;> rfl
  · cases hp : s.app.serialPort with
    | none => simp [hp] at h
    | some p =>
      simp only [hp, List.mem_cons, List.mem_singleton, List.not_mem_nil, or_false] at h
      rcases h with rfl | rfl <;> rfl
  · simp only [List.mem_cons, List.mem_singleton, List.not_mem_nil, or_false] at h
    rcases h with rfl | rfl | rfl <;> rfl
  · cases informUser with
    | false => simp at h
    | true =>
      simp only [if_true, List.mem_singleton] at h
      subst h
      rfl

theorem not_mem_unregister (x : ℕ) (xs : List ℕ) : x ∉ unregister x xs := by
  simp [unregister]

theorem disconnect_demo (s : Sys) (i : ℕ) (hm : s.app.connectionMethod = some .demo)
    (hi : s.app.demoIntervalRef = some i) :
    disconnect s =
      acts s
        [.setIsReading false, .clearInterval i, .setDemoIntervalRef none, .setIsConnected false,
          .setConnectionMethod none, .toast demoDisconnectedToast] := by
  unfold disconnect
  simp [hm, hi, acts]

/-- C15. From an active demo connection (method demo, interval `i` held), a
serial connect request on a platform with Web Serial first stops the demo:
`clearInterval i`, the interval reference dropped and the connection marked
disconnected all come before `requestPort`; when the port is requested the
interval is no longer running, and it is not running at the end either. -/
theorem connectToSerial_stops_demo_first (s : Sys) (i : ℕ) (r : SerialRequest)
    (hm : s.app.connectionMethod = some .demo) (hi : s.app.demoIntervalRef = some i)
    (hs : r.supported = true) :
    (∃ rest : List Action,
        (connectToSerial r s).trace =
          s.trace ++
            [.setIsReading false, .clearInterval i, .setDemoIntervalRef none,
              .setIsConnected false, .setConnectionMethod none, .toast demoDisconnectedToast] ++
            .requestPort r.port :: rest ∧
          ∀ a ∈ rest, a.touchesDemo = false) ∧
      (disconnect s).app.isConnected = false ∧ (disconnect s).app.demoIntervalRef = none ∧
      i ∉ (disconnect s).platform.activeIntervals ∧
      (connectToSerial r s).app.demoIntervalRef = none ∧
      i ∉ (connectToSerial r s).platform.activeIntervals := by
  have hdis := disconnect_demo s i hm hi
  have h1 : (disconnect s).app.isConnected = false := by rw [hdis]; simp [acts, act, exec]
  have h2 : (disconnect s).app.demoIntervalRef = none := by rw [hdis]; simp [acts, act, exec]
  have h3 : i ∉ (disconnect s).platform.activeIntervals := by
    rw [hdis]
    simp only [acts, act, exec, List.foldl_cons, List.foldl_nil]
    exact not_mem_unregister i _
  have htr : (disconnect s).trace =
      s.trace ++
        [.setIsReading false, .clearInterval i, .setDemoIntervalRef none, .setIsConnected false,
          .setConnectionMethod none, .toast demoDisconnectedToast] := by
    rw [hdis, acts_trace]
  have key : ∃ rest : List Action,
      connectToSerial r s = acts (disconnect s) (.requestPort r.port :: rest) ∧
        ∀ a ∈ rest, a.touchesDemo = false := by
    unfold connectToSerial
    simp only [hs, Bool.not_true, Bool.false_eq_true, if_false]
    cases hp : r.port with
    | none =>
      refine ⟨[.toast (serialConnectionFailedToast r.message)] ++
        handleSerialDisconnectCleanupScript false
          (acts (disconnect s) [.requestPort none, .toast (serialConnectionFailedToast r.message)]),
        ?_, ?_⟩
      · simp only [handleSerialDisconnectCleanup]
        rw [← acts_append]
        rfl
      · intro a ha
        rcases List.mem_append.mp ha with h | h
        · simp only [List.mem_singleton] at h
          subst h
          rfl
        · exact handleSerialDisconnectCleanupScript_demo _ _ a h
    | some p =>
      cases ho : r.openOk with
      | false =>
        refine ⟨[.portOpen p false, .toast (serialConnectionFailedToast r.message)] ++
          handleSerialDisconnectCleanupScript false
            (acts (disconnect s)
              [.requestPort (some p), .portOpen p false,
                .toast (serialConnectionFailedToast r.message)]), ?_, ?_⟩
        · simp only [handleSerialDisconnectCleanup, Bool.not_false, if_true]
          rw [← acts_append]
          rfl
        · intro a ha
          rcases List.mem_append.mp ha with h | h
          · simp only [List.mem_cons, List.mem_singleton, List.not_mem_nil, or_false] at h
            rcases h with rfl | rfl <;> rfl
          · exact handleSerialDisconnectCleanupScript_demo _ _ a h
      | true =>
        refine ⟨[.portOpen p true, .setSerialPort (some p), .getReader r.reader,
          .setSerialReader (some r.reader)] ++ handleConnectionChange true (some .serial) true ++
          [.toast serialConnectedToast, .readSerialData r.reader], ?_, ?_⟩
        · simp
        · intro a ha
          simp only [handleConnectionChange, List.cons_append, List.nil_append, List.mem_cons,
            List.mem_singleton, List.not_mem_nil, or_false] at ha
          rcases ha with rfl | rfl | rfl | rfl | rfl | rfl | rfl | rfl | rfl <;> rfl
  obtain ⟨rest, hrest, hfr⟩ := key
  have hframe := acts_demo_frame (disconnect s) (.requestPort r.port :: rest) (by
    intro a ha
    rcases List.mem_cons.mp ha with rfl | h
    · rfl
    · exact hfr a h)
  refine ⟨⟨rest, ?_, hfr⟩, h1, h2, h3, ?_, ?_⟩
  · rw [hrest, acts_trace, htr]
  · rw [hrest, hframe.2, h2]
  · rw [hrest, hframe.1]
    exact h3

theorem connectToSerial_stops_demo_first_witness :
    demoSys.app.connectionMethod = some .demo ∧ demoSys.app.demoIntervalRef = some 1 ∧
      (connectToSerial ⟨true, some 4, true, 5, ""⟩ demoSys).app.demoIntervalRef = none ∧
      1 ∉ (connectToSerial ⟨true, some 4, true, 5, ""⟩ demoSys).platform.activeIntervals :=
  ⟨by decide, by decide,
    (connectToSerial_stops_demo_first demoSys 1 ⟨true, some 4, true, 5, ""⟩ (by decide)
      (by decide) (by decide)).2.2.2.2.1,
    (connectToSerial_stops_demo_first demoSys 1 ⟨true, some 4, true, 5, ""⟩ (by decide)
      (by decide) (by decide)).2.2.2.2.2⟩

/-! ## Tearing a serial connection down -/

theorem handleSerialDisconnectCleanup_result (informUser : Bool) (s : Sys) :
    (handleSerialDisconnectCleanup informUser s).app.connectionMethod = none ∧
      (handleSerialDisconnectCleanup informUser s).app.isReading = false ∧
      (handleSerialDisconnectCleanup informUser s).app.isConnected = false := by
  unfold handleSerialDisconnectCleanup handleSerialDisconnectCleanupScript
  cases hr : s.app.serialReader <;> cases hp : s.app.serialPort <;> cases informUser <;>
    simp [acts, act, exec]

/-! ## A dismissed device picker -/

theorem disconnect_eq_acts (s : Sys) : ∃ l : List Action, disconnect s = acts s l := by
  unfold disconnect
  by_cases hs : s.app.connectionMethod = some .serial ∧ s.app.serialPort ≠ none
  · simp only [hs, ne_eq, not_false_eq_true, and_self, if_true, handleSerialDisconnectCleanup]
    exact ⟨_, (acts_append s [.setIsReading false] _).symm⟩
  · simp only [hs, if_false]
    by_cases hb : s.app.connectionMethod = some .ble
    · simp only [hb, if_true, disconnectBle, handleBleDisconnectCleanup]
      exact ⟨_, (acts_append s [.setIsReading false] _).symm⟩
    · simp only [hb, if_false]
      cases hi : s.app.demoIntervalRef with
      | none => exact ⟨[.setIsReading false], rfl⟩
      | some i =>
        by_cases hd : s.app.connectionMethod = some .demo
        · simp only [hd, if_true]
          exact ⟨_, (acts_append s [.setIsReading false] _).symm⟩
        · simp only [hd, if_false]
          exact ⟨[.setIsReading false], rfl⟩

theorem handleSerialDisconnectCleanup_toasts (s : Sys) :
    (handleSerialDisconnectCleanup false s).app.toasts = s.app.toasts := by
  unfold handleSerialDisconnectCleanup handleSerialDisconnectCleanupScript
  cases hr : s.app.serialReader <;> cases hp : s.app.serialPort <;> simp [acts, act, exec]

theorem handleBleDisconnectCleanup_toasts (s : Sys) :
    (handleBleDisconnectCleanup false s).app.toasts = s.app.toasts := by
  unfold handleBleDisconnectCleanup handleBleDisconnectCleanupScript
  cases hd : s.ble.bleDevice with
  | none =>
    cases hc : s.ble.bleTxCharacteristicRef <;> cases hg : gattConnected s <;>
      simp [acts, act, exec, handleConnectionChange]
  | some d0 =>
    by_cases hm : d0 ∈ s.platform.connectedDevices <;>
      cases hc : s.ble.bleTxCharacteristicRef <;> cases hg : gattConnected s <;>
      simp [acts, act, exec, handleConnectionChange, hm]

/-- C19, as stated, fails. When the user dismisses the device picker, both
handlers report the rejection as a failure: a destructive toast with the
message of the error. -/
theorem picker_dismissed_counterexample :
    dismissedSerialRequest.port = none ∧ dismissedBleRequest.device = none ∧
      (connectToSerial dismissedSerialRequest Sys.initial).app.toasts =
        [⟨"Serial Connection Failed", "No port selected by the user.", .destructive⟩] ∧
      (connectToBle dismissedBleRequest Sys.initial).app.toasts =
        [requestingDeviceToast,
          ⟨"Bluetooth Connection Failed", "User cancelled the requestDevice() chooser.",
            .destructive⟩] := by
  decide

/-- C19, amended. When the device picker is dismissed (`requestPort` or
`requestDevice` rejects), `connectToSerial` and `connectToBle` treat it as any
other failure: the last notification is a destructive Connection Failed toast
with the message of the error, the cleanup runs, and the connection ends
Disconnected. -/
theorem picker_dismissed_reports_failure (s : Sys) (r : SerialRequest) (b : BleRequest)
    (hr : r.supported = true) (hp : r.port = none) (hb : b.supported = true)
    (hd : b.device = none) :
    (∃ earlier : List Toast,
        (connectToSerial r s).app.toasts =
          s.app.toasts ++ earlier ++ [serialConnectionFailedToast r.message]) ∧
      (serialConnectionFailedToast r.message).variant = .destructive ∧
      (connectToSerial r s).app.isConnected = false ∧
      (connectToSerial r s).app.connectionMethod = none ∧
      (connectToBle b s).app.toasts =
        s.app.toasts ++ [requestingDeviceToast, bluetoothConnectionFailedToast b.message] ∧
      (bluetoothConnectionFailedToast b.message).variant = .destructive ∧
      (connectToBle b s).app.isConnected = false ∧
      (connectToBle b s).app.connectionMethod = none := by
  have es : connectToSerial r s =
      handleSerialDisconnectCleanup false
        (acts (disconnect s) [.requestPort none, .toast (serialConnectionFailedToast r.message)]) := by
    unfold connectToSerial
    simp [hr, hp]
  have eb : connectToBle b s =
      handleBleDisconnectCleanup false
        (acts s
          [.toast requestingDeviceToast, .requestDevice none,
            .toast (bluetoothConnectionFailedToast b.message)]) := by
    unfold connectToBle
    simp [hb, hd]
  obtain ⟨l, hl⟩ := disconnect_eq_acts s
  obtain ⟨s1, s2, s3⟩ :=
    handleSerialDisconnectCleanup_result false
      (acts (disconnect s) [.requestPort none, .toast (serialConnectionFailedToast r.message)])
  obtain ⟨-, b1, b2, -⟩ :=
    handleBleDisconnectCleanup_result false
      (acts s
        [.toast requestingDeviceToast, .requestDevice none,
          .toast (bluetoothConnectionFailedToast b.message)])
  refine ⟨⟨l.filterMap Action.toast?, ?_⟩, rfl, ?_, ?_, ?_, rfl, ?_, ?_⟩
  · rw [es, handleSerialDisconnectCleanup_toasts, acts_toasts, hl, acts_toasts]
    simp [Action.toast?]
  · rw [es]; exact s3
  · rw [es]; exact s1
  · rw [eb, handleBleDisconnectCleanup_toasts, acts_toasts]
    simp [Action.toast?]
  · rw [eb]; exact b1
  · rw [eb]; exact b2

theorem picker_dismissed_reports_failure_witness :
    dismissedSerialRequest.supported = true ∧ dismissedSerialRequest.port = none ∧
      dismissedBleRequest.supported = true ∧ dismissedBleRequest.device = none ∧
      (connectToSerial dismissedSerialRequest demoSys).app.isConnected = false ∧
      (connectToBle dismissedBleRequest demoSys).app.toasts =
        demoSys.app.toasts ++
          [requestingDeviceToast, bluetoothConnectionFailedToast dismissedBleRequest.message] :=
  ⟨by decide, by decide, by decide, by decide,
    (picker_dismissed_reports_failure demoSys dismissedSerialRequest dismissedBleRequest
      (by decide) (by decide) (by decide) (by decide)).2.2.1,
    (picker_dismissed_reports_failure demoSys dismissedSerialRequest dismissedBleRequest
      (by decide) (by decide) (by decide) (by decide)).2.2.2.2.1⟩

/-! ## The measurement wizard -/

theorem wizardInv_initial : WizardInv WizardState.initial := by
  unfold WizardInv WizardState.initial
  simp

theorem wizardStep_inv (s : WizardState) (e : WizardEvent) (h : WizardInv s) :
    WizardInv (wizardStep s e) := by
  unfold wizardStep
  by_cases he : e.enabled s = true
  · rw [if_pos he]
    rcases h with ⟨h1, h2, h3, h4⟩ | ⟨h1, h2, h3, h4⟩ | ⟨h1, h2, h3, h4, h5⟩ | ⟨h1, h2, h3, h4⟩
    · cases e with
      | clickNext =>
        rcases h1 with h1 | h1
        · left
          simp [WizardEvent.handler, handleNextStep, countdownEffect, h1, h2, h3, h4]
        · right; left
          simp [WizardEvent.handler, handleNextStep, countdownEffect, h1, h2, h3, h4]
      | clickStart =>
        rcases h1 with h1 | h1 <;> simp [WizardEvent.enabled, h1, h4] at he
      | tick => simp [WizardEvent.enabled, h3] at he
    · cases e with
      | clickNext => simp [WizardEvent.enabled, h1] at he
      | clickStart =>
        right; right; left
        simp [WizardEvent.handler, startStrengthTestCountdown, countdownEffect, h1]
      | tick => simp [WizardEvent.enabled, h3] at he
    · cases e with
      | clickNext => simp [WizardEvent.enabled, h1] at he
      | clickStart => simp [WizardEvent.enabled, h1, h5] at he
      | tick =>
        by_cases ht : s.timer = 1
        · right; right; right
          simp [WizardEvent.handler, intervalTick, countdownEffect, h1, h4, ht]
        · right; right; left
          have hne : s.timer - 1 ≠ 0 := by omega
          have hc : countdownEffect (intervalTick s) = intervalTick s := by
            simp [countdownEffect, intervalTick, hne]
          simp only [WizardEvent.handler]
          rw [hc]
          refine ⟨h1, ?_, ?_, h4, h5⟩
          · show 1 ≤ s.timer - 1
            omega
          · show s.timer - 1 ≤ 3
            omega
    · cases e with
      | clickNext =>
        rcases h1 with h1 | h1
        · right; right; right
          simp [WizardEvent.handler, handleNextStep, countdownEffect, h1, h2, h3, h4]
        · simp [WizardEvent.enabled, h1] at he
      | clickStart =>
        rcases h1 with h1 | h1 <;> simp [WizardEvent.enabled, h1, h4] at he
      | tick => simp [WizardEvent.enabled, h3] at he
  · rw [if_neg he]
    exact h

theorem foldl_wizardStep_inv (events : List WizardEvent) :
    ∀ s : WizardState, WizardInv s → WizardInv (events.foldl wizardStep s) := by
  induction events with
  | nil => exact fun s h => h
  | cons e es ih => exact fun s h => ih (wizardStep s e) (wizardStep_inv s e h)

theorem runWizard_inv (events : List WizardEvent) : WizardInv (runWizard events) :=
  foldl_wizardStep_inv events _ wizardInv_initial

theorem countdownEffect_timer (s : WizardState) : (countdownEffect s).timer = s.timer := by
  unfold countdownEffect
  split <;> rfl

theorem handleNextStep_timer (s : WizardState) : (handleNextStep s).timer = s.timer := by
  unfold handleNextStep
  split
  · rfl
  · split <;> rfl

theorem wizardStep_clickStart (s : WizardState) (hs : s.step = 3)
    (hb : s.showStartStrengthButton = true) :
    wizardStep s .clickStart = startStrengthTestCountdown s := by
  simp [wizardStep, WizardEvent.enabled, WizardEvent.handler, hs, hb, countdownEffect,
    startStrengthTestCountdown]

theorem wizardStep_tick_active (s : WizardState) (ha : s.strengthTestActive = true)
    (ht : 1 < s.timer) : wizardStep s .tick = { s with timer := s.timer - 1 } := by
  have h0 : s.timer > 0 := by omega
  have h1 : s.timer - 1 ≠ 0 := by omega
  simp [wizardStep, WizardEvent.enabled, WizardEvent.handler, ha, h0, countdownEffect,
    intervalTick, h1]

theorem wizardStep_tick_last (s : WizardState) (ha : s.strengthTestActive = true)
    (ht : s.timer = 1) :
    wizardStep s .tick =
      { s with
        timer := 0
        strengthTestActive := false
        showStartStrengthButton := false
        step := 4
        toasts := s.toasts ++ [strengthTestCompleteToast] } := by
  simp [wizardStep, WizardEvent.enabled, WizardEvent.handler, ha, ht, countdownEffect,
    intervalTick]

theorem ticks_succ (k : ℕ) (s : WizardState) : ticks (k + 1) s = ticks k (wizardStep s .tick) := by
  simp [ticks, List.replicate_succ]

theorem ticks_zero (s : WizardState) : ticks 0 s = s := rfl

/-- C21. Once the countdown is started from step 3 (test active, timer 3),
after `k < 3` ticks of one second the page is still at step 3 with the test
active and the timer at `3 - k`; the third tick brings the timer to 0 and the
effect moves the page to step 4 with the test no longer active.  In a run of
the page, no transition from a state where the test is not active changes the
timer. -/
theorem countdown_three_ticks (s : WizardState) (hs : s.step = 3)
    (hb : s.showStartStrengthButton = true) :
    (wizardStep s .clickStart).strengthTestActive = true ∧
      (wizardStep s .clickStart).timer = 3 ∧
      (∀ k : ℕ, k < 3 →
        (ticks k (wizardStep s .clickStart)).step = 3 ∧
          (ticks k (wizardStep s .clickStart)).strengthTestActive = true ∧
          (ticks k (wizardStep s .clickStart)).timer = 3 - (k : ℤ)) ∧
      (ticks 3 (wizardStep s .clickStart)).step = 4 ∧
      (ticks 3 (wizardStep s .clickStart)).strengthTestActive = false ∧
      (ticks 3 (wizardStep s .clickStart)).timer = 0 ∧
      ∀ (events : List WizardEvent) (e : WizardEvent),
        (runWizard events).strengthTestActive = false →
          (wizardStep (runWizard events) e).timer = (runWizard events).timer := by
  have e0 := wizardStep_clickStart s hs hb
  have e1 : wizardStep (startStrengthTestCountdown s) .tick =
      { startStrengthTestCountdown s with timer := 2 } :=
    wizardStep_tick_active _ rfl (by simp [startStrengthTestCountdown])
  have e2 : wizardStep { startStrengthTestCountdown s with timer := 2 } .tick =
      { startStrengthTestCountdown s with timer := 1 } :=
    wizardStep_tick_active _ rfl (by simp)
  have e3 := wizardStep_tick_last { startStrengthTestCountdown s with timer := 1 } rfl rfl
  rw [e0]
  refine ⟨rfl, rfl, ?_, ?_, ?_, ?_, ?_⟩
  · intro k hk
    interval_cases k
    · exact ⟨hs, rfl, rfl⟩
    · rw [ticks_succ, ticks_zero, e1]
      exact ⟨hs, rfl, rfl⟩
    · rw [ticks_succ, ticks_succ, ticks_zero, e1, e2]
      exact ⟨hs, rfl, rfl⟩
  · rw [ticks_succ, ticks_succ, ticks_succ, ticks_zero, e1, e2, e3]
  · rw [ticks_succ, ticks_succ, ticks_succ, ticks_zero, e1, e2, e3]
  · rw [ticks_succ, ticks_succ, ticks_succ, ticks_zero, e1, e2, e3]
  · intro events e ha
    have hinv := runWizard_inv events
    generalize runWizard events = t at ha hinv
    unfold wizardStep
    by_cases he : e.enabled t = true
    · rw [if_pos he, countdownEffect_timer]
      cases e with
      | clickNext => exact handleNextStep_timer t
      | clickStart =>
        simp only [WizardEvent.enabled, Bool.and_eq_true, decide_eq_true_eq] at he
        rcases hinv with ⟨h1, -⟩ | ⟨-, h2, -⟩ | ⟨-, -, -, h4, -⟩ | ⟨h1, -⟩
        · rcases h1 with h1 | h1 <;> omega
        · simp [WizardEvent.handler, startStrengthTestCountdown, h2]
        · rw [h4] at ha
          exact absurd ha (by decide)
        · rcases h1 with h1 | h1 <;> omega
      | tick =>
        simp [WizardEvent.enabled, ha] at he
    · rw [if_neg he]

theorem countdown_three_ticks_witness :
    (runWizard [.clickNext, .clickNext]).step = 3 ∧
      (runWizard [.clickNext, .clickNext]).showStartStrengthButton = true ∧
      (ticks 2 (wizardStep (runWizard [.clickNext, .clickNext]) .clickStart)).timer = 3 - (2 : ℤ) ∧
      (ticks 3 (wizardStep (runWizard [.clickNext, .clickNext]) .clickStart)).step = 4 :=
  ⟨by decide, by decide,
    ((countdown_three_ticks (runWizard [.clickNext, .clickNext]) (by decide)
      (by decide)).2.2.1 2 (by decide)).2.2,
    (countdown_three_ticks (runWizard [.clickNext, .clickNext]) (by decide)
      (by decide)).2.2.2.1⟩

/-- C22. In every transition of the wizard from a state of a run that starts
at step 1, by a click bound to `handleNextStep`, a click on Start Strength
Test, or a tick, the step stays within 1..5, never decreases and grows by at
most 1; and a transition from step 3 to step 4 is always the tick that takes
the timer of an active test from 1 to 0. -/
theorem wizard_steps_forward (events : List WizardEvent) (e : WizardEvent) :
    1 ≤ (wizardStep (runWizard events) e).step ∧ (wizardStep (runWizard events) e).step ≤ 5 ∧
      (runWizard events).step ≤ (wizardStep (runWizard events) e).step ∧
      (wizardStep (runWizard events) e).step ≤ (runWizard events).step + 1 ∧
      ((runWizard events).step = 3 → (wizardStep (runWizard events) e).step = 4 →
        e = .tick ∧ (runWizard events).strengthTestActive = true ∧
          (runWizard events).timer = 1) := by
  have hinv := runWizard_inv events
  generalize runWizard events = t at hinv
  unfold wizardStep
  by_cases he : e.enabled t = true
  · rw [if_pos he]
    rcases hinv with ⟨h1, h2, h3, h4⟩ | ⟨h1, h2, h3, h4⟩ | ⟨h1, h2, h3, h4, h5⟩ | ⟨h1, h2, h3, h4⟩
    · cases e with
      | clickNext =>
        rcases h1 with h1 | h1 <;>
          simp [WizardEvent.handler, handleNextStep, countdownEffect, h1, h2, h3, h4]
      | clickStart =>
        rcases h1 with h1 | h1 <;> simp [WizardEvent.enabled, h1, h4] at he
      | tick => simp [WizardEvent.enabled, h3] at he
    · cases e with
      | clickNext => simp [WizardEvent.enabled, h1] at he
      | clickStart =>
        simp [WizardEvent.handler, startStrengthTestCountdown, countdownEffect, h1]
      | tick => simp [WizardEvent.enabled, h3] at he
    · cases e with
      | clickNext => simp [WizardEvent.enabled, h1] at he
      | clickStart => simp [WizardEvent.enabled, h1, h5] at he
      | tick =>
        by_cases ht : t.timer = 1
        · simp [WizardEvent.handler, intervalTick, countdownEffect, h1, h4, ht]
        · have hne : t.timer - 1 ≠ 0 := by omega
          simp [WizardEvent.handler, intervalTick, countdownEffect, h1, h4, hne]
    · cases e with
      | clickNext =>
        rcases h1 with h1 | h1
        · simp [WizardEvent.handler, handleNextStep, countdownEffect, h1, h2, h3, h4]
        · simp [WizardEvent.enabled, h1] at he
      | clickStart =>
        rcases h1 with h1 | h1 <;> simp [WizardEvent.enabled, h1, h4] at he
      | tick => simp [WizardEvent.enabled, h3] at he
  · rw [if_neg he]
    have hstep : 1 ≤ t.step ∧ t.step ≤ 5 := by
      rcases hinv with ⟨h1, -⟩ | ⟨h1, -⟩ | ⟨h1, -⟩ | ⟨h1, -⟩
      · rcases h1 with h1 | h1 <;> omega
      · omega
      · omega
      · rcases h1 with h1 | h1 <;> omega
    refine ⟨hstep.1, hstep.2, le_refl _, Nat.le_succ _, ?_⟩
    intro h3 h4
    omega

/-- C29. In every state of a run of the wizard from the initial state (step
1, timer 3, test not active, start button hidden) through the events the page
offers: an active test implies step 3, a shown start button implies step 3
with the test not active, and the timer is between 0 and 3. -/
theorem wizard_invariant (events : List WizardEvent) :
    ((runWizard events).strengthTestActive = true → (runWizard events).step = 3) ∧
      ((runWizard events).showStartStrengthButton = true →
        (runWizard events).step = 3 ∧ (runWizard events).strengthTestActive = false) ∧
      0 ≤ (runWizard events).timer ∧ (runWizard events).timer ≤ 3 := by
  have hinv := runWizard_inv events
  generalize runWizard events = t at hinv
  rcases hinv with ⟨-, h2, h3, h4⟩ | ⟨h1, h2, h3, h4⟩ | ⟨h1, h2, h3, h4, h5⟩ | ⟨-, h2, h3, h4⟩
  · simp [h2, h3, h4]
  · simp [h1, h2, h3, h4]
  · simp [h1, h4, h5]
    omega
  · simp [h2, h3, h4]

theorem wizard_steps_forward_witness :
    (runWizard [.clickNext, .clickNext, .clickStart, .tick, .tick]).step = 3 ∧
      (wizardStep (runWizard [.clickNext, .clickNext, .clickStart, .tick, .tick]) .tick).step =
        4 ∧
      (runWizard [.clickNext, .clickNext, .clickStart, .tick, .tick]).strengthTestActive =
        true ∧
      (runWizard [.clickNext, .clickNext, .clickStart, .tick, .tick]).timer = 1 :=
  ⟨by decide, by decide,
    ((wizard_steps_forward [.clickNext, .clickNext, .clickStart, .tick, .tick] .tick).2.2.2.2
      (by decide) (by decide)).2⟩

/-- The handler `handleNextStep` alone would move the page from step 3 to step
4; the page renders no button bound to it at step 3. -/
theorem handleNextStep_at_step_three (s : WizardState) (h : s.step = 3) :
    (handleNextStep s).step = 4 ∧ WizardEvent.enabled s .clickNext = false := by
  simp [handleNextStep, WizardEvent.enabled, h]

theorem wizard_invariant_witness :
    (runWizard [.clickNext, .clickNext]).showStartStrengthButton = true ∧
      (runWizard [.clickNext, .clickNext]).step = 3 ∧
      (runWizard [.clickNext, .clickNext]).strengthTestActive = false :=
  ⟨by decide, (wizard_invariant [.clickNext, .clickNext]).2.1 (by decide)⟩

/-! ## The session result -/

theorem floor_scaled_bounds (r : ℚ) (n : ℤ) (hn : 0 < n) (h0 : 0 ≤ r) (h1 : r < 1) :
    0 ≤ ⌊r * n⌋ ∧ ⌊r * n⌋ < n := by
  have hq : (0 : ℚ) < n := by exact_mod_cast hn
  constructor
  · exact Int.floor_nonneg.mpr (mul_nonneg h0 hq.le)
  · apply Int.floor_lt.mpr
    calc r * n < 1 * n := by exact mul_lt_mul_of_pos_right h1 hq
      _ = n := one_mul _

/-- C23. For all random draws `r1`, `r2` in `[0, 1)`, `handleEndTest` (in both
drafts) produces `romDegrees = floor(90 r1) + 90`, an integer with
`90 ≤ romDegrees < 180`, and `strengthUnits = floor(70 r2) + 30`, an integer
with `30 ≤ strengthUnits < 100`. -/
theorem handleEndTest_ranges (r1 r2 : ℚ) (h1 : 0 ≤ r1 ∧ r1 < 1) (h2 : 0 ≤ r2 ∧ r2 < 1) :
    (handleEndTest r1 r2).romDegrees = ⌊90 * r1⌋ + 90 ∧
      90 ≤ (handleEndTest r1 r2).romDegrees ∧ (handleEndTest r1 r2).romDegrees < 180 ∧
      (handleEndTest r1 r2).strengthUnits = ⌊70 * r2⌋ + 30 ∧
      30 ≤ (handleEndTest r1 r2).strengthUnits ∧ (handleEndTest r1 r2).strengthUnits < 100 ∧
      (AppDraft.handleEndTest r1 r2).romDegrees = (handleEndTest r1 r2).romDegrees ∧
      (AppDraft.handleEndTest r1 r2).strengthUnits = (handleEndTest r1 r2).strengthUnits := by
  have a := floor_scaled_bounds r1 90 (by norm_num) h1.1 h1.2
  have b := floor_scaled_bounds r2 70 (by norm_num) h2.1 h2.2
  simp only [Int.cast_ofNat] at a b
  have e1 : (handleEndTest r1 r2).romDegrees = ⌊r1 * 90⌋ + 90 := rfl
  have e2 : (handleEndTest r1 r2).strengthUnits = ⌊r2 * 70⌋ + 30 := rfl
  rw [e1, e2, mul_comm 90 r1, mul_comm 70 r2]
  refine ⟨rfl, by omega, by omega, rfl, by omega, by omega, rfl, rfl⟩

theorem handleEndTest_ranges_witness :
    ((0 : ℚ) ≤ 1 / 2 ∧ (1 / 2 : ℚ) < 1) ∧ ((0 : ℚ) ≤ 99 / 100 ∧ (99 / 100 : ℚ) < 1) ∧
      90 ≤ (handleEndTest (1 / 2) (99 / 100)).romDegrees ∧
      (handleEndTest (1 / 2) (99 / 100)).romDegrees < 180 ∧
      30 ≤ (handleEndTest (1 / 2) (99 / 100)).strengthUnits ∧
      (handleEndTest (1 / 2) (99 / 100)).strengthUnits < 100 :=
  ⟨by norm_num, by norm_num,
    (handleEndTest_ranges (1 / 2) (99 / 100) (by norm_num) (by norm_num)).2.1,
    (handleEndTest_ranges (1 / 2) (99 / 100) (by norm_num) (by norm_num)).2.2.1,
    (handleEndTest_ranges (1 / 2) (99 / 100) (by norm_num) (by norm_num)).2.2.2.2.1,
    (handleEndTest_ranges (1 / 2) (99 / 100) (by norm_num) (by norm_num)).2.2.2.2.2.1⟩

/-- C24. For every pair of result values, the recommendation list that
`handleEndTest` emits (in both drafts), and likewise
`getRecommendations rom strength`, has exactly 4 lines: the first is the
header, which names both values, and the last is the heat-pack tip. -/
theorem recommendations_four_lines (rom strength : ℤ) (r1 r2 : ℚ) :
    (handleEndTest r1 r2).recommendations =
        finalRecommendations (handleEndTest r1 r2).romDegrees
          (handleEndTest r1 r2).strengthUnits ∧
      (AppDraft.handleEndTest r1 r2).recommendations =
        AppDraft.finalRecommendations (AppDraft.handleEndTest r1 r2).romDegrees
          (AppDraft.handleEndTest r1 r2).strengthUnits ∧
      (finalRecommendations rom strength).length = 4 ∧
      (finalRecommendations rom strength).head? =
        some ("Based on ROM (" ++ toString rom ++ "Â°) and Strength (" ++ toString strength ++
          " pounds):") ∧
      (finalRecommendations rom strength).getLast? =
        some "Consider applying heat pack before exercises." ∧
      (AppDraft.finalRecommendations rom strength).length = 4 ∧
      (AppDraft.finalRecommendations rom strength).head? =
        some ("Based on ROM (" ++ toString rom ++ "°) and Strength (" ++ toString strength ++
          " units):") ∧
      (AppDraft.finalRecommendations rom strength).getLast? =
        some "Consider applying heat pack before exercises." ∧
      (getRecommendations rom strength).length = 4 ∧
      (getRecommendations rom strength).head? =
        some ("Based on ROM (" ++ toString rom ++ "°) and Strength (" ++ toString strength ++
          " pounds):") ∧
      (getRecommendations rom strength).getLast? =
        some "Consider applying a heat pack before exercises to improve mobility." := by
  refine ⟨rfl, rfl, rfl, rfl, rfl, rfl, rfl, rfl, ?_, ?_, ?_⟩
  · unfold getRecommendations
    by_cases ha : rom ≥ 160 <;> by_cases hb : rom ≥ 130 <;> by_cases hc : strength ≥ 80 <;>
      by_cases hd : strength ≥ 50 <;> simp [ha, hb, hc, hd]
  · unfold getRecommendations
    by_cases ha : rom ≥ 160 <;> by_cases hb : rom ≥ 130 <;> by_cases hc : strength ≥ 80 <;>
      by_cases hd : strength ≥ 50 <;> simp [ha, hb, hc, hd]
  · unfold getRecommendations
    by_cases ha : rom ≥ 160 <;> by_cases hb : rom ≥ 130 <;> by_cases hc : strength ≥ 80 <;>
      by_cases hd : strength ≥ 50 <;> simp [ha, hb, hc, hd]

theorem getRecommendations_sample :
    getRecommendations 135 45 =
      ["Based on ROM (135°) and Strength (45 pounds):",
        "Good ROM — consider gentle stretching exercises daily.",
        "Low strength — begin with light resistance and high-rep exercises.",
        "Consider applying a heat pack before exercises to improve mobility."] := by
  decide

/-! ## The demo generator -/

/-- C25. For every sine value in `[-1, 1]` (any real) and every random draw
`r` in `[0, 1)`, with `noise = (r - 1/2) * 50`, `simulateArduinoData` feeds the
pipeline the integer `round(512 + 400 sine + noise)`: it lies in `[87, 937]`,
hence in `[0, 1023]`, and the clamp never fires. -/
theorem simulateArduinoData_range {K : Type} [LinearOrderedField K] [FloorRing K] (sine r : K)
    (hs : -1 ≤ sine ∧ sine ≤ 1) (hr : 0 ≤ r ∧ r < 1) :
    simulateArduinoData sine r = ⌊512 + sine * 400 + (r - 1 / 2) * 50 + 1 / 2⌋ ∧
      87 ≤ simulateArduinoData sine r ∧ simulateArduinoData sine r ≤ 937 ∧
      0 ≤ simulateArduinoData sine r ∧ simulateArduinoData sine r ≤ 1023 := by
  have hlo : (87 : ℤ) ≤ ⌊512 + sine * 400 + (r - 1 / 2) * 50 + 1 / 2⌋ := by
    apply Int.le_floor.mpr
    push_cast
    nlinarith [hs.1, hr.1]
  have hhi : ⌊512 + sine * 400 + (r - 1 / 2) * 50 + 1 / 2⌋ < (938 : ℤ) := by
    apply Int.floor_lt.mpr
    push_cast
    nlinarith [hs.2, hr.2]
  have e : simulateArduinoData sine r = ⌊512 + sine * 400 + (r - 1 / 2) * 50 + 1 / 2⌋ := by
    unfold simulateArduinoData
    simp only
    rw [min_eq_right (by omega), max_eq_right (by omega)]
  rw [e]
  exact ⟨rfl, hlo, by omega, by omega, by omega⟩

theorem simulateArduinoData_range_witness :
    ((-1 : ℚ) ≤ -1 ∧ (-1 : ℚ) ≤ 1) ∧ ((0 : ℚ) ≤ 0 ∧ (0 : ℚ) < 1) ∧
      87 ≤ simulateArduinoData (-1 : ℚ) 0 ∧ simulateArduinoData (-1 : ℚ) 0 ≤ 937 :=
  ⟨by norm_num, by norm_num,
    (simulateArduinoData_range (-1 : ℚ) 0 (by norm_num) (by norm_num)).2.1,
    (simulateArduinoData_range (-1 : ℚ) 0 (by norm_num) (by norm_num)).2.2.1⟩

theorem simulateArduinoData_lowest : simulateArduinoData (-1 : ℚ) 0 = 87 := by
  norm_num [simulateArduinoData]

/-! ## Splitting chunks into lines -/

theorem splitAtEach_nil (p : Char → Bool) : splitAtEach p [] = [[]] := rfl

theorem splitAtEach_cons_separator (p : Char → Bool) (c : Char) (cs : List Char)
    (h : p c = true) : splitAtEach p (c :: cs) = [] :: splitAtEach p cs := by
  rw [splitAtEach, if_pos h]

theorem splitAtEach_cons_other (p : Char → Bool) (c : Char) (cs : List Char)
    (h : ¬ p c = true) : splitAtEach p (c :: cs) = consHead c (splitAtEach p cs) := by
  rw [splitAtEach, if_neg h]

theorem splitAtEach_ne_nil (p : Char → Bool) (text : List Char) : splitAtEach p text ≠ [] := by
  cases text with
  | nil => simp [splitAtEach]
  | cons c cs =>
    by_cases h : p c = true
    · rw [splitAtEach_cons_separator p c cs h]
      simp
    · rw [splitAtEach_cons_other p c cs h]
      cases h1 : splitAtEach p cs <;> simp [consHead]

theorem nonBlank_append (l1 l2 : List (List Char)) :
    nonBlank (l1 ++ l2) = nonBlank l1 ++ nonBlank l2 := by
  simp [nonBlank]

theorem nonBlank_nil_cons (l : List (List Char)) : nonBlank ([] :: l) = nonBlank l := by
  have h : jsTrim [] = [] := rfl
  simp [nonBlank, h]

theorem nonBlank_cons (x : List Char) (l : List (List Char)) :
    nonBlank (x :: l) = nonBlank [x] ++ nonBlank l :=
  nonBlank_append [x] l

/-- The pieces kept by a filter that drops the empty piece do not depend on
whether a run of separators is one match or each separator is one: `current`
is put in front of the first piece of what follows. -/
theorem splitOnRunsFrom_filter (keep : List Char → Bool) (hkeep : keep [] = false)
    (text : List Char) :
    ∀ (current : List Char) (inRun : Bool), (inRun = true → current = []) →
      ∀ (piece : List Char) (rest : List (List Char)),
        splitAtEach isLineBreak text = piece :: rest →
        (splitOnRunsFrom text current inRun).filter keep =
          ((current.reverse ++ piece) :: rest).filter keep := by
  induction text with
  | nil =>
    intro current inRun _ piece rest h
    simp only [splitAtEach, List.cons.injEq] at h
    obtain ⟨rfl, rfl⟩ := h
    simp [splitOnRunsFrom]
  | cons c cs ih =>
    intro current inRun hrun piece rest h
    obtain ⟨p1, r1, h1⟩ := List.exists_cons_of_ne_nil (splitAtEach_ne_nil isLineBreak cs)
    have key := ih [] true (fun _ => rfl) p1 r1 h1
    simp only [List.reverse_nil, List.nil_append] at key
    by_cases hc : isLineBreak c = true
    · rw [splitAtEach_cons_separator _ c cs hc, h1] at h
      simp only [List.cons.injEq] at h
      obtain ⟨rfl, rfl⟩ := h
      cases inRun with
      | true =>
        have hcur : current = [] := hrun rfl
        subst hcur
        rw [splitOnRunsFrom, if_pos hc, if_pos rfl, key]
        simp only [List.reverse_nil, List.append_nil]
        exact (List.filter_cons_of_neg (by simp [hkeep])).symm
      | false =>
        rw [splitOnRunsFrom, if_pos hc, if_neg (by decide), List.append_nil]
        simp only [List.filter_cons, key]
    · rw [splitAtEach_cons_other _ c cs hc, h1] at h
      simp only [consHead, List.cons.injEq] at h
      obtain ⟨rfl, rfl⟩ := h
      rw [splitOnRunsFrom, if_neg hc,
        ih (c :: current) false (fun h => absurd h (by decide)) p1 r1 h1]
      simp

theorem splitOnRuns_filter (keep : List Char → Bool) (hkeep : keep [] = false)
    (text : List Char) :
    (splitOnRuns text).filter keep = (splitAtEach isLineBreak text).filter keep := by
  obtain ⟨p1, r1, h1⟩ := List.exists_cons_of_ne_nil (splitAtEach_ne_nil isLineBreak text)
  unfold splitOnRuns
  rw [splitOnRunsFrom_filter keep hkeep text [] false (fun h => absurd h (by decide)) p1 r1 h1,
    h1]
  simp

theorem nonBlank_splitOnRuns (text : List Char) :
    nonBlank (splitOnRuns text) = nonBlank (splitAtEach isLineBreak text) :=
  splitOnRuns_filter _ rfl text

theorem foldl_forward (lines : List (List Char)) :
    ∀ calls : List (List Char),
      lines.foldl (fun calls line => if jsTrim line != [] then calls ++ [jsTrim line] else calls)
          calls =
        calls ++ (nonBlank lines).map jsTrim := by
  induction lines with
  | nil => intro calls; simp [nonBlank]
  | cons line rest ih =>
    intro calls
    rw [List.foldl_cons, ih, nonBlank_cons line rest]
    by_cases h : jsTrim line = []
    · simp [nonBlank, h]
    · simp [nonBlank, h]

theorem handleCharacteristicValueChanged_eq (text : List Char) :
    handleCharacteristicValueChanged text =
      (nonBlank (splitAtEach isLineBreak text)).map jsTrim := by
  unfold handleCharacteristicValueChanged
  rw [foldl_forward, List.nil_append, nonBlank_splitOnRuns]

theorem splitAtEach_eq_splitOnP (p : Char → Bool) (text : List Char) :
    splitAtEach p text = text.splitOnP p := by
  induction text with
  | nil => simp [splitAtEach]
  | cons c cs ih =>
    rw [List.splitOnP_cons, ← ih]
    by_cases h : p c = true
    · rw [splitAtEach_cons_separator p c cs h, if_pos h]
    · rw [splitAtEach_cons_other p c cs h, if_neg h]
      obtain ⟨p1, r1, h1⟩ := List.exists_cons_of_ne_nil (splitAtEach_ne_nil p cs)
      rw [h1]
      rfl

theorem splitAtEach_append_separator (p : Char → Bool) (c : Char) (hc : p c = true)
    (a b : List Char) :
    splitAtEach p (a ++ c :: b) = splitAtEach p a ++ splitAtEach p b := by
  induction a with
  | nil =>
    rw [List.nil_append, splitAtEach_cons_separator p c b hc, splitAtEach_nil]
    rfl
  | cons x xs ih =>
    obtain ⟨p1, r1, h1⟩ := List.exists_cons_of_ne_nil (splitAtEach_ne_nil p xs)
    rw [List.cons_append]
    by_cases hx : p x = true
    · rw [splitAtEach_cons_separator p x _ hx, splitAtEach_cons_separator p x _ hx, ih]
      rfl
    · rw [splitAtEach_cons_other p x _ hx, splitAtEach_cons_other p x _ hx, ih, h1]
      rfl

theorem splitAtEach_separator_last (p : Char → Bool) (c : Char) (hc : p c = true)
    (a : List Char) : splitAtEach p (a ++ [c]) = splitAtEach p a ++ [[]] := by
  rw [splitAtEach_append_separator p c hc a []]
  rfl

theorem jsTrim_mem (c : Char) (text : List Char) (h : c ∈ jsTrim text) : c ∈ text := by
  unfold jsTrim at h
  have h1 := List.mem_reverse.mp h
  have h2 := (List.dropWhile_sublist _).subset h1
  have h3 := List.mem_reverse.mp h2
  exact (List.dropWhile_sublist _).subset h3

theorem splitAtEach_no_separator (p : Char → Bool) (text : List Char) :
    ∀ piece ∈ splitAtEach p text, ∀ c ∈ piece, p c = false := by
  induction text with
  | nil =>
    intro piece hp c hc
    simp only [splitAtEach, List.mem_singleton] at hp
    subst hp
    simp at hc
  | cons x xs ih =>
    intro piece hp c hc
    obtain ⟨p1, r1, h1⟩ := List.exists_cons_of_ne_nil (splitAtEach_ne_nil p xs)
    by_cases hx : p x = true
    · rw [splitAtEach_cons_separator p x xs hx] at hp
      rcases List.mem_cons.mp hp with rfl | hp
      · simp at hc
      · exact ih piece hp c hc
    · rw [splitAtEach_cons_other p x xs hx, h1] at hp
      simp only [consHead, List.mem_cons] at hp
      rcases hp with rfl | hp
      · rcases List.mem_cons.mp hc with rfl | hc1
        · simpa using hx
        · exact ih p1 (by rw [h1]; exact List.mem_cons_self _ _) c hc1
      · exact ih piece (by rw [h1]; exact List.mem_cons_of_mem _ hp) c hc

theorem dropWhile_head_false (p : Char → Bool) (l : List Char) :
    ∀ c, (l.dropWhile p).head? = some c → p c = false := by
  induction l with
  | nil => intro c h; simp at h
  | cons x xs ih =>
    intro c h
    by_cases hx : p x = true
    · rw [List.dropWhile_cons_of_pos hx] at h
      exact ih c h
    · rw [List.dropWhile_cons_of_neg hx] at h
      simp only [List.head?_cons, Option.some.injEq] at h
      subst h
      simpa using hx

theorem jsTrim_idem (text : List Char) : jsTrim (jsTrim text) = jsTrim text := by
  unfold jsTrim
  set u := text.dropWhile isStrWhiteSpaceChar with hu
  set w := u.reverse.dropWhile isStrWhiteSpaceChar with hw
  have hwhead : ∀ c, w.head? = some c → isStrWhiteSpaceChar c = false :=
    dropWhile_head_false _ _
  have huhead : ∀ c, u.head? = some c → isStrWhiteSpaceChar c = false :=
    dropWhile_head_false _ _
  have hsuffix : w <:+ u.reverse := List.dropWhile_suffix _
  have hprefix : w.reverse <+: u := by
    have := List.reverse_prefix.mpr hsuffix
    rwa [List.reverse_reverse] at this
  have h1 : w.reverse.dropWhile isStrWhiteSpaceChar = w.reverse := by
    apply dropWhile_eq_self
    intro c hc
    obtain ⟨t, ht⟩ := hprefix
    apply huhead c
    rw [← ht]
    cases hwr : w.reverse with
    | nil => rw [hwr] at hc; simp at hc
    | cons x xs => rw [hwr] at hc; simpa using hc
  rw [h1, List.reverse_reverse, dropWhile_eq_self w hwhead]

/-- C26. For every notification payload, `handleCharacteristicValueChanged`
calls `processIncomingData` with exactly the trimmed segments of the text that
are not empty, in their order: the segments are the pieces between the
separators `\r` and `\n`, and splitting on maximal runs of separators or at
every separator leaves the same non-empty pieces.  Every forwarded line is
non-empty, is its own trimmed form and holds no `\r` or `\n`. -/
theorem ble_forwards_trimmed_segments (text : List Char) :
    handleCharacteristicValueChanged text =
        ((text.splitOnP isLineBreak).map jsTrim).filter (fun segment => segment != []) ∧
      (splitOnRuns text).filter (fun segment => segment != []) =
        (text.splitOnP isLineBreak).filter (fun segment => segment != []) ∧
      ∀ line ∈ handleCharacteristicValueChanged text,
        line ≠ [] ∧ jsTrim line = line ∧ ∀ c ∈ line, isLineBreak c = false := by
  have e : handleCharacteristicValueChanged text =
      ((text.splitOnP isLineBreak).map jsTrim).filter (fun segment => segment != []) := by
    rw [handleCharacteristicValueChanged_eq, splitAtEach_eq_splitOnP, List.filter_map]
    rfl
  refine ⟨e, ?_, ?_⟩
  · rw [splitOnRuns_filter _ rfl, splitAtEach_eq_splitOnP]
  · intro line hline
    rw [e] at hline
    obtain ⟨hmem, hne⟩ := List.mem_filter.mp hline
    obtain ⟨segment, hseg, rfl⟩ := List.mem_map.mp hmem
    refine ⟨by simpa using hne, jsTrim_idem segment, ?_⟩
    intro c hc
    rw [← splitAtEach_eq_splitOnP] at hseg
    exact splitAtEach_no_separator isLineBreak text segment hseg c (jsTrim_mem c segment hc)

theorem ble_forwards_trimmed_segments_witness :
    handleCharacteristicValueChanged "12\r\n\n 34 \r".data = ["12".data, "34".data] ∧
      "34".data ≠ [] ∧ jsTrim "34".data = "34".data ∧
      ∀ c ∈ "34".data, isLineBreak c = false :=
  ⟨by decide, (ble_forwards_trimmed_segments "12\r\n\n 34 \r".data).2.2 "34".data (by decide)⟩

/-- C30. For all chunks `a` and `b` where `a` is empty or ends with `\n`, the
non-blank lines passed to `processIncomingData` for `a` and then for `b` are
those passed for the single chunk `a ++ b`, in the serial reader (split at
`\n`) and in the notification handler (split on runs of `\r` and `\n`). -/
theorem chunks_keep_no_partial_line (a b : List Char)
    (h : a = [] ∨ a.getLast? = some '\n') :
    nonBlank (readSerialChunk a) ++ nonBlank (readSerialChunk b) =
        nonBlank (readSerialChunk (a ++ b)) ∧
      handleCharacteristicValueChanged a ++ handleCharacteristicValueChanged b =
        handleCharacteristicValueChanged (a ++ b) := by
  have hblank : nonBlank [[]] = [] := nonBlank_nil_cons []
  rcases h with rfl | h
  · constructor
    · have e : nonBlank (readSerialChunk []) = [] := hblank
      rw [e, List.nil_append, List.nil_append]
    · have e : handleCharacteristicValueChanged [] = [] := rfl
      rw [e, List.nil_append, List.nil_append]
  · obtain ⟨front, rfl⟩ := List.getLast?_eq_some_iff.mp h
    have hab : front ++ ['\n'] ++ b = front ++ '\n' :: b := by simp
    constructor
    · unfold readSerialChunk
      rw [splitAtEach_separator_last (fun c => c == '\n') '\n' rfl front, hab,
        splitAtEach_append_separator (fun c => c == '\n') '\n' rfl front b,
        nonBlank_append, nonBlank_append, hblank, List.append_nil]
    · rw [handleCharacteristicValueChanged_eq, handleCharacteristicValueChanged_eq,
        handleCharacteristicValueChanged_eq,
        splitAtEach_separator_last isLineBreak '\n' rfl front, hab,
        splitAtEach_append_separator isLineBreak '\n' rfl front b,
        nonBlank_append, nonBlank_append, hblank, List.append_nil, List.map_append]

theorem chunks_keep_no_partial_line_witness :
    ("12\r\n".data = [] ∨ "12\r\n".data.getLast? = some '\n') ∧
      nonBlank (readSerialChunk "12\r\n".data) ++ nonBlank (readSerialChunk "34\n5".data) =
        nonBlank (readSerialChunk ("12\r\n".data ++ "34\n5".data)) ∧
      handleCharacteristicValueChanged "12\r\n".data ++
          handleCharacteristicValueChanged "34\n5".data =
        handleCharacteristicValueChanged ("12\r\n".data ++ "34\n5".data) :=
  ⟨by decide, chunks_keep_no_partial_line "12\r\n".data "34\n5".data (by decide)⟩

/-- A chunk that ends inside a line: the line `123` arrives as `12` and `3`. -/
theorem partial_line_example :
    nonBlank (readSerialChunk "12".data) ++ nonBlank (readSerialChunk "3\n".data) =
        ["12".data, "3".data] ∧
      nonBlank (readSerialChunk ("12".data ++ "3\n".data)) = ["123".data] ∧
      handleCharacteristicValueChanged "12".data ++ handleCharacteristicValueChanged "3\n".data =
        ["12".data, "3".data] ∧
      handleCharacteristicValueChanged ("12".data ++ "3\n".data) = ["123".data] := by
  decide

/-! ## The two drafts of the reading handler -/

theorem isIntegerLiteral_2000 : IsIntegerLiteral (jsTrim "2000".data) 2000 :=
  ⟨['2', '0', '0', '0'], by decide, by decide, Or.inl ⟨by decide, by decide⟩⟩

/-- C28. For a line whose trimmed text is the integer `v` and a range
`lo..hi`: the two drafts of `processIncomingData` make the same update of
`potValue` and `history` (on every state with that range) exactly when
`lo ≤ v ≤ hi` or `0 ≤ v ≤ 1023`, and then they yield the same state; when `v`
is outside both intervals the lib draft leaves the state as it is and the src
draft records `v` with the angle `convertToAngle v lo hi`. -/
theorem drafts_agree_iff (rawValue : String) (now : ℕ) (v lo hi : ℤ)
    (h : IsIntegerLiteral (jsTrim rawValue.data) v) :
    ((∀ s : AppState, s.minValue = lo → s.maxValue = hi →
          (processIncomingData s rawValue now).map (fun t => (t.potValue, t.history)) =
            some ((LibDraft.processIncomingData s rawValue now).potValue,
              (LibDraft.processIncomingData s rawValue now).history)) ↔
        (lo ≤ v ∧ v ≤ hi) ∨ (0 ≤ v ∧ v ≤ 1023)) ∧
      ((lo ≤ v ∧ v ≤ hi) ∨ (0 ≤ v ∧ v ≤ 1023) →
        ∀ s : AppState, s.minValue = lo → s.maxValue = hi →
          processIncomingData s rawValue now =
            some (LibDraft.processIncomingData s rawValue now)) ∧
      (¬(lo ≤ v ∧ v ≤ hi) ∧ ¬(0 ≤ v ∧ v ≤ 1023) →
        ∀ s : AppState, s.minValue = lo → s.maxValue = hi →
          LibDraft.processIncomingData s rawValue now = s ∧
            processIncomingData s rawValue now =
              some { s with
                potValue := v
                angle := convertToAngle v lo hi
                history := appendHistory s.history ⟨v, convertToAngle v lo hi, now⟩ }) := by
  obtain ⟨hne, hnan, hp⟩ := parse_integerLiteral h
  have hsame : (lo ≤ v ∧ v ≤ hi) ∨ (0 ≤ v ∧ v ≤ 1023) →
      ∀ s : AppState, s.minValue = lo → s.maxValue = hi →
        processIncomingData s rawValue now =
          some (LibDraft.processIncomingData s rawValue now) := by
    intro hc s hlo hhi
    rw [processIncomingData_of_parse s rawValue now rfl hne hnan hp,
      libDraft_processIncomingData_of_parse s rawValue now rfl hne hnan hp, hlo, hhi]
    by_cases h1 : lo ≤ v ∧ v ≤ hi
    · have hc1 : (lo ≤ v ∧ v ≤ hi) ∨ ¬(0 ≤ v ∧ v ≤ 1023) := Or.inl h1
      rw [if_pos h1, if_pos hc1, if_pos hc1]
    · have h2 : 0 ≤ v ∧ v ≤ 1023 := hc.resolve_left h1
      have hc1 : ¬((lo ≤ v ∧ v ≤ hi) ∨ ¬(0 ≤ v ∧ v ≤ 1023)) := by
        rintro (h3 | h3)
        · exact h1 h3
        · exact h3 h2
      rw [if_neg h1, if_pos h2, if_neg hc1, if_neg hc1]
  have hdiff : ¬(lo ≤ v ∧ v ≤ hi) ∧ ¬(0 ≤ v ∧ v ≤ 1023) →
      ∀ s : AppState, s.minValue = lo → s.maxValue = hi →
        LibDraft.processIncomingData s rawValue now = s ∧
          processIncomingData s rawValue now =
            some { s with
              potValue := v
              angle := convertToAngle v lo hi
              history := appendHistory s.history ⟨v, convertToAngle v lo hi, now⟩ } := by
    intro hc s hlo hhi
    rw [processIncomingData_of_parse s rawValue now rfl hne hnan hp,
      libDraft_processIncomingData_of_parse s rawValue now rfl hne hnan hp, hlo, hhi]
    have hc1 : (lo ≤ v ∧ v ≤ hi) ∨ ¬(0 ≤ v ∧ v ≤ 1023) := Or.inr hc.2
    rw [if_neg hc.1, if_neg hc.2, if_pos hc1, if_pos hc1]
    exact ⟨rfl, rfl⟩
  refine ⟨⟨?_, ?_⟩, hsame, hdiff⟩
  · intro hall
    by_contra hc
    have hc2 : ¬(lo ≤ v ∧ v ≤ hi) ∧ ¬(0 ≤ v ∧ v ≤ 1023) := not_or.mp hc
    have hs := hall { AppState.initial with minValue := lo, maxValue := hi } rfl rfl
    obtain ⟨e1, e2⟩ := hdiff hc2 { AppState.initial with minValue := lo, maxValue := hi } rfl rfl
    rw [e1, e2] at hs
    simp only [Option.map_some', Option.some.injEq, Prod.mk.injEq] at hs
    have hlen := congrArg List.length hs.2
    simp [appendHistory, sliceFromEnd, AppState.initial] at hlen
  · intro hc s hlo hhi
    rw [hsame hc s hlo hhi]
    rfl

theorem drafts_agree_iff_witness :
    IsIntegerLiteral (jsTrim "2000".data) 2000 ∧
      (¬((100 : ℤ) ≤ 2000 ∧ (2000 : ℤ) ≤ 200) ∧ ¬((0 : ℤ) ≤ 2000 ∧ (2000 : ℤ) ≤ 1023)) ∧
      LibDraft.processIncomingData narrowState "2000" 7 = narrowState ∧
      processIncomingData narrowState "2000" 7 =
        some { narrowState with
          potValue := 2000
          angle := convertToAngle 2000 100 200
          history := appendHistory narrowState.history ⟨2000, convertToAngle 2000 100 200, 7⟩ } :=
  ⟨isIntegerLiteral_2000, by decide,
    (drafts_agree_iff "2000" 7 2000 100 200 isIntegerLiteral_2000).2.2 (by decide)
      narrowState rfl rfl⟩

theorem convertToAngle_2000_narrow : convertToAngle 2000 100 200 = 360 := by
  norm_num [convertToAngle, mathRound]

/-! ## Rounding to a double -/

namespace JsNumber

theorem floor_le_roundHalfEven (y : ℚ) : ⌊y⌋ ≤ roundHalfEven y := by
  unfold roundHalfEven
  split_ifs <;> omega

theorem roundHalfEven_le_floor_add_one (y : ℚ) : roundHalfEven y ≤ ⌊y⌋ + 1 := by
  unfold roundHalfEven
  split_ifs <;> omega

theorem roundHalfEven_intCast (n : ℤ) : roundHalfEven (n : ℚ) = n := by
  unfold roundHalfEven
  simp

theorem le_roundHalfEven {n : ℤ} {y : ℚ} (h : (n : ℚ) ≤ y) : n ≤ roundHalfEven y :=
  (Int.le_floor.mpr h).trans (floor_le_roundHalfEven y)

theorem roundHalfEven_le {n : ℤ} {y : ℚ} (h : y ≤ (n : ℚ)) : roundHalfEven y ≤ n := by
  rcases eq_or_lt_of_le h with h1 | h1
  · rw [h1, roundHalfEven_intCast]
  · have : ⌊y⌋ < n := Int.floor_lt.mpr h1
    have := roundHalfEven_le_floor_add_one y
    omega

theorem roundHalfEven_le_of_lt_half {n : ℤ} {y : ℚ} (h : y < (n : ℚ) + 1 / 2) :
    roundHalfEven y ≤ n := by
  have h1 : ⌊y⌋ ≤ n := by
    have : ⌊y⌋ < n + 1 := Int.floor_lt.mpr (by push_cast; linarith)
    omega
  rcases eq_or_lt_of_le h1 with h2 | h2
  · have hf : y - ⌊y⌋ < 1 / 2 := by rw [h2]; linarith
    unfold roundHalfEven
    rw [if_pos hf, h2]
  · have := roundHalfEven_le_floor_add_one y
    omega

theorem roundHalfEven_mono {y1 y2 : ℚ} (h : y1 ≤ y2) : roundHalfEven y1 ≤ roundHalfEven y2 := by
  have hf : ⌊y1⌋ ≤ ⌊y2⌋ := Int.floor_mono h
  rcases eq_or_lt_of_le hf with he | hlt
  · unfold roundHalfEven
    rw [he]
    have h12 : y1 - ⌊y2⌋ ≤ y2 - ⌊y2⌋ := by linarith
    split_ifs <;> first | omega | (exfalso; linarith)
  · have h1 := roundHalfEven_le_floor_add_one y1
    have h2 := floor_le_roundHalfEven y2
    omega

theorem roundHalfEven_neg (y : ℚ) : roundHalfEven (-y) = -roundHalfEven y := by
  by_cases hint : (⌊y⌋ : ℚ) = y
  · rw [← hint, ← Int.cast_neg, roundHalfEven_intCast, roundHalfEven_intCast]
  · have hlt : (⌊y⌋ : ℚ) < y := lt_of_le_of_ne (Int.floor_le y) hint
    have hfl : ⌊-y⌋ = -⌊y⌋ - 1 := by
      rw [Int.floor_eq_iff]
      constructor
      · push_cast
        have := Int.lt_floor_add_one y
        linarith
      · push_cast
        linarith
    unfold roundHalfEven
    rw [hfl]
    push_cast
    have hm : (-⌊y⌋ - 1) % 2 = 0 ↔ ¬ (⌊y⌋ % 2 = 0) := by omega
    by_cases h1 : y - ⌊y⌋ < 1 / 2
    · have a1 : ¬ (-y - (-(⌊y⌋ : ℚ) - 1) < 1 / 2) := by linarith
      have a2 : 1 / 2 < -y - (-(⌊y⌋ : ℚ) - 1) := by linarith
      rw [if_pos h1, if_neg a1, if_pos a2]
      omega
    · by_cases h2 : 1 / 2 < y - ⌊y⌋
      · have a1 : -y - (-(⌊y⌋ : ℚ) - 1) < 1 / 2 := by linarith
        rw [if_neg h1, if_pos h2, if_pos a1]
        omega
      · have a1 : ¬ (-y - (-(⌊y⌋ : ℚ) - 1) < 1 / 2) := by linarith
        have a2 : ¬ (1 / 2 < -y - (-(⌊y⌋ : ℚ) - 1)) := by linarith
        rw [if_neg h1, if_neg h2, if_neg a1, if_neg a2]
        by_cases h3 : ⌊y⌋ % 2 = 0
        · rw [if_pos h3, if_neg (by omega)]
          omega
        · rw [if_neg h3, if_pos (by omega)]
          omega

theorem two_zpow_pos (e : ℤ) : (0 : ℚ) < (2 : ℚ) ^ e := zpow_pos (by norm_num) e

theorem ulp_pos (x : ℚ) : 0 < ulp x := two_zpow_pos _

theorem binade_neg (x : ℚ) : binade (-x) = binade x := by
  unfold binade
  rw [abs_neg]

theorem ulp_neg (x : ℚ) : ulp (-x) = ulp x := by
  unfold ulp
  rw [binade_neg]

theorem roundToGrid_neg (x : ℚ) : roundToGrid (-x) = -roundToGrid x := by
  unfold roundToGrid
  rw [ulp_neg, neg_div, roundHalfEven_neg]
  push_cast
  ring

theorem roundToGrid_zero : roundToGrid 0 = 0 := by
  unfold roundToGrid
  rw [zero_div]
  have : roundHalfEven 0 = 0 := by
    have := roundHalfEven_intCast 0
    simpa using this
  rw [this]
  simp

theorem roundToGrid_nonneg {x : ℚ} (h : 0 ≤ x) : 0 ≤ roundToGrid x := by
  unfold roundToGrid
  have h1 : (0 : ℚ) ≤ x / ulp x := div_nonneg h (ulp_pos x).le
  have h2 : (0 : ℤ) ≤ roundHalfEven (x / ulp x) := le_roundHalfEven (by simpa using h1)
  exact mul_nonneg (by exact_mod_cast h2) (ulp_pos x).le

theorem log_eq_of_bounds {x : ℚ} {e : ℤ} (h1 : (2 : ℚ) ^ e ≤ x) (h2 : x < (2 : ℚ) ^ (e + 1)) :
    Int.log 2 x = e := by
  have hx : 0 < x := lt_of_lt_of_le (two_zpow_pos e) h1
  have a : e ≤ Int.log 2 x :=
    (Int.zpow_le_iff_le_log (by norm_num) hx).mp (by simpa using h1)
  have b : Int.log 2 x < e + 1 :=
    (Int.lt_zpow_iff_log_lt (by norm_num) hx).mp (by simpa using h2)
  omega

theorem two_zpow_log_le {x : ℚ} (hx : 0 < x) : (2 : ℚ) ^ Int.log 2 x ≤ x := by
  have := Int.zpow_log_le_self (b := 2) (r := x) (by norm_num) hx
  simpa using this

theorem lt_two_zpow_log_succ (x : ℚ) : x < (2 : ℚ) ^ (Int.log 2 x + 1) := by
  have := Int.lt_zpow_succ_log_self (b := 2) (by norm_num) x
  simpa using this

theorem abs_lt_two_zpow_binade_succ (x : ℚ) : |x| < (2 : ℚ) ^ (binade x + 1) := by
  refine lt_of_lt_of_le (lt_two_zpow_log_succ |x|) ?_
  apply zpow_le_zpow_right₀ (by norm_num)
  unfold binade
  have := le_max_left (Int.log 2 |x|) (-1022)
  omega

theorem two_zpow_split (e : ℤ) : (2 : ℚ) ^ e = (2 : ℚ) ^ (52 : ℤ) * (2 : ℚ) ^ (e - 52) := by
  rw [← zpow_add₀ (by norm_num : (2 : ℚ) ≠ 0)]
  congr 1
  ring

theorem two_zpow_split_succ (e : ℤ) :
    (2 : ℚ) ^ (e + 1) = (2 : ℚ) ^ (53 : ℤ) * (2 : ℚ) ^ (e - 52) := by
  rw [← zpow_add₀ (by norm_num : (2 : ℚ) ≠ 0)]
  congr 1
  ring

/-- A rounded value stays within its binade. -/
theorem roundToGrid_le_binade_succ {x : ℚ} (hx : 0 ≤ x) :
    roundToGrid x ≤ (2 : ℚ) ^ (binade x + 1) := by
  have h1 := abs_lt_two_zpow_binade_succ x
  rw [abs_of_nonneg hx, two_zpow_split_succ] at h1
  have e53 : ((2 ^ 53 : ℤ) : ℚ) = (2 : ℚ) ^ (53 : ℤ) := by norm_num
  have h2 : x / ulp x ≤ ((2 ^ 53 : ℤ) : ℚ) := by
    rw [e53, div_le_iff₀ (ulp_pos x)]
    unfold ulp
    exact h1.le
  have h3 := roundHalfEven_le h2
  unfold roundToGrid
  rw [two_zpow_split_succ]
  have h4 : ((roundHalfEven (x / ulp x) : ℤ) : ℚ) ≤ (2 : ℚ) ^ (53 : ℤ) := by
    rw [← e53]
    exact_mod_cast h3
  exact mul_le_mul_of_nonneg_right h4 (ulp_pos x).le

theorem binade_le_roundToGrid {x : ℚ} (hx : 0 < x) (hb : binade x = Int.log 2 x) :
    (2 : ℚ) ^ binade x ≤ roundToGrid x := by
  have h1 : (2 : ℚ) ^ binade x ≤ x := by
    rw [hb]
    exact two_zpow_log_le hx
  rw [two_zpow_split] at h1
  have e52 : ((2 ^ 52 : ℤ) : ℚ) = (2 : ℚ) ^ (52 : ℤ) := by norm_num
  have h2 : ((2 ^ 52 : ℤ) : ℚ) ≤ x / ulp x := by
    rw [e52, le_div_iff₀ (ulp_pos x)]
    unfold ulp
    exact h1
  have h3 := le_roundHalfEven h2
  unfold roundToGrid
  rw [two_zpow_split]
  have h4 : (2 : ℚ) ^ (52 : ℤ) ≤ ((roundHalfEven (x / ulp x) : ℤ) : ℚ) := by
    rw [← e52]
    exact_mod_cast h3
  exact mul_le_mul_of_nonneg_right h4 (ulp_pos x).le

theorem binade_mono {x y : ℚ} (hx : 0 < x) (h : x ≤ y) : binade x ≤ binade y := by
  unfold binade
  have hy : 0 < y := lt_of_lt_of_le hx h
  rw [abs_of_pos hx, abs_of_pos hy]
  exact max_le_max (Int.log_mono_right hx h) le_rfl

theorem roundToGrid_mono_pos {x y : ℚ} (hx : 0 < x) (h : x ≤ y) :
    roundToGrid x ≤ roundToGrid y := by
  have hy : 0 < y := lt_of_lt_of_le hx h
  rcases eq_or_lt_of_le (binade_mono hx h) with he | hlt
  · unfold roundToGrid ulp
    rw [he]
    have hu := two_zpow_pos (binade y - 52)
    have h1 : x / (2 : ℚ) ^ (binade y - 52) ≤ y / (2 : ℚ) ^ (binade y - 52) :=
      div_le_div_of_nonneg_right h hu.le
    have h2 := roundHalfEven_mono h1
    exact mul_le_mul_of_nonneg_right (by exact_mod_cast h2) hu.le
  · have a := roundToGrid_le_binade_succ hx.le
    have hb : binade y = Int.log 2 y := by
      have h1 : -1022 ≤ binade x := le_max_right _ _
      unfold binade at hlt ⊢
      rw [abs_of_pos hy] at hlt ⊢
      apply max_eq_left
      by_contra hc
      rw [max_eq_right (by omega)] at hlt
      unfold binade at h1
      omega
    have b := binade_le_roundToGrid hy hb
    have c : (2 : ℚ) ^ (binade x + 1) ≤ (2 : ℚ) ^ binade y :=
      zpow_le_zpow_right₀ (by norm_num) (by omega)
    exact a.trans (c.trans b)

theorem roundToGrid_mono {x y : ℚ} (h : x ≤ y) : roundToGrid x ≤ roundToGrid y := by
  rcases lt_trichotomy 0 x with hx | hx | hx
  · exact roundToGrid_mono_pos hx h
  · rw [← hx, roundToGrid_zero]
    exact roundToGrid_nonneg (hx ▸ h)
  · rcases lt_or_le y 0 with hy | hy
    · have h1 := roundToGrid_mono_pos (neg_pos.mpr hy) (neg_le_neg h)
      rw [roundToGrid_neg, roundToGrid_neg] at h1
      linarith
    · have h1 := roundToGrid_nonneg (neg_pos.mpr hx).le
      rw [roundToGrid_neg] at h1
      have h2 := roundToGrid_nonneg hy
      linarith

end JsNumber

namespace JsNumber

theorem binade_eq_of_bounds {x : ℚ} {e : ℤ} (h1 : (2 : ℚ) ^ e ≤ |x|)
    (h2 : |x| < (2 : ℚ) ^ (e + 1)) (he : -1022 ≤ e) : binade x = e := by
  unfold binade
  rw [log_eq_of_bounds h1 h2]
  exact max_eq_left he

theorem roundToGrid_eq_self {x : ℚ} (e m : ℤ) (hb : binade x = e)
    (hx : x = (m : ℚ) * (2 : ℚ) ^ (e - 52)) : roundToGrid x = x := by
  unfold roundToGrid ulp
  rw [hb]
  have hu : (2 : ℚ) ^ (e - 52) ≠ 0 := (two_zpow_pos _).ne'
  have h1 : x / (2 : ℚ) ^ (e - 52) = (m : ℚ) := by
    rw [hx]
    field_simp
  rw [h1, roundHalfEven_intCast, ← hx]

theorem roundToGrid_one : roundToGrid 1 = 1 :=
  roundToGrid_eq_self 0 (2 ^ 52)
    (binade_eq_of_bounds (by norm_num) (by norm_num) (by norm_num)) (by norm_num)

theorem roundToGrid_360 : roundToGrid 360 = 360 :=
  roundToGrid_eq_self 8 (360 * 2 ^ 44)
    (binade_eq_of_bounds (by norm_num) (by norm_num) (by norm_num)) (by norm_num)

theorem roundToGrid_two_pow_1023 : roundToGrid ((2 : ℚ) ^ 1023) = (2 : ℚ) ^ 1023 :=
  roundToGrid_eq_self 1023 (2 ^ 52)
    (binade_eq_of_bounds (by norm_num) (by norm_num) (by norm_num)) (by norm_num)

theorem roundToGrid_lt_of_lt_threshold_nonneg {x : ℚ} (h0 : 0 ≤ x) (h : x < overflowThreshold) :
    roundToGrid x < (2 : ℚ) ^ 1024 := by
  rcases lt_or_le x ((2 : ℚ) ^ 1023) with h1 | h1
  · have := roundToGrid_mono h1.le
    rw [roundToGrid_two_pow_1023] at this
    exact lt_of_le_of_lt this (by norm_num)
  · have hb : binade x = 1023 := by
      apply binade_eq_of_bounds
      · rw [abs_of_nonneg h0, zpow_ofNat]
        exact h1
      · rw [abs_of_nonneg h0]
        refine lt_trans h ?_
        unfold overflowThreshold
        norm_num
      · norm_num
    unfold roundToGrid ulp
    rw [hb]
    have hu : (0 : ℚ) < (2 : ℚ) ^ ((1023 : ℤ) - 52) := two_zpow_pos _
    have h2 : x / (2 : ℚ) ^ ((1023 : ℤ) - 52) < ((2 ^ 53 - 1 : ℤ) : ℚ) + 1 / 2 := by
      rw [div_lt_iff₀ hu]
      refine lt_of_lt_of_le h ?_
      unfold overflowThreshold
      norm_num
    have h3 := roundHalfEven_le_of_lt_half h2
    have h4 : ((roundHalfEven (x / (2 : ℚ) ^ ((1023 : ℤ) - 52)) : ℤ) : ℚ) ≤
        ((2 ^ 53 - 1 : ℤ) : ℚ) := by exact_mod_cast h3
    calc ((roundHalfEven (x / (2 : ℚ) ^ ((1023 : ℤ) - 52)) : ℤ) : ℚ) *
          (2 : ℚ) ^ ((1023 : ℤ) - 52)
        ≤ ((2 ^ 53 - 1 : ℤ) : ℚ) * (2 : ℚ) ^ ((1023 : ℤ) - 52) :=
          mul_le_mul_of_nonneg_right h4 hu.le
      _ < (2 : ℚ) ^ 1024 := by norm_num

theorem abs_roundToGrid_lt {x : ℚ} (h : |x| < overflowThreshold) :
    -(2 : ℚ) ^ 1024 < roundToGrid x ∧ roundToGrid x < (2 : ℚ) ^ 1024 := by
  rcases le_or_lt 0 x with h0 | h0
  · rw [abs_of_nonneg h0] at h
    have h1 := roundToGrid_lt_of_lt_threshold_nonneg h0 h
    have h2 := roundToGrid_nonneg h0
    constructor
    · have : (0 : ℚ) < (2 : ℚ) ^ 1024 := by norm_num
      linarith
    · exact h1
  · rw [abs_of_neg h0] at h
    have h1 := roundToGrid_lt_of_lt_threshold_nonneg (neg_pos.mpr h0).le h
    have h2 := roundToGrid_nonneg (neg_pos.mpr h0).le
    rw [roundToGrid_neg] at h1 h2
    constructor
    · linarith
    · have : (0 : ℚ) < (2 : ℚ) ^ 1024 := by norm_num
      linarith

theorem roundToDouble_of_lt_threshold {x : ℚ} (h : |x| < overflowThreshold) :
    roundToDouble x = finite (roundToGrid x) := by
  obtain ⟨h1, h2⟩ := abs_roundToGrid_lt h
  unfold roundToDouble
  rw [if_neg (not_le.mpr h2), if_neg (by linarith)]

theorem roundToDouble_ne_nan (x : ℚ) : roundToDouble x ≠ nan := by
  unfold roundToDouble
  split_ifs <;> simp

theorem roundToDouble_mono {x y : ℚ} (h : x ≤ y) :
    le (roundToDouble x) (roundToDouble y) = true := by
  have hg := roundToGrid_mono h
  have hp : (0 : ℚ) < (2 : ℚ) ^ 1024 := by norm_num
  unfold roundToDouble
  split_ifs <;> simp only [le, decide_eq_true_eq] <;> first | rfl | linarith

theorem le_refl_of_ne_nan {a : JsNumber} (h : a ≠ nan) : le a a = true := by
  cases a <;> simp [le] at h ⊢

theorem le_posInf {a : JsNumber} (h : a ≠ nan) : le a posInf = true := by
  cases a <;> simp [le] at h ⊢

theorem negInf_le {a : JsNumber} (h : a ≠ nan) : le negInf a = true := by
  cases a <;> simp [le] at h ⊢

theorem ne_nan_of_le_left {a b : JsNumber} (h : le a b = true) : a ≠ nan := by
  rintro rfl
  simp [le] at h

theorem ne_nan_of_le_right {a b : JsNumber} (h : le a b = true) : b ≠ nan := by
  rintro rfl
  cases a <;> simp [le] at h

/-- The clamp `Math.max(0, Math.min(1, q))`. -/
theorem clamp_eq (q : JsNumber) (h : q ≠ nan) :
    mathMax2 (finite 0) (mathMin2 (finite 1) q) =
      finite (match q with
        | posInf => 1
        | negInf => 0
        | finite x => max 0 (min 1 x)
        | nan => 0) := by
  cases q with
  | nan => exact absurd rfl h
  | posInf => simp [mathMin2, mathMax2, le]
  | negInf => simp [mathMin2, mathMax2, le]
  | finite x =>
    by_cases h1 : (1 : ℚ) ≤ x
    · simp [mathMin2, mathMax2, le, h1]
    · have h2 : min 1 x = x := min_eq_right (le_of_lt (not_le.mp h1))
      by_cases h3 : (0 : ℚ) ≤ x
      · simp [mathMin2, mathMax2, le, h1, h2, h3]
      · have h4 : max 0 x = 0 := max_eq_left (le_of_lt (not_le.mp h3))
        simp [mathMin2, mathMax2, le, h1, h2, h3, h4]

theorem clamp_eq_saturate (q : JsNumber) (h : q ≠ nan) :
    mathMax2 (finite 0) (mathMin2 (finite 1) q) = finite (saturate q) := by
  rw [clamp_eq q h]
  cases q <;> rfl

theorem saturate_nonneg (q : JsNumber) : 0 ≤ saturate q := by
  cases q <;> simp [saturate]

theorem saturate_le_one (q : JsNumber) : saturate q ≤ 1 := by
  cases q <;> simp [saturate]

theorem saturate_mono {a b : JsNumber} (h : le a b = true) : saturate a ≤ saturate b := by
  cases a with
  | nan => simp [le] at h
  | negInf => exact saturate_nonneg b
  | posInf =>
    cases b with
    | posInf => exact le_rfl
    | nan => simp [le] at h
    | negInf => simp [le] at h
    | finite y => simp [le] at h
  | finite x =>
    cases b with
    | nan => simp [le] at h
    | negInf => simp [le] at h
    | posInf => exact saturate_le_one _
    | finite y =>
      have hxy : x ≤ y := by simpa [le] using h
      exact max_le_max le_rfl (min_le_min le_rfl hxy)

end JsNumber

/-! ## The angle converter on Numbers -/

namespace JsNumber

theorem roundToGrid_scaled_bounds {c : ℚ} (h0 : 0 ≤ c) (h1 : c ≤ 1) :
    0 ≤ roundToGrid (c * 360) ∧ roundToGrid (c * 360) ≤ 360 := by
  constructor
  · exact roundToGrid_nonneg (by positivity)
  · have := roundToGrid_mono (show c * 360 ≤ 360 by linarith)
    rwa [roundToGrid_360] at this

theorem mathRound_mul_360 {c : ℚ} (h0 : 0 ≤ c) (h1 : c ≤ 1) :
    mathRound (mul (finite c) (finite 360)) = finite (angleOf c) := by
  obtain ⟨a, b⟩ := roundToGrid_scaled_bounds h0 h1
  have e : roundToDouble (c * 360) = finite (roundToGrid (c * 360)) := by
    unfold roundToDouble
    rw [if_neg (by
      have : (360 : ℚ) < (2 : ℚ) ^ 1024 := by norm_num
      linarith), if_neg (by
      have : (0 : ℚ) < (2 : ℚ) ^ 1024 := by norm_num
      linarith)]
  simp only [mul, e, mathRound, angleOf]

theorem angleOf_bounds {c : ℚ} (h0 : 0 ≤ c) (h1 : c ≤ 1) : 0 ≤ angleOf c ∧ angleOf c ≤ 360 := by
  obtain ⟨a, b⟩ := roundToGrid_scaled_bounds h0 h1
  unfold angleOf
  constructor
  · exact Int.floor_nonneg.mpr (by linarith)
  · have : ⌊roundToGrid (c * 360) + 1 / 2⌋ < 361 := Int.floor_lt.mpr (by push_cast; linarith)
    omega

theorem angleOf_mono {c1 c2 : ℚ} (h : c1 ≤ c2) : angleOf c1 ≤ angleOf c2 := by
  unfold angleOf
  apply Int.floor_mono
  have := roundToGrid_mono (show c1 * 360 ≤ c2 * 360 by linarith)
  linarith

theorem angleOf_zero : angleOf 0 = 0 := by
  unfold angleOf
  rw [zero_mul, roundToGrid_zero]
  norm_num

theorem angleOf_one : angleOf 1 = 360 := by
  unfold angleOf
  rw [one_mul, roundToGrid_360]
  norm_num

end JsNumber

namespace Ieee

open JsNumber

/-- The difference `currentMax - currentMin` of two integers whose distance
does not overflow is a finite Number other than zero. -/
theorem sub_int_finite {lo hi : ℤ} (hne : lo ≠ hi)
    (hD : |((hi : ℚ) - (lo : ℚ))| < overflowThreshold) :
    JsNumber.sub (finite hi) (finite lo) = finite (roundToGrid ((hi : ℚ) - (lo : ℚ))) ∧
      roundToGrid ((hi : ℚ) - (lo : ℚ)) ≠ 0 ∧
      (lo < hi → 1 ≤ roundToGrid ((hi : ℚ) - (lo : ℚ))) := by
  refine ⟨roundToDouble_of_lt_threshold hD, ?_, ?_⟩
  · rcases lt_or_gt_of_ne hne with h | h
    · have h1 : (1 : ℚ) ≤ (hi : ℚ) - (lo : ℚ) := by
        have : (1 : ℤ) ≤ hi - lo := by omega
        exact_mod_cast this
      have := roundToGrid_mono h1
      rw [roundToGrid_one] at this
      linarith
    · have h1 : (hi : ℚ) - (lo : ℚ) ≤ -1 := by
        have : hi - lo ≤ (-1 : ℤ) := by omega
        exact_mod_cast this
      have := roundToGrid_mono h1
      rw [roundToGrid_neg, roundToGrid_one] at this
      linarith
  · intro h
    have h1 : (1 : ℚ) ≤ (hi : ℚ) - (lo : ℚ) := by
      have : (1 : ℤ) ≤ hi - lo := by omega
      exact_mod_cast this
    have := roundToGrid_mono h1
    rwa [roundToGrid_one] at this

theorem div_finite_ne_nan (a : JsNumber) (ha : a ≠ nan) {d : ℚ} (hd : d ≠ 0) :
    JsNumber.div a (finite d) ≠ nan := by
  cases a with
  | nan => exact absurd rfl ha
  | posInf => simp only [JsNumber.div]; split_ifs <;> simp
  | negInf => simp only [JsNumber.div]; split_ifs <;> simp
  | finite x =>
    simp only [JsNumber.div, if_neg hd]
    exact roundToDouble_ne_nan _

theorem div_mono {a b : JsNumber} (h : le a b = true) {d : ℚ} (hd : 0 < d) :
    le (JsNumber.div a (finite d)) (JsNumber.div b (finite d)) = true := by
  have hb := div_finite_ne_nan b (ne_nan_of_le_right h) hd.ne'
  have ha := div_finite_ne_nan a (ne_nan_of_le_left h) hd.ne'
  cases a with
  | nan => simp [le] at h
  | negInf =>
    have e : JsNumber.div negInf (finite d) = negInf := by simp [JsNumber.div, hd.le]
    rw [e]
    exact negInf_le hb
  | posInf =>
    cases b with
    | posInf => exact le_refl_of_ne_nan ha
    | nan => simp [le] at h
    | negInf => simp [le] at h
    | finite y => simp [le] at h
  | finite x =>
    cases b with
    | nan => simp [le] at h
    | negInf => simp [le] at h
    | posInf =>
      have e : JsNumber.div posInf (finite d) = posInf := by simp [JsNumber.div, hd.le]
      rw [e]
      exact le_posInf ha
    | finite y =>
      have hxy : x ≤ y := by simpa [le] using h
      simp only [JsNumber.div, if_neg hd.ne']
      exact roundToDouble_mono (div_le_div_of_nonneg_right hxy hd.le)

/-- The shape of a conversion whose range does not overflow. -/
theorem convertToAngle_eq (v lo hi : ℤ) (hne : lo ≠ hi)
    (hD : |((hi : ℚ) - (lo : ℚ))| < overflowThreshold) :
    convertToAngle (finite v) (finite lo) (finite hi) =
      finite (angleOf (saturate (JsNumber.div (JsNumber.sub (finite v) (finite lo))
        (finite (roundToGrid ((hi : ℚ) - (lo : ℚ))))))) := by
  obtain ⟨e, hd, -⟩ := sub_int_finite hne hD
  have hs : strictEquals (finite (hi : ℚ)) (finite (lo : ℚ)) = false := by
    simp only [strictEquals, decide_eq_false_iff_not, finite.injEq]
    exact_mod_cast hne.symm
  unfold convertToAngle
  rw [hs, e]
  simp only [Bool.false_eq_true, if_false]
  have hq : JsNumber.div (JsNumber.sub (finite v) (finite lo))
      (finite (roundToGrid ((hi : ℚ) - (lo : ℚ)))) ≠ nan :=
    div_finite_ne_nan _ (roundToDouble_ne_nan _) hd
  rw [clamp_eq_saturate _ hq, mathRound_mul_360 (saturate_nonneg _) (saturate_le_one _)]

end Ieee

namespace JsNumber

theorem roundToGrid_eval {x : ℚ} (e m : ℤ) (h1 : (2 : ℚ) ^ e ≤ |x|)
    (h2 : |x| < (2 : ℚ) ^ (e + 1)) (he : -1022 ≤ e)
    (hm : roundHalfEven (x / (2 : ℚ) ^ (e - 52)) = m) :
    roundToGrid x = (m : ℚ) * (2 : ℚ) ^ (e - 52) := by
  unfold roundToGrid ulp
  rw [binade_eq_of_bounds h1 h2 he, hm]

theorem roundToDouble_two_pow_1024 : roundToDouble ((2 : ℚ) ^ 1024) = posInf := by
  have e : roundToGrid ((2 : ℚ) ^ 1024) = (2 : ℚ) ^ 1024 :=
    roundToGrid_eq_self 1024 (2 ^ 52)
      (binade_eq_of_bounds (by norm_num) (by norm_num) (by norm_num)) (by norm_num)
  unfold roundToDouble
  rw [e, if_pos le_rfl]

theorem roundToDouble_two_pow_1023 : roundToDouble ((2 : ℚ) ^ 1023) = finite ((2 : ℚ) ^ 1023) := by
  unfold roundToDouble
  rw [roundToGrid_two_pow_1023, if_neg (by norm_num), if_neg (by norm_num)]

theorem roundToDouble_neg (x : ℚ) :
    roundToDouble (-x) =
      match roundToDouble x with
      | posInf => negInf
      | negInf => posInf
      | finite r => finite (-r)
      | nan => nan := by
  have hp : (0 : ℚ) < (2 : ℚ) ^ 1024 := by norm_num
  unfold roundToDouble
  rw [roundToGrid_neg]
  by_cases h1 : (2 : ℚ) ^ 1024 ≤ roundToGrid x
  · rw [if_pos h1, if_neg (by linarith), if_pos (by linarith)]
  · by_cases h2 : roundToGrid x ≤ -(2 : ℚ) ^ 1024
    · rw [if_neg h1, if_pos h2, if_pos (by linarith)]
    · rw [if_neg h1, if_neg h2, if_neg (by linarith), if_neg (by linarith)]

end JsNumber

namespace Ieee

open JsNumber

theorem convertToAngle_7_0_80 : convertToAngle (finite 7) (finite 0) (finite 80) = finite 31 := by
  have e1 : roundToGrid 7 = 7 :=
    roundToGrid_eq_self 2 (7 * 2 ^ 50)
      (binade_eq_of_bounds (by norm_num) (by norm_num) (by norm_num)) (by norm_num)
  have e2 : roundToGrid 80 = 80 :=
    roundToGrid_eq_self 6 (80 * 2 ^ 46)
      (binade_eq_of_bounds (by norm_num) (by norm_num) (by norm_num)) (by norm_num)
  have e3 : roundToGrid (7 / 80) = 6305039478318694 * (2 : ℚ) ^ ((-4 : ℤ) - 52) :=
    roundToGrid_eval (-4) 6305039478318694 (by norm_num [abs_of_pos])
      (by norm_num [abs_of_pos]) (by norm_num) (by norm_num [roundHalfEven])
  have e4 : roundToGrid (6305039478318694 * (2 : ℚ) ^ ((-4 : ℤ) - 52) * 360) =
      8866461766385663 * (2 : ℚ) ^ ((4 : ℤ) - 52) :=
    roundToGrid_eval 4 8866461766385663 (by norm_num [abs_of_pos])
      (by norm_num [abs_of_pos]) (by norm_num) (by norm_num [roundHalfEven])
  have hs : strictEquals (finite (80 : ℚ)) (finite (0 : ℚ)) = false := by
    simp [strictEquals]
  unfold convertToAngle
  rw [hs]
  simp only [Bool.false_eq_true, if_false, JsNumber.sub, sub_zero]
  rw [roundToDouble_of_lt_threshold (by norm_num [overflowThreshold]), e1,
    roundToDouble_of_lt_threshold (by norm_num [overflowThreshold]), e2]
  simp only [JsNumber.div, if_neg (by norm_num : ¬ (80 : ℚ) = 0)]
  rw [roundToDouble_of_lt_threshold (by norm_num [overflowThreshold, abs_of_pos]), e3]
  rw [clamp_eq_saturate _ (by simp)]
  have hsat : saturate (finite (6305039478318694 * (2 : ℚ) ^ ((-4 : ℤ) - 52))) =
      6305039478318694 * (2 : ℚ) ^ ((-4 : ℤ) - 52) := by
    norm_num [saturate]
  rw [hsat]
  simp only [JsNumber.mul]
  rw [roundToDouble_of_lt_threshold (by norm_num [overflowThreshold, abs_of_pos]), e4]
  norm_num [JsNumber.mathRound]

end Ieee

namespace Ieee

open JsNumber

theorem two_pow_1023_sub_neg :
    JsNumber.sub (finite ((2 : ℚ) ^ 1023)) (finite (-(2 : ℚ) ^ 1023)) = posInf := by
  have e : (2 : ℚ) ^ 1023 - -(2 : ℚ) ^ 1023 = (2 : ℚ) ^ 1024 := by norm_num
  simp only [JsNumber.sub, e, roundToDouble_two_pow_1024]

theorem neg_two_pow_1023_sub :
    JsNumber.sub (finite (-(2 : ℚ) ^ 1023)) (finite ((2 : ℚ) ^ 1023)) = negInf := by
  have e : -(2 : ℚ) ^ 1023 - (2 : ℚ) ^ 1023 = -(2 : ℚ) ^ 1024 := by norm_num
  simp only [JsNumber.sub, e, roundToDouble_neg, roundToDouble_two_pow_1024]

theorem strictEquals_two_pow_1023 :
    strictEquals (finite ((2 : ℚ) ^ 1023)) (finite (-(2 : ℚ) ^ 1023)) = false ∧
      strictEquals (finite (-(2 : ℚ) ^ 1023)) (finite ((2 : ℚ) ^ 1023)) = false := by
  constructor <;>
    · simp only [strictEquals, decide_eq_false_iff_not, finite.injEq]
      norm_num

/-- C1, as stated, fails.  The integers `2 ^ 1023` and `-2 ^ 1023` are doubles;
with `lo = 2 ^ 1023`, `hi = -2 ^ 1023` and `v = -2 ^ 1023` both differences
`v - lo` and `hi - lo` overflow to `-Infinity`, their quotient is `NaN`, and
so is the result: not a number of `[0, 360]`. -/
theorem convertToAngle_range_counterexample :
    roundToDouble ((2 : ℚ) ^ 1023) = finite ((2 : ℚ) ^ 1023) ∧
      ((2 : ℤ) ^ 1023 ≠ -(2 : ℤ) ^ 1023) ∧
      convertToAngle (finite (((-(2 : ℤ) ^ 1023 : ℤ) : ℚ))) (finite (((2 : ℤ) ^ 1023 : ℤ) : ℚ))
        (finite (((-(2 : ℤ) ^ 1023 : ℤ) : ℚ))) = nan ∧
      JsNumber.le (finite 0) nan = false ∧ JsNumber.le nan (finite 360) = false := by
  have hpos : (0 : ℤ) < (2 : ℤ) ^ 1023 := by positivity
  refine ⟨roundToDouble_two_pow_1023, by omega, ?_, rfl, rfl⟩
  simp only [Int.cast_neg, Int.cast_pow, Int.cast_ofNat]
  unfold convertToAngle
  rw [strictEquals_two_pow_1023.2, neg_two_pow_1023_sub]
  rfl

/-- C1, amended.  For all integers `v`, `lo`, `hi` with `lo ≠ hi` whose
distance `|hi - lo|` is below `2 ^ 1024 - 2 ^ 970` (the difference `hi - lo`
does not overflow), `convertToAngle v lo hi` is an integer of `[0, 360]`, also
when `lo > hi`. -/
theorem convertToAngle_in_range (v lo hi : ℤ) (hne : lo ≠ hi)
    (hD : |((hi : ℚ) - (lo : ℚ))| < overflowThreshold) :
    ∃ a : ℤ, convertToAngle (finite v) (finite lo) (finite hi) = finite a ∧ 0 ≤ a ∧ a ≤ 360 := by
  exact ⟨_, convertToAngle_eq v lo hi hne hD,
    angleOf_bounds (saturate_nonneg _) (saturate_le_one _)⟩

theorem convertToAngle_in_range_witness :
    (80 : ℤ) ≠ 0 ∧ |(((0 : ℤ) : ℚ) - ((80 : ℤ) : ℚ))| < overflowThreshold ∧
      ∃ a : ℤ, convertToAngle (finite ((7 : ℤ) : ℚ)) (finite ((80 : ℤ) : ℚ))
        (finite ((0 : ℤ) : ℚ)) = finite a ∧ 0 ≤ a ∧ a ≤ 360 :=
  ⟨by decide, by norm_num [overflowThreshold],
    convertToAngle_in_range 7 80 0 (by decide) (by norm_num [overflowThreshold])⟩

/-- C2, as stated, fails.  With `lo = -2 ^ 1023` and `hi = 2 ^ 1023` the value
`v1 = 0` converts to `0` (the divisor `hi - lo` is `Infinity`) and
`v2 = 2 ^ 1023 ≥ v1` converts to `NaN`, and `0 <= NaN` is false. -/
theorem convertToAngle_mono_counterexample :
    (-(2 : ℤ) ^ 1023 < (2 : ℤ) ^ 1023) ∧ ((0 : ℤ) ≤ (2 : ℤ) ^ 1023) ∧
      convertToAngle (finite ((0 : ℤ) : ℚ)) (finite (((-(2 : ℤ) ^ 1023 : ℤ) : ℚ)))
        (finite ((((2 : ℤ) ^ 1023 : ℤ) : ℚ))) = finite 0 ∧
      convertToAngle (finite ((((2 : ℤ) ^ 1023 : ℤ) : ℚ))) (finite (((-(2 : ℤ) ^ 1023 : ℤ) : ℚ)))
        (finite ((((2 : ℤ) ^ 1023 : ℤ) : ℚ))) = nan ∧
      JsNumber.le (finite 0) nan = false := by
  have hpos : (0 : ℤ) < (2 : ℤ) ^ 1023 := by positivity
  refine ⟨by omega, by omega, ?_, ?_, rfl⟩
  · simp only [Int.cast_neg, Int.cast_pow, Int.cast_ofNat, Int.cast_zero]
    unfold convertToAngle
    rw [strictEquals_two_pow_1023.1, two_pow_1023_sub_neg]
    have e : JsNumber.sub (finite 0) (finite (-(2 : ℚ) ^ 1023)) = finite ((2 : ℚ) ^ 1023) := by
      have e1 : (0 : ℚ) - -(2 : ℚ) ^ 1023 = (2 : ℚ) ^ 1023 := by norm_num
      simp only [JsNumber.sub, e1, roundToDouble_two_pow_1023]
    rw [e]
    simp only [Bool.false_eq_true, if_false, JsNumber.div]
    rw [clamp_eq_saturate _ (by simp)]
    have hsat : saturate (finite 0) = 0 := by norm_num [saturate]
    rw [hsat, mathRound_mul_360 le_rfl (by norm_num), angleOf_zero]
    norm_num
  · simp only [Int.cast_neg, Int.cast_pow, Int.cast_ofNat, Int.cast_zero]
    unfold convertToAngle
    rw [strictEquals_two_pow_1023.1, two_pow_1023_sub_neg]
    rfl

/-- C2, amended.  For all integers `lo < hi` whose distance is below
`2 ^ 1024 - 2 ^ 970` and all integers `v1 ≤ v2`, both conversions are integers
and `convertToAngle v1 lo hi ≤ convertToAngle v2 lo hi`. -/
theorem convertToAngle_nondecreasing (v1 v2 lo hi : ℤ) (hlt : lo < hi)
    (hD : (hi : ℚ) - (lo : ℚ) < overflowThreshold) (h : v1 ≤ v2) :
    ∃ a1 a2 : ℤ, convertToAngle (finite v1) (finite lo) (finite hi) = finite a1 ∧
      convertToAngle (finite v2) (finite lo) (finite hi) = finite a2 ∧ a1 ≤ a2 := by
  have hpos : (0 : ℚ) < (hi : ℚ) - (lo : ℚ) := by
    have : (0 : ℤ) < hi - lo := by omega
    exact_mod_cast this
  have hD1 : |((hi : ℚ) - (lo : ℚ))| < overflowThreshold := by rwa [abs_of_pos hpos]
  obtain ⟨-, -, hd⟩ := sub_int_finite hlt.ne hD1
  have hd1 : (0 : ℚ) < roundToGrid ((hi : ℚ) - (lo : ℚ)) := lt_of_lt_of_le one_pos (hd hlt)
  refine ⟨_, _, convertToAngle_eq v1 lo hi hlt.ne hD1, convertToAngle_eq v2 lo hi hlt.ne hD1, ?_⟩
  · apply angleOf_mono
    apply saturate_mono
    apply div_mono _ hd1
    simp only [JsNumber.sub]
    apply roundToDouble_mono
    have : (v1 : ℚ) ≤ (v2 : ℚ) := by exact_mod_cast h
    linarith

theorem convertToAngle_nondecreasing_witness :
    (0 : ℤ) < 80 ∧ (((80 : ℤ) : ℚ) - ((0 : ℤ) : ℚ) < overflowThreshold) ∧ (7 : ℤ) ≤ 8 ∧
      ∃ a1 a2 : ℤ, convertToAngle (finite ((7 : ℤ) : ℚ)) (finite ((0 : ℤ) : ℚ))
          (finite ((80 : ℤ) : ℚ)) = finite a1 ∧
        convertToAngle (finite ((8 : ℤ) : ℚ)) (finite ((0 : ℤ) : ℚ))
          (finite ((80 : ℤ) : ℚ)) = finite a2 ∧ a1 ≤ a2 :=
  ⟨by decide, by norm_num [overflowThreshold], by decide,
    convertToAngle_nondecreasing 7 8 0 80 (by decide) (by norm_num [overflowThreshold])
      (by decide)⟩

/-- C3, as stated, fails.  With `lo = -2 ^ 1023` and `hi = 2 ^ 1023` the value
`v = hi` does not convert to `360`: `v - lo` and `hi - lo` are both
`Infinity` and the result is `NaN`. -/
theorem convertToAngle_saturates_counterexample :
    (-(2 : ℤ) ^ 1023 < (2 : ℤ) ^ 1023) ∧
      convertToAngle (finite ((((2 : ℤ) ^ 1023 : ℤ) : ℚ))) (finite (((-(2 : ℤ) ^ 1023 : ℤ) : ℚ)))
        (finite ((((2 : ℤ) ^ 1023 : ℤ) : ℚ))) ≠ finite 360 ∧
      strictEquals
        (convertToAngle (finite ((((2 : ℤ) ^ 1023 : ℤ) : ℚ)))
          (finite (((-(2 : ℤ) ^ 1023 : ℤ) : ℚ))) (finite ((((2 : ℤ) ^ 1023 : ℤ) : ℚ))))
        (finite 360) = false := by
  have e : convertToAngle (finite ((((2 : ℤ) ^ 1023 : ℤ) : ℚ)))
      (finite (((-(2 : ℤ) ^ 1023 : ℤ) : ℚ))) (finite ((((2 : ℤ) ^ 1023 : ℤ) : ℚ))) = nan := by
    simp only [Int.cast_neg, Int.cast_pow, Int.cast_ofNat]
    unfold convertToAngle
    rw [strictEquals_two_pow_1023.1, two_pow_1023_sub_neg]
    rfl
  have hpos : (0 : ℤ) < (2 : ℤ) ^ 1023 := by positivity
  rw [e]
  exact ⟨by omega, by simp, rfl⟩

/-- C3, amended.  For all integers `lo < hi` whose distance is below
`2 ^ 1024 - 2 ^ 970`: every integer `v ≤ lo` converts to `0` and every integer
`v ≥ hi` converts to `360`. -/
theorem convertToAngle_saturation (v lo hi : ℤ) (hlt : lo < hi)
    (hD : (hi : ℚ) - (lo : ℚ) < overflowThreshold) :
    (v ≤ lo → convertToAngle (finite v) (finite lo) (finite hi) = finite 0) ∧
      (hi ≤ v → convertToAngle (finite v) (finite lo) (finite hi) = finite 360) := by
  have hpos : (0 : ℚ) < (hi : ℚ) - (lo : ℚ) := by
    have : (0 : ℤ) < hi - lo := by omega
    exact_mod_cast this
  have hD1 : |((hi : ℚ) - (lo : ℚ))| < overflowThreshold := by rwa [abs_of_pos hpos]
  obtain ⟨hsub, hne0, hd⟩ := sub_int_finite hlt.ne hD1
  have hd1 : (0 : ℚ) < roundToGrid ((hi : ℚ) - (lo : ℚ)) := lt_of_lt_of_le one_pos (hd hlt)
  constructor
  · intro h
    rw [convertToAngle_eq v lo hi hlt.ne hD1]
    have h1 : JsNumber.le (JsNumber.sub (finite v) (finite lo)) (finite 0) = true := by
      have := roundToDouble_mono (show (v : ℚ) - (lo : ℚ) ≤ 0 by
        have : (v : ℚ) ≤ (lo : ℚ) := by exact_mod_cast h
        linarith)
      have e0 : roundToDouble 0 = finite 0 := by
        rw [roundToDouble_of_lt_threshold (by norm_num [overflowThreshold]), roundToGrid_zero]
      rwa [e0] at this
    have h2 := saturate_mono (div_mono h1 hd1)
    have e0 : JsNumber.div (finite 0) (finite (roundToGrid ((hi : ℚ) - (lo : ℚ)))) =
        finite 0 := by
      simp only [JsNumber.div, if_neg hne0, zero_div]
      rw [roundToDouble_of_lt_threshold (by norm_num [overflowThreshold]), roundToGrid_zero]
    rw [e0] at h2
    have h3 : saturate (finite 0) = 0 := by norm_num [saturate]
    rw [h3] at h2
    rw [le_antisymm h2 (saturate_nonneg _), angleOf_zero]
    norm_num
  · intro h
    rw [convertToAngle_eq v lo hi hlt.ne hD1]
    have h1 : JsNumber.le (finite (roundToGrid ((hi : ℚ) - (lo : ℚ))))
        (JsNumber.sub (finite v) (finite lo)) = true := by
      have := roundToDouble_mono (show (hi : ℚ) - (lo : ℚ) ≤ (v : ℚ) - (lo : ℚ) by
        have : (hi : ℚ) ≤ (v : ℚ) := by exact_mod_cast h
        linarith)
      rwa [roundToDouble_of_lt_threshold hD1] at this
    have h2 := saturate_mono (div_mono h1 hd1)
    have e1 : JsNumber.div (finite (roundToGrid ((hi : ℚ) - (lo : ℚ))))
        (finite (roundToGrid ((hi : ℚ) - (lo : ℚ)))) = finite 1 := by
      simp only [JsNumber.div, if_neg hne0, div_self hne0]
      rw [roundToDouble_of_lt_threshold (by norm_num [overflowThreshold]), roundToGrid_one]
    rw [e1] at h2
    have h3 : saturate (finite 1) = 1 := by norm_num [saturate]
    rw [h3] at h2
    rw [le_antisymm (saturate_le_one _) h2, angleOf_one]
    norm_num

theorem convertToAngle_saturation_witness :
    (0 : ℤ) < 1023 ∧ (((1023 : ℤ) : ℚ) - ((0 : ℤ) : ℚ) < overflowThreshold) ∧ (-5 : ℤ) ≤ 0 ∧
      convertToAngle (finite ((-5 : ℤ) : ℚ)) (finite ((0 : ℤ) : ℚ)) (finite ((1023 : ℤ) : ℚ)) =
        finite 0 :=
  ⟨by decide, by norm_num [overflowThreshold], by decide,
    (convertToAngle_saturation (-5) 0 1023 (by decide) (by norm_num [overflowThreshold])).1
      (by decide)⟩

end Ieee

/-! ## The order of Numbers -/

namespace JsNumber

theorem le_of_lt_true {a b : JsNumber} (h : lt a b = true) : le a b = true := by
  cases a <;> cases b <;> simp [lt, le] at h ⊢
  exact h.le

theorem le_of_lt_false {a b : JsNumber} (ha : a ≠ nan) (hb : b ≠ nan) (h : lt a b = false) :
    le b a = true := by
  cases a <;> cases b <;> simp [lt, le] at h ha hb ⊢
  exact h

theorem le_chain {a b c : JsNumber} (h1 : le a b = true) (h2 : le b c = true) :
    le a c = true := by
  cases a <;> cases b <;> cases c <;> simp [le] at h1 h2 ⊢
  exact h1.trans h2

theorem eq_of_le_le {a b : JsNumber} (h1 : le a b = true) (h2 : le b a = true) : a = b := by
  cases a <;> cases b <;> simp [le] at h1 h2 ⊢
  exact h1.antisymm h2

theorem lt_of_le_ne {a b : JsNumber} (h1 : le a b = true) (h2 : a ≠ b) : lt a b = true := by
  cases a <;> cases b <;> simp [le, lt] at h1 h2 ⊢
  exact h1.lt_of_ne h2

theorem strictEquals_eq_decide {a b : JsNumber} (ha : a ≠ nan) (hb : b ≠ nan) :
    strictEquals a b = decide (a = b) := by
  cases a <;> cases b <;> simp [strictEquals] at ha hb ⊢

theorem isNaN_eq_false {a : JsNumber} (h : a ≠ nan) : isNaN a = false := by
  cases a <;> simp [isNaN] at h ⊢

theorem isNaN_eq_true_iff {a : JsNumber} : isNaN a = true ↔ a = nan := by
  cases a <;> simp [isNaN]

end JsNumber

/-! ## Calibration on Numbers -/

namespace Ieee

theorem mathMinFrom_nan (values : List JsNumber) (h : .nan ∈ values) :
    ∀ lowest, mathMinFrom lowest values = .nan := by
  induction values with
  | nil => simp at h
  | cons v rest ih =>
    intro lowest
    rcases List.mem_cons.mp h with h1 | h1
    · subst h1
      rfl
    · unfold mathMinFrom
      split_ifs
      · rfl
      · exact ih h1 _
      · exact ih h1 _

theorem mathMaxFrom_nan (values : List JsNumber) (h : .nan ∈ values) :
    ∀ highest, mathMaxFrom highest values = .nan := by
  induction values with
  | nil => simp at h
  | cons v rest ih =>
    intro highest
    rcases List.mem_cons.mp h with h1 | h1
    · subst h1
      rfl
    · unfold mathMaxFrom
      split_ifs
      · rfl
      · exact ih h1 _
      · exact ih h1 _

theorem mathMinFrom_spec (values : List JsNumber) (hv : ∀ v ∈ values, v ≠ .nan) :
    ∀ lowest, lowest ≠ .nan →
      mathMinFrom lowest values ≠ .nan ∧
        (mathMinFrom lowest values = lowest ∨ mathMinFrom lowest values ∈ values) ∧
        JsNumber.le (mathMinFrom lowest values) lowest = true ∧
        ∀ v ∈ values, JsNumber.le (mathMinFrom lowest values) v = true := by
  induction values with
  | nil =>
    intro lowest hl
    exact ⟨hl, Or.inl rfl, JsNumber.le_refl_of_ne_nan hl, by simp⟩
  | cons x rest ih =>
    intro lowest hl
    have hx : x ≠ .nan := hv x (List.mem_cons_self _ _)
    have hrest : ∀ v ∈ rest, v ≠ .nan := fun v h => hv v (List.mem_cons_of_mem _ h)
    unfold mathMinFrom
    rw [JsNumber.isNaN_eq_false hx]
    simp only [Bool.false_eq_true, if_false]
    by_cases hlt : x.lt lowest = true
    · rw [if_pos hlt]
      obtain ⟨a, b, c, d⟩ := ih hrest x hx
      refine ⟨a, ?_, JsNumber.le_chain c (JsNumber.le_of_lt_true hlt), ?_⟩
      · rcases b with b | b
        · exact Or.inr (by rw [b]; exact List.mem_cons_self _ _)
        · exact Or.inr (List.mem_cons_of_mem _ b)
      · intro v hvm
        rcases List.mem_cons.mp hvm with rfl | h1
        · exact c
        · exact d v h1
    · rw [if_neg hlt]
      obtain ⟨a, b, c, d⟩ := ih hrest lowest hl
      refine ⟨a, ?_, c, ?_⟩
      · rcases b with b | b
        · exact Or.inl b
        · exact Or.inr (List.mem_cons_of_mem _ b)
      · intro v hvm
        rcases List.mem_cons.mp hvm with rfl | h1
        · exact JsNumber.le_chain c
            (JsNumber.le_of_lt_false hx hl (by simpa using hlt))
        · exact d v h1

theorem mathMaxFrom_spec (values : List JsNumber) (hv : ∀ v ∈ values, v ≠ .nan) :
    ∀ highest, highest ≠ .nan →
      mathMaxFrom highest values ≠ .nan ∧
        (mathMaxFrom highest values = highest ∨ mathMaxFrom highest values ∈ values) ∧
        JsNumber.le highest (mathMaxFrom highest values) = true ∧
        ∀ v ∈ values, JsNumber.le v (mathMaxFrom highest values) = true := by
  induction values with
  | nil =>
    intro highest hl
    exact ⟨hl, Or.inl rfl, JsNumber.le_refl_of_ne_nan hl, by simp⟩
  | cons x rest ih =>
    intro highest hl
    have hx : x ≠ .nan := hv x (List.mem_cons_self _ _)
    have hrest : ∀ v ∈ rest, v ≠ .nan := fun v h => hv v (List.mem_cons_of_mem _ h)
    unfold mathMaxFrom
    rw [JsNumber.isNaN_eq_false hx]
    simp only [Bool.false_eq_true, if_false]
    by_cases hlt : highest.lt x = true
    · rw [if_pos hlt]
      obtain ⟨a, b, c, d⟩ := ih hrest x hx
      refine ⟨a, ?_, JsNumber.le_chain (JsNumber.le_of_lt_true hlt) c, ?_⟩
      · rcases b with b | b
        · exact Or.inr (by rw [b]; exact List.mem_cons_self _ _)
        · exact Or.inr (List.mem_cons_of_mem _ b)
      · intro v hvm
        rcases List.mem_cons.mp hvm with rfl | h1
        · exact c
        · exact d v h1
    · rw [if_neg hlt]
      obtain ⟨a, b, c, d⟩ := ih hrest highest hl
      refine ⟨a, ?_, c, ?_⟩
      · rcases b with b | b
        · exact Or.inl b
        · exact Or.inr (List.mem_cons_of_mem _ b)
      · intro v hvm
        rcases List.mem_cons.mp hvm with rfl | h1
        · exact JsNumber.le_chain
            (JsNumber.le_of_lt_false hl hx (by simpa using hlt)) c
        · exact d v h1

/-- On arguments without `NaN`, at least one, `Math.min` is the least of them. -/
theorem mathMin_least (values : List JsNumber) (hne : values ≠ [])
    (hv : ∀ v ∈ values, v ≠ .nan) :
    mathMin values ≠ .nan ∧ mathMin values ∈ values ∧
      ∀ v ∈ values, JsNumber.le (mathMin values) v = true := by
  obtain ⟨a, b, -, d⟩ := mathMinFrom_spec values hv .posInf (by simp)
  refine ⟨a, ?_, d⟩
  rcases b with b | b
  · obtain ⟨x, rest, rfl⟩ := List.exists_cons_of_ne_nil hne
    have hx := d x (List.mem_cons_self _ _)
    have hxn := hv x (List.mem_cons_self _ _)
    unfold mathMin
    rw [b] at hx ⊢
    have : x = .posInf := by
      cases x <;> simp [JsNumber.le] at hx hxn ⊢
    rw [← this]
    exact List.mem_cons_self _ _
  · exact b

/-- On arguments without `NaN`, at least one, `Math.max` is the greatest of
them. -/
theorem mathMax_greatest (values : List JsNumber) (hne : values ≠ [])
    (hv : ∀ v ∈ values, v ≠ .nan) :
    mathMax values ≠ .nan ∧ mathMax values ∈ values ∧
      ∀ v ∈ values, JsNumber.le v (mathMax values) = true := by
  obtain ⟨a, b, -, d⟩ := mathMaxFrom_spec values hv .negInf (by simp)
  refine ⟨a, ?_, d⟩
  rcases b with b | b
  · obtain ⟨x, rest, rfl⟩ := List.exists_cons_of_ne_nil hne
    have hx := d x (List.mem_cons_self _ _)
    have hxn := hv x (List.mem_cons_self _ _)
    unfold mathMax
    rw [b] at hx ⊢
    have : x = .negInf := by
      cases x <;> simp [JsNumber.le] at hx hxn ⊢
    rw [← this]
    exact List.mem_cons_self _ _
  · exact b

theorem values_ne_nil {history : List Reading} (h : ¬ history.length < 10) :
    history.map (fun h => h.value) ≠ [] := by
  intro e
  have := congrArg List.length e
  simp only [List.length_map, List.length_nil] at this
  omega

theorem values_numeric {history : List Reading} (h : Numeric history) :
    ∀ v ∈ history.map (fun h => h.value), v ≠ .nan := by
  intro v hv
  obtain ⟨r, hr, rfl⟩ := List.mem_map.mp hv
  exact h r hr

/-- What `calibrateRange` does on a history of at least 10 readings, none of
them `NaN`. -/
theorem calibrateRange_numeric (s : AppState) (h10 : ¬ s.history.length < 10)
    (hnum : Numeric s.history) :
    ∃ lo hi : JsNumber, lo ≠ .nan ∧ hi ≠ .nan ∧
      (∃ r ∈ s.history, r.value = lo) ∧ (∃ r ∈ s.history, r.value = hi) ∧
      (∀ r ∈ s.history, JsNumber.le lo r.value = true ∧ JsNumber.le r.value hi = true) ∧
      calibrateRange s =
        if lo = hi then { s with toasts := s.toasts ++ [calibrationErrorToast] }
        else
          { s with
            minValue := lo
            maxValue := hi
            toasts := s.toasts ++ [calibrationCompleteToast lo hi] } := by
  have hne := values_ne_nil h10
  have hv := values_numeric hnum
  obtain ⟨a1, a2, a3⟩ := mathMin_least _ hne hv
  obtain ⟨b1, b2, b3⟩ := mathMax_greatest _ hne hv
  refine ⟨_, _, a1, b1, ?_, ?_, ?_, ?_⟩
  · obtain ⟨r, hr, e⟩ := List.mem_map.mp a2
    exact ⟨r, hr, e⟩
  · obtain ⟨r, hr, e⟩ := List.mem_map.mp b2
    exact ⟨r, hr, e⟩
  · intro r hr
    exact ⟨a3 _ (List.mem_map.mpr ⟨r, hr, rfl⟩), b3 _ (List.mem_map.mpr ⟨r, hr, rfl⟩)⟩
  · unfold calibrateRange
    rw [if_neg h10]
    simp only [JsNumber.strictEquals_eq_decide a1 b1, decide_eq_true_eq]

end Ieee

namespace Ieee

theorem sub_nan_left (b : JsNumber) : JsNumber.sub .nan b = .nan := by
  cases b <;> rfl

theorem div_nan_left (b : JsNumber) : JsNumber.div .nan b = .nan := by
  cases b <;> rfl

theorem clamp_nan :
    JsNumber.mathMax2 (.finite 0) (JsNumber.mathMin2 (.finite 1) .nan) = .nan := rfl

theorem mul_nan_left (b : JsNumber) : JsNumber.mul .nan b = .nan := by
  cases b <;> rfl

theorem convertToAngle_nan (currentMin currentMax : JsNumber) :
    convertToAngle .nan currentMin currentMax =
      if currentMax.strictEquals currentMin then .finite 0 else .nan := by
  unfold convertToAngle
  split_ifs
  · rfl
  · simp only [sub_nan_left, div_nan_left, clamp_nan, mul_nan_left]
    rfl

/-- The src draft stores the line `.5` as a reading whose value is `NaN`:
`isNaN(".5")` is false and `parseInt(".5", 10)` is `NaN`. -/
theorem processIncomingData_half (minValue maxValue : JsNumber) (s : AppState) (now : ℕ) :
    processIncomingData minValue maxValue s ".5" now =
      { s with
        potValue := .nan
        angle := convertToAngle .nan minValue maxValue
        history := appendHistory s.history ⟨.nan, convertToAngle .nan minValue maxValue, now⟩ } := by
  have ht : jsTrim ".5".data = ".5".data := by decide
  have hn : RightAngle.isNaN ".5".data = false := by decide
  have hp : parseInt ".5".data = .nan := by
    have : RightAngle.parseInt ".5".data = none := by decide
    simp only [parseInt, this]
  unfold processIncomingData
  simp only [ht, hn, hp, ne_eq, not_false_eq_true, and_self, if_true]
  have hc : (!(JsNumber.nan.ge minValue && JsNumber.nan.le maxValue) &&
      (JsNumber.nan.ge (.finite 0) && JsNumber.nan.le (.finite 1023))) = false := by
    simp [JsNumber.le]
  simp only [hc, Bool.false_eq_true, if_false]
  rfl

/-- The lib draft drops the line `.5`. -/
theorem libDraft_processIncomingData_half (minValue maxValue : JsNumber) (s : AppState)
    (now : ℕ) : LibDraft.processIncomingData minValue maxValue s ".5" now = s := by
  have ht : jsTrim ".5".data = ".5".data := by decide
  have hn : RightAngle.isNaN ".5".data = false := by decide
  have hp : parseInt ".5".data = .nan := by
    have : RightAngle.parseInt ".5".data = none := by decide
    simp only [parseInt, this]
  unfold LibDraft.processIncomingData
  simp only [ht, hn, hp, ne_eq, not_false_eq_true, and_self, if_true]
  have h1 : (JsNumber.nan.ge minValue && JsNumber.nan.le maxValue) = false := by
    simp [JsNumber.le]
  have h2 : (JsNumber.nan.ge (.finite 0) && JsNumber.nan.le (.finite 1023)) = false := by
    simp [JsNumber.le]
  simp only [h1, h2, Bool.false_eq_true, if_false, ite_self]

theorem strictEquals_1023_0 :
    JsNumber.strictEquals (.finite 1023) (.finite 0) = false := by
  simp [JsNumber.strictEquals]

/-- Ten lines `.5` on a fresh page of the src draft give `nanState`. -/
theorem nanState_reachable :
    (List.range 10).foldl
        (fun s i => processIncomingData (.finite 0) (.finite 1023) s ".5" i) AppState.initial =
      nanState := by
  have hc : convertToAngle .nan (.finite 0) (.finite 1023) = .nan := by
    rw [convertToAngle_nan, strictEquals_1023_0]
    rfl
  simp only [List.range, List.range.loop, List.foldl, processIncomingData_half, hc]
  rfl

theorem calibrateRange_of_nan (s : AppState) (h10 : ¬ s.history.length < 10)
    (h : ∃ r ∈ s.history, r.value = .nan) :
    calibrateRange s =
      { s with
        minValue := .nan
        maxValue := .nan
        toasts := s.toasts ++ [calibrationCompleteToast .nan .nan] } := by
  have hm : JsNumber.nan ∈ s.history.map (fun h => h.value) := by
    obtain ⟨r, hr, e⟩ := h
    exact List.mem_map.mpr ⟨r, hr, e⟩
  unfold calibrateRange
  rw [if_neg h10]
  simp only [mathMin, mathMax, mathMinFrom_nan _ hm, mathMaxFrom_nan _ hm]
  rfl

/-- C6, as stated, fails.  The history of `mixedState` has 10 entries whose
values are not all equal; one value is `NaN` (the src draft stores it for a
line such as `.5`).  `Math.min` and `Math.max` are then `NaN`, the test
`newMin === newMax` is false, and `calibrateRange` reports completion with the
range `NaN..NaN`, which is neither the least nor the greatest value. -/
theorem calibrateRange_extremes_counterexample :
    10 ≤ mixedState.history.length ∧
      (∃ a ∈ mixedState.history, ∃ b ∈ mixedState.history, a.value ≠ b.value) ∧
      calibrateRange mixedState =
        { mixedState with
          minValue := .nan
          maxValue := .nan
          toasts := [calibrationCompleteToast .nan .nan] } ∧
      JsNumber.le .nan (.finite 3) = false ∧ JsNumber.le (.finite 50) .nan = false := by
  refine ⟨by decide, ⟨⟨.finite 3, .finite 1, 1⟩, by simp [mixedState],
    ⟨.finite 50, .finite 18, 4⟩, by simp [mixedState], by simp⟩, ?_, rfl, rfl⟩
  rw [calibrateRange_of_nan mixedState (by decide) ⟨⟨.nan, .nan, 0⟩, by simp [mixedState], rfl⟩]
  rfl

/-- C6, amended.  For every history with at least 10 entries, none of them
`NaN`, whose values are not all equal, `calibrateRange` succeeds: it sets
`minValue` to the least and `maxValue` to the greatest value of the history
and reports completion. -/
theorem calibrateRange_sets_least_and_greatest (s : AppState) (h10 : 10 ≤ s.history.length)
    (hnum : Numeric s.history)
    (hvar : ∃ a ∈ s.history, ∃ b ∈ s.history, a.value ≠ b.value) :
    ∃ lo hi : JsNumber,
      (∃ r ∈ s.history, r.value = lo) ∧ (∃ r ∈ s.history, r.value = hi) ∧
      (∀ r ∈ s.history, JsNumber.le lo r.value = true ∧ JsNumber.le r.value hi = true) ∧
      calibrateRange s =
        { s with
          minValue := lo
          maxValue := hi
          toasts := s.toasts ++ [calibrationCompleteToast lo hi] } := by
  obtain ⟨lo, hi, -, -, h1, h2, h3, h4⟩ := calibrateRange_numeric s (by omega) hnum
  refine ⟨lo, hi, h1, h2, h3, ?_⟩
  have hne : lo ≠ hi := by
    rintro rfl
    obtain ⟨a, ha, b, hb, hab⟩ := hvar
    have ea := JsNumber.eq_of_le_le (h3 a ha).1 (h3 a ha).2
    have eb := JsNumber.eq_of_le_le (h3 b hb).1 (h3 b hb).2
    exact hab (ea.symm.trans eb)
  rw [h4, if_neg hne]

theorem calibrateRange_sets_least_and_greatest_witness :
    10 ≤ variedState.history.length ∧ Numeric variedState.history ∧
      ∃ lo hi : JsNumber,
        (∃ r ∈ variedState.history, r.value = lo) ∧ (∃ r ∈ variedState.history, r.value = hi) ∧
        (∀ r ∈ variedState.history,
          JsNumber.le lo r.value = true ∧ JsNumber.le r.value hi = true) ∧
        calibrateRange variedState =
          { variedState with
            minValue := lo
            maxValue := hi
            toasts := variedState.toasts ++ [calibrationCompleteToast lo hi] } :=
  ⟨by decide, by simp [Numeric, variedState],
    calibrateRange_sets_least_and_greatest variedState (by decide)
      (by simp [Numeric, variedState])
      ⟨⟨.finite 3, .finite 1, 0⟩, by simp [variedState], ⟨.finite 50, .finite 18, 4⟩,
        by simp [variedState], by simp⟩⟩

/-- C8, as stated, fails.  The ten readings of `nanState` (ten lines `.5` in
the src draft) have identical values, all `NaN`; `NaN === NaN` is false, and
`calibrateRange` reports completion and sets the range to `NaN..NaN` instead
of failing with the Calibration Error. -/
theorem calibrateRange_degenerate_counterexample :
    10 ≤ nanState.history.length ∧ (∀ r ∈ nanState.history, r.value = .nan) ∧
      calibrateRange nanState =
        { nanState with
          minValue := .nan
          maxValue := .nan
          toasts := [calibrationCompleteToast .nan .nan] } ∧
      (calibrateRange nanState).minValue ≠ nanState.minValue := by
  have e := calibrateRange_of_nan nanState (by decide) ⟨⟨.nan, .nan, 0⟩, by decide, rfl⟩
  refine ⟨by decide, by decide, ?_, ?_⟩
  · rw [e]
    rfl
  · rw [e]
    simp [nanState, AppState.initial]

/-- C8, amended.  For every history with at least 10 entries whose values are
all the same number (not `NaN`), `calibrateRange` fails with the Calibration
Error notification and changes nothing else: the range stays as it was. -/
theorem calibrateRange_identical_values (s : AppState) (h10 : 10 ≤ s.history.length)
    (c : JsNumber) (hc : c ≠ .nan) (hall : ∀ r ∈ s.history, r.value = c) :
    calibrateRange s = { s with toasts := s.toasts ++ [calibrationErrorToast] } ∧
      (calibrateRange s).minValue = s.minValue ∧ (calibrateRange s).maxValue = s.maxValue ∧
      (calibrateRange s).history = s.history := by
  have hnum : Numeric s.history := fun r hr => by rw [hall r hr]; exact hc
  obtain ⟨lo, hi, -, -, ⟨r1, hr1, e1⟩, ⟨r2, hr2, e2⟩, -, h4⟩ :=
    calibrateRange_numeric s (by omega) hnum
  have hlohi : lo = hi := by rw [← e1, ← e2, hall r1 hr1, hall r2 hr2]
  rw [h4, if_pos hlohi]
  exact ⟨rfl, rfl, rfl, rfl⟩

theorem calibrateRange_identical_values_witness :
    10 ≤ constantState.history.length ∧ (JsNumber.finite 10 ≠ .nan) ∧
      (∀ r ∈ constantState.history, r.value = .finite 10) ∧
      calibrateRange constantState =
        { constantState with toasts := constantState.toasts ++ [calibrationErrorToast] } :=
  ⟨by decide, by simp, by simp [constantState],
    (calibrateRange_identical_values constantState (by decide) (.finite 10) (by simp)
      (by simp [constantState])).1⟩

end Ieee

namespace Ieee

theorem roundToGrid_unit {x : ℚ} (h0 : 0 ≤ x) (h1 : x ≤ 1) :
    0 ≤ JsNumber.roundToGrid x ∧ JsNumber.roundToGrid x ≤ 1 := by
  constructor
  · exact JsNumber.roundToGrid_nonneg h0
  · have := JsNumber.roundToGrid_mono h1
    rwa [JsNumber.roundToGrid_one] at this

theorem clamp_of_unit {c : ℚ} (h0 : 0 ≤ c) (h1 : c ≤ 1) :
    JsNumber.mathMax2 (.finite 0) (JsNumber.mathMin2 (.finite 1) (.finite c)) = .finite c := by
  rw [JsNumber.clamp_eq_saturate _ (by simp)]
  simp only [JsNumber.saturate, min_eq_right h1, max_eq_right h0]

/-- Inside a range that does not overflow the clamp of `convertToAngle` changes
nothing. -/
theorem convertToAngle_inside_range (v lo hi : ℚ) (h1 : lo ≤ v) (h2 : v ≤ hi) (hne : lo ≠ hi)
    (hD : |hi - lo| < JsNumber.overflowThreshold) :
    convertToAngle (.finite v) (.finite lo) (.finite hi) =
      JsNumber.mathRound
        (JsNumber.mul
          (JsNumber.div (JsNumber.sub (.finite v) (.finite lo))
            (JsNumber.sub (.finite hi) (.finite lo)))
          (.finite 360)) := by
  have hs : JsNumber.strictEquals (.finite hi) (.finite lo) = false := by
    simp only [JsNumber.strictEquals, decide_eq_false_iff_not, JsNumber.finite.injEq]
    exact fun e => hne e.symm
  have hpos : 0 ≤ hi - lo := by linarith
  have hV : |v - lo| < JsNumber.overflowThreshold := by
    rw [abs_of_nonneg (by linarith)]
    rw [abs_of_nonneg hpos] at hD
    linarith
  have ea : JsNumber.sub (.finite v) (.finite lo) = .finite (JsNumber.roundToGrid (v - lo)) :=
    JsNumber.roundToDouble_of_lt_threshold hV
  have ed : JsNumber.sub (.finite hi) (.finite lo) = .finite (JsNumber.roundToGrid (hi - lo)) :=
    JsNumber.roundToDouble_of_lt_threshold hD
  have ha0 : 0 ≤ JsNumber.roundToGrid (v - lo) := JsNumber.roundToGrid_nonneg (by linarith)
  have had : JsNumber.roundToGrid (v - lo) ≤ JsNumber.roundToGrid (hi - lo) :=
    JsNumber.roundToGrid_mono (by linarith)
  unfold convertToAngle
  rw [hs, ea, ed]
  simp only [Bool.false_eq_true, if_false]
  by_cases hd0 : JsNumber.roundToGrid (hi - lo) = 0
  · have ha : JsNumber.roundToGrid (v - lo) = 0 := le_antisymm (hd0 ▸ had) ha0
    rw [hd0, ha]
    simp [JsNumber.div, JsNumber.mathMin2, JsNumber.mathMax2]
  · have hdpos : 0 < JsNumber.roundToGrid (hi - lo) :=
      lt_of_le_of_ne (ha0.trans had) (Ne.symm hd0)
    have hq0 : 0 ≤ JsNumber.roundToGrid (v - lo) / JsNumber.roundToGrid (hi - lo) :=
      div_nonneg ha0 hdpos.le
    have hq1 : JsNumber.roundToGrid (v - lo) / JsNumber.roundToGrid (hi - lo) ≤ 1 :=
      (div_le_one hdpos).mpr had
    have hT : |JsNumber.roundToGrid (v - lo) / JsNumber.roundToGrid (hi - lo)| <
        JsNumber.overflowThreshold := by
      rw [abs_of_nonneg hq0]
      refine lt_of_le_of_lt hq1 ?_
      norm_num [JsNumber.overflowThreshold]
    obtain ⟨c0, c1⟩ := roundToGrid_unit hq0 hq1
    simp only [JsNumber.div, if_neg hd0]
    rw [JsNumber.roundToDouble_of_lt_threshold hT, clamp_of_unit c0 c1]

theorem le_nan_left (b : JsNumber) : JsNumber.le .nan b = false := by
  cases b <;> rfl

theorem toast_ne_complete (t : Toast) (ht : t.title ≠ "Calibration Complete! ✨")
    (toasts : List Toast) (lo hi : JsNumber) :
    toasts ++ [t] ≠ toasts ++ [calibrationCompleteToast lo hi] := by
  intro e
  have e1 := List.append_cancel_left e
  simp only [List.cons.injEq, and_true] at e1
  exact ht (by rw [e1]; rfl)

/-- C27, as stated, fails.  After ten lines `.5` on a fresh page of the src
draft, `calibrateRange` succeeds (it reports completion) with
`newMin = newMax = NaN`: `newMin < newMax` is false and no reading `v` of the
history satisfies `newMin <= v`. -/
theorem calibrateRange_success_counterexample :
    (∃ lo hi : JsNumber,
        (calibrateRange nanState).toasts = nanState.toasts ++ [calibrationCompleteToast lo hi]) ∧
      JsNumber.lt (calibrateRange nanState).minValue (calibrateRange nanState).maxValue = false ∧
      (∀ r ∈ nanState.history,
        JsNumber.le (calibrateRange nanState).minValue r.value = false) ∧
      (List.range 10).foldl
          (fun s i => processIncomingData (.finite 0) (.finite 1023) s ".5" i)
          AppState.initial = nanState := by
  have e := calibrateRange_of_nan nanState (by decide) ⟨⟨.nan, .nan, 0⟩, by decide, rfl⟩
  rw [e]
  exact ⟨⟨.nan, .nan, rfl⟩, rfl, fun r _ => le_nan_left _, nanState_reachable⟩

/-- C27, amended.  Whenever `calibrateRange` succeeds (it reports completion)
on a history without `NaN` readings, the new range has `minValue < maxValue`,
both bounds are values of readings of the history, and every reading has its
value between them; when the bounds are finite and their distance is below
`2 ^ 1024 - 2 ^ 970`, the conversion of every recorded finite reading under
the new range is the rounding of the unclamped quotient. -/
theorem calibrateRange_success_range (s : AppState) (hnum : Numeric s.history)
    (h : ∃ lo hi : JsNumber,
      (calibrateRange s).toasts = s.toasts ++ [calibrationCompleteToast lo hi]) :
    JsNumber.lt (calibrateRange s).minValue (calibrateRange s).maxValue = true ∧
      (∃ r ∈ s.history, r.value = (calibrateRange s).minValue) ∧
      (∃ r ∈ s.history, r.value = (calibrateRange s).maxValue) ∧
      (∀ r ∈ s.history,
        JsNumber.le (calibrateRange s).minValue r.value = true ∧
          JsNumber.le r.value (calibrateRange s).maxValue = true) ∧
      ∀ r ∈ s.history, ∀ v lo hi : ℚ, r.value = .finite v →
        (calibrateRange s).minValue = .finite lo → (calibrateRange s).maxValue = .finite hi →
        |hi - lo| < JsNumber.overflowThreshold →
        convertToAngle r.value (calibrateRange s).minValue (calibrateRange s).maxValue =
          JsNumber.mathRound
            (JsNumber.mul
              (JsNumber.div (JsNumber.sub r.value (calibrateRange s).minValue)
                (JsNumber.sub (calibrateRange s).maxValue (calibrateRange s).minValue))
              (.finite 360)) := by
  obtain ⟨lo0, hi0, h⟩ := h
  have h10 : ¬ s.history.length < 10 := by
    intro hlt
    have e : calibrateRange s = { s with toasts := s.toasts ++ [insufficientDataToast] } := by
      unfold calibrateRange
      rw [if_pos hlt]
    rw [e] at h
    exact toast_ne_complete insufficientDataToast (by decide) _ _ _ h
  obtain ⟨lo, hi, -, -, h1, h2, h3, h4⟩ := calibrateRange_numeric s h10 hnum
  have hne : lo ≠ hi := by
    intro e
    rw [h4, if_pos e] at h
    exact toast_ne_complete calibrationErrorToast (by decide) _ _ _ h
  have emin : (calibrateRange s).minValue = lo := by rw [h4, if_neg hne]
  have emax : (calibrateRange s).maxValue = hi := by rw [h4, if_neg hne]
  rw [emin, emax]
  have hle : JsNumber.le lo hi = true := by
    obtain ⟨r, hr, e⟩ := h1
    have := (h3 r hr).2
    rwa [e] at this
  refine ⟨JsNumber.lt_of_le_ne hle hne, h1, h2, h3, ?_⟩
  intro r hr v lo1 hi1 ev elo ehi hD
  have hb := h3 r hr
  rw [ev, elo, ehi] at hb
  have b1 : lo1 ≤ v := by simpa [JsNumber.le] using hb.1
  have b2 : v ≤ hi1 := by simpa [JsNumber.le] using hb.2
  have hne1 : lo1 ≠ hi1 := by
    intro e
    exact hne (by rw [elo, ehi, e])
  rw [ev, elo, ehi]
  exact convertToAngle_inside_range v lo1 hi1 b1 b2 hne1 hD

theorem calibrateRange_success_range_witness :
    Numeric variedState.history ∧
      (∃ lo hi : JsNumber,
        (calibrateRange variedState).toasts =
          variedState.toasts ++ [calibrationCompleteToast lo hi]) ∧
      JsNumber.lt (calibrateRange variedState).minValue (calibrateRange variedState).maxValue =
        true :=
  have hex : ∃ lo hi : JsNumber,
      (calibrateRange variedState).toasts =
        variedState.toasts ++ [calibrationCompleteToast lo hi] := by
    exact ⟨.finite 3, .finite 50, by decide⟩
  ⟨by simp [Numeric, variedState], hex,
    (calibrateRange_success_range variedState (by simp [Numeric, variedState]) hex).1⟩

end Ieee

namespace Ieee

theorem convertToAngle_50_of_1023 :
    convertToAngle (.finite 50) (.finite 0) (.finite 1023) = .finite 18 := by
  have hs : JsNumber.strictEquals (.finite (1023 : ℚ)) (.finite (0 : ℚ)) = false := by
    simp [JsNumber.strictEquals]
  have eA : JsNumber.roundToDouble ((50 : ℚ) - 0) = .finite 50 := by
    have e0 : ((50 : ℚ) - 0) = 50 := by norm_num
    have e1 : JsNumber.roundToGrid 50 = 7036874417766400 * (2 : ℚ) ^ ((5 : ℤ) - 52) :=
      JsNumber.roundToGrid_eval (5) (7036874417766400) (by norm_num [abs_of_pos, abs_of_neg])
        (by norm_num [abs_of_pos, abs_of_neg]) (by norm_num) (by norm_num [JsNumber.roundHalfEven])
    rw [e0, JsNumber.roundToDouble_of_lt_threshold (by norm_num [JsNumber.overflowThreshold, abs_of_pos, abs_of_neg]), e1]
    norm_num
  have eD : JsNumber.roundToDouble ((1023 : ℚ) - 0) = .finite 1023 := by
    have e0 : ((1023 : ℚ) - 0) = 1023 := by norm_num
    have e1 : JsNumber.roundToGrid 1023 = 8998403161718784 * (2 : ℚ) ^ ((9 : ℤ) - 52) :=
      JsNumber.roundToGrid_eval (9) (8998403161718784) (by norm_num [abs_of_pos, abs_of_neg])
        (by norm_num [abs_of_pos, abs_of_neg]) (by norm_num) (by norm_num [JsNumber.roundHalfEven])
    rw [e0, JsNumber.roundToDouble_of_lt_threshold (by norm_num [JsNumber.overflowThreshold, abs_of_pos, abs_of_neg]), e1]
    norm_num
  have eQ : JsNumber.roundToGrid ((50 : ℚ) / 1023) = 7043753082886406 * (2 : ℚ) ^ ((-5 : ℤ) - 52) :=
    JsNumber.roundToGrid_eval (-5) (7043753082886406) (by norm_num [abs_of_pos, abs_of_neg])
      (by norm_num [abs_of_pos, abs_of_neg]) (by norm_num) (by norm_num [JsNumber.roundHalfEven])
  have eP : JsNumber.roundToGrid (7043753082886406 * (2 : ℚ) ^ ((-5 : ℤ) - 52) * 360) = 4952638886404504 * (2 : ℚ) ^ ((4 : ℤ) - 52) :=
    JsNumber.roundToGrid_eval (4) (4952638886404504) (by norm_num [abs_of_pos, abs_of_neg])
      (by norm_num [abs_of_pos, abs_of_neg]) (by norm_num) (by norm_num [JsNumber.roundHalfEven])
  unfold convertToAngle
  rw [hs]
  simp only [Bool.false_eq_true, if_false, JsNumber.sub]
  rw [eA, eD]
  simp only [JsNumber.div, if_neg (by norm_num : ¬ (1023 : ℚ) = 0)]
  rw [JsNumber.roundToDouble_of_lt_threshold (by norm_num [JsNumber.overflowThreshold, abs_of_pos, abs_of_neg]), eQ]
  rw [JsNumber.clamp_eq_saturate _ (by simp)]
  have hsat : JsNumber.saturate (.finite (7043753082886406 * (2 : ℚ) ^ ((-5 : ℤ) - 52))) = 7043753082886406 * (2 : ℚ) ^ ((-5 : ℤ) - 52) := by
    norm_num [JsNumber.saturate]
  rw [hsat]
  simp only [JsNumber.mul]
  rw [JsNumber.roundToDouble_of_lt_threshold (by norm_num [JsNumber.overflowThreshold, abs_of_pos, abs_of_neg]), eP]
  norm_num [JsNumber.mathRound]

theorem convertToAngle_50_of_100_200 :
    convertToAngle (.finite 50) (.finite 100) (.finite 200) = .finite 0 := by
  have hs : JsNumber.strictEquals (.finite (200 : ℚ)) (.finite (100 : ℚ)) = false := by
    simp [JsNumber.strictEquals]
  have eA : JsNumber.roundToDouble ((50 : ℚ) - 100) = .finite (-50) := by
    have e0 : ((50 : ℚ) - 100) = (-50) := by norm_num
    have e1 : JsNumber.roundToGrid (-50) = -7036874417766400 * (2 : ℚ) ^ ((5 : ℤ) - 52) :=
      JsNumber.roundToGrid_eval (5) (-7036874417766400) (by norm_num [abs_of_pos, abs_of_neg])
        (by norm_num [abs_of_pos, abs_of_neg]) (by norm_num) (by norm_num [JsNumber.roundHalfEven])
    rw [e0, JsNumber.roundToDouble_of_lt_threshold (by norm_num [JsNumber.overflowThreshold, abs_of_pos, abs_of_neg]), e1]
    norm_num
  have eD : JsNumber.roundToDouble ((200 : ℚ) - 100) = .finite 100 := by
    have e0 : ((200 : ℚ) - 100) = 100 := by norm_num
    have e1 : JsNumber.roundToGrid 100 = 7036874417766400 * (2 : ℚ) ^ ((6 : ℤ) - 52) :=
      JsNumber.roundToGrid_eval (6) (7036874417766400) (by norm_num [abs_of_pos, abs_of_neg])
        (by norm_num [abs_of_pos, abs_of_neg]) (by norm_num) (by norm_num [JsNumber.roundHalfEven])
    rw [e0, JsNumber.roundToDouble_of_lt_threshold (by norm_num [JsNumber.overflowThreshold, abs_of_pos, abs_of_neg]), e1]
    norm_num
  have eQ : JsNumber.roundToGrid (((-50) : ℚ) / 100) = -4503599627370496 * (2 : ℚ) ^ ((-1 : ℤ) - 52) :=
    JsNumber.roundToGrid_eval (-1) (-4503599627370496) (by norm_num [abs_of_pos, abs_of_neg])
      (by norm_num [abs_of_pos, abs_of_neg]) (by norm_num) (by norm_num [JsNumber.roundHalfEven])
  have eP : JsNumber.roundToGrid (0 * 360) = 0 := by
    norm_num [JsNumber.roundToGrid_zero]
  unfold convertToAngle
  rw [hs]
  simp only [Bool.false_eq_true, if_false, JsNumber.sub]
  rw [eA, eD]
  simp only [JsNumber.div, if_neg (by norm_num : ¬ (100 : ℚ) = 0)]
  rw [JsNumber.roundToDouble_of_lt_threshold (by norm_num [JsNumber.overflowThreshold, abs_of_pos, abs_of_neg]), eQ]
  rw [JsNumber.clamp_eq_saturate _ (by simp)]
  have hsat : JsNumber.saturate (.finite (-4503599627370496 * (2 : ℚ) ^ ((-1 : ℤ) - 52))) = 0 := by
    norm_num [JsNumber.saturate]
  rw [hsat]
  simp only [JsNumber.mul]
  rw [JsNumber.roundToDouble_of_lt_threshold (by norm_num [JsNumber.overflowThreshold, abs_of_pos, abs_of_neg]), eP]
  norm_num [JsNumber.mathRound]

theorem convertToAngle_30_of_1023 :
    convertToAngle (.finite 30) (.finite 0) (.finite 1023) = .finite 11 := by
  have hs : JsNumber.strictEquals (.finite (1023 : ℚ)) (.finite (0 : ℚ)) = false := by
    simp [JsNumber.strictEquals]
  have eA : JsNumber.roundToDouble ((30 : ℚ) - 0) = .finite 30 := by
    have e0 : ((30 : ℚ) - 0) = 30 := by norm_num
    have e1 : JsNumber.roundToGrid 30 = 8444249301319680 * (2 : ℚ) ^ ((4 : ℤ) - 52) :=
      JsNumber.roundToGrid_eval (4) (8444249301319680) (by norm_num [abs_of_pos, abs_of_neg])
        (by norm_num [abs_of_pos, abs_of_neg]) (by norm_num) (by norm_num [JsNumber.roundHalfEven])
    rw [e0, JsNumber.roundToDouble_of_lt_threshold (by norm_num [JsNumber.overflowThreshold, abs_of_pos, abs_of_neg]), e1]
    norm_num
  have eD : JsNumber.roundToDouble ((1023 : ℚ) - 0) = .finite 1023 := by
    have e0 : ((1023 : ℚ) - 0) = 1023 := by norm_num
    have e1 : JsNumber.roundToGrid 1023 = 8998403161718784 * (2 : ℚ) ^ ((9 : ℤ) - 52) :=
      JsNumber.roundToGrid_eval (9) (8998403161718784) (by norm_num [abs_of_pos, abs_of_neg])
        (by norm_num [abs_of_pos, abs_of_neg]) (by norm_num) (by norm_num [JsNumber.roundHalfEven])
    rw [e0, JsNumber.roundToDouble_of_lt_threshold (by norm_num [JsNumber.overflowThreshold, abs_of_pos, abs_of_neg]), e1]
    norm_num
  have eQ : JsNumber.roundToGrid ((30 : ℚ) / 1023) = 8452503699463688 * (2 : ℚ) ^ ((-6 : ℤ) - 52) :=
    JsNumber.roundToGrid_eval (-6) (8452503699463688) (by norm_num [abs_of_pos, abs_of_neg])
      (by norm_num [abs_of_pos, abs_of_neg]) (by norm_num) (by norm_num [JsNumber.roundHalfEven])
  have eP : JsNumber.roundToGrid (8452503699463688 * (2 : ℚ) ^ ((-6 : ℤ) - 52) * 360) = 5943166663685406 * (2 : ℚ) ^ ((3 : ℤ) - 52) :=
    JsNumber.roundToGrid_eval (3) (5943166663685406) (by norm_num [abs_of_pos, abs_of_neg])
      (by norm_num [abs_of_pos, abs_of_neg]) (by norm_num) (by norm_num [JsNumber.roundHalfEven])
  unfold convertToAngle
  rw [hs]
  simp only [Bool.false_eq_true, if_false, JsNumber.sub]
  rw [eA, eD]
  simp only [JsNumber.div, if_neg (by norm_num : ¬ (1023 : ℚ) = 0)]
  rw [JsNumber.roundToDouble_of_lt_threshold (by norm_num [JsNumber.overflowThreshold, abs_of_pos, abs_of_neg]), eQ]
  rw [JsNumber.clamp_eq_saturate _ (by simp)]
  have hsat : JsNumber.saturate (.finite (8452503699463688 * (2 : ℚ) ^ ((-6 : ℤ) - 52))) = 8452503699463688 * (2 : ℚ) ^ ((-6 : ℤ) - 52) := by
    norm_num [JsNumber.saturate]
  rw [hsat]
  simp only [JsNumber.mul]
  rw [JsNumber.roundToDouble_of_lt_threshold (by norm_num [JsNumber.overflowThreshold, abs_of_pos, abs_of_neg]), eP]
  norm_num [JsNumber.mathRound]

theorem convertToAngle_30_of_3_50 :
    convertToAngle (.finite 30) (.finite 3) (.finite 50) = .finite 207 := by
  have hs : JsNumber.strictEquals (.finite (50 : ℚ)) (.finite (3 : ℚ)) = false := by
    simp [JsNumber.strictEquals]
  have eA : JsNumber.roundToDouble ((30 : ℚ) - 3) = .finite 27 := by
    have e0 : ((30 : ℚ) - 3) = 27 := by norm_num
    have e1 : JsNumber.roundToGrid 27 = 7599824371187712 * (2 : ℚ) ^ ((4 : ℤ) - 52) :=
      JsNumber.roundToGrid_eval (4) (7599824371187712) (by norm_num [abs_of_pos, abs_of_neg])
        (by norm_num [abs_of_pos, abs_of_neg]) (by norm_num) (by norm_num [JsNumber.roundHalfEven])
    rw [e0, JsNumber.roundToDouble_of_lt_threshold (by norm_num [JsNumber.overflowThreshold, abs_of_pos, abs_of_neg]), e1]
    norm_num
  have eD : JsNumber.roundToDouble ((50 : ℚ) - 3) = .finite 47 := by
    have e0 : ((50 : ℚ) - 3) = 47 := by norm_num
    have e1 : JsNumber.roundToGrid 47 = 6614661952700416 * (2 : ℚ) ^ ((5 : ℤ) - 52) :=
      JsNumber.roundToGrid_eval (5) (6614661952700416) (by norm_num [abs_of_pos, abs_of_neg])
        (by norm_num [abs_of_pos, abs_of_neg]) (by norm_num) (by norm_num [JsNumber.roundHalfEven])
    rw [e0, JsNumber.roundToDouble_of_lt_threshold (by norm_num [JsNumber.overflowThreshold, abs_of_pos, abs_of_neg]), e1]
    norm_num
  have eQ : JsNumber.roundToGrid ((27 : ℚ) / 47) = 5174348508042698 * (2 : ℚ) ^ ((-1 : ℤ) - 52) :=
    JsNumber.roundToGrid_eval (-1) (5174348508042698) (by norm_num [abs_of_pos, abs_of_neg])
      (by norm_num [abs_of_pos, abs_of_neg]) (by norm_num) (by norm_num [JsNumber.roundHalfEven])
  have eP : JsNumber.roundToGrid (5174348508042698 * (2 : ℚ) ^ ((-1 : ℤ) - 52) * 360) = 7276427589435044 * (2 : ℚ) ^ ((7 : ℤ) - 52) :=
    JsNumber.roundToGrid_eval (7) (7276427589435044) (by norm_num [abs_of_pos, abs_of_neg])
      (by norm_num [abs_of_pos, abs_of_neg]) (by norm_num) (by norm_num [JsNumber.roundHalfEven])
  unfold convertToAngle
  rw [hs]
  simp only [Bool.false_eq_true, if_false, JsNumber.sub]
  rw [eA, eD]
  simp only [JsNumber.div, if_neg (by norm_num : ¬ (47 : ℚ) = 0)]
  rw [JsNumber.roundToDouble_of_lt_threshold (by norm_num [JsNumber.overflowThreshold, abs_of_pos, abs_of_neg]), eQ]
  rw [JsNumber.clamp_eq_saturate _ (by simp)]
  have hsat : JsNumber.saturate (.finite (5174348508042698 * (2 : ℚ) ^ ((-1 : ℤ) - 52))) = 5174348508042698 * (2 : ℚ) ^ ((-1 : ℤ) - 52) := by
    norm_num [JsNumber.saturate]
  rw [hsat]
  simp only [JsNumber.mul]
  rw [JsNumber.roundToDouble_of_lt_threshold (by norm_num [JsNumber.overflowThreshold, abs_of_pos, abs_of_neg]), eP]
  norm_num [JsNumber.mathRound]

end Ieee

namespace Ieee

theorem roundToDouble_of_grid {x : ℚ} (h : |x| < JsNumber.overflowThreshold)
    (hg : JsNumber.roundToGrid x = x) : JsNumber.roundToDouble x = .finite x := by
  rw [JsNumber.roundToDouble_of_lt_threshold h, hg]

theorem roundToDouble_50 : JsNumber.roundToDouble ((50 : ℤ) : ℚ) = .finite 50 := by
  have e : ((50 : ℤ) : ℚ) = 50 := by norm_num
  rw [e]
  exact roundToDouble_of_grid (by norm_num [JsNumber.overflowThreshold])
    (JsNumber.roundToGrid_eq_self 5 (50 * 2 ^ 47)
      (JsNumber.binade_eq_of_bounds (by norm_num) (by norm_num) (by norm_num)) (by norm_num))

theorem roundToDouble_30 : JsNumber.roundToDouble ((30 : ℤ) : ℚ) = .finite 30 := by
  have e : ((30 : ℤ) : ℚ) = 30 := by norm_num
  rw [e]
  exact roundToDouble_of_grid (by norm_num [JsNumber.overflowThreshold])
    (JsNumber.roundToGrid_eq_self 4 (30 * 2 ^ 48)
      (JsNumber.binade_eq_of_bounds (by norm_num) (by norm_num) (by norm_num)) (by norm_num))

theorem roundToDouble_1023 : JsNumber.roundToDouble ((1023 : ℤ) : ℚ) = .finite 1023 := by
  have e : ((1023 : ℤ) : ℚ) = 1023 := by norm_num
  rw [e]
  exact roundToDouble_of_grid (by norm_num [JsNumber.overflowThreshold])
    (JsNumber.roundToGrid_eq_self 9 (1023 * 2 ^ 43)
      (JsNumber.binade_eq_of_bounds (by norm_num) (by norm_num) (by norm_num)) (by norm_num))

/-- The integer `2 ^ 53 + 1` is not a double: the literal is stored as
`2 ^ 53`. -/
theorem roundToDouble_above_safe :
    JsNumber.roundToDouble ((9007199254740993 : ℤ) : ℚ) = .finite 9007199254740992 := by
  have e : ((9007199254740993 : ℤ) : ℚ) = 9007199254740993 := by norm_num
  rw [e, JsNumber.roundToDouble_of_lt_threshold (by norm_num [JsNumber.overflowThreshold]),
    JsNumber.roundToGrid_eval 53 4503599627370496 (by norm_num) (by norm_num) (by norm_num)
      (by norm_num [JsNumber.roundHalfEven])]
  norm_num

theorem processIncomingData_of_parseInt (minValue maxValue : JsNumber) (s : AppState)
    (rawValue : String) (now : ℕ) {t : List Char} {n : ℤ} (ht : jsTrim rawValue.data = t)
    (hne : t ≠ []) (hnan : RightAngle.isNaN t = false) (hp : RightAngle.parseInt t = some n) :
    processIncomingData minValue maxValue s rawValue now =
      { s with
        potValue := JsNumber.roundToDouble n
        angle := convertToAngle (JsNumber.roundToDouble n)
          (if (!((JsNumber.roundToDouble n).ge minValue && (JsNumber.roundToDouble n).le maxValue)
              && ((JsNumber.roundToDouble n).ge (.finite 0) &&
                (JsNumber.roundToDouble n).le (.finite 1023))) = true then .finite 0
            else minValue)
          (if (!((JsNumber.roundToDouble n).ge minValue && (JsNumber.roundToDouble n).le maxValue)
              && ((JsNumber.roundToDouble n).ge (.finite 0) &&
                (JsNumber.roundToDouble n).le (.finite 1023))) = true then .finite 1023
            else maxValue)
        history := appendHistory s.history
          ⟨JsNumber.roundToDouble n,
            convertToAngle (JsNumber.roundToDouble n)
              (if (!((JsNumber.roundToDouble n).ge minValue &&
                  (JsNumber.roundToDouble n).le maxValue)
                  && ((JsNumber.roundToDouble n).ge (.finite 0) &&
                    (JsNumber.roundToDouble n).le (.finite 1023))) = true then .finite 0
                else minValue)
              (if (!((JsNumber.roundToDouble n).ge minValue &&
                  (JsNumber.roundToDouble n).le maxValue)
                  && ((JsNumber.roundToDouble n).ge (.finite 0) &&
                    (JsNumber.roundToDouble n).le (.finite 1023))) = true then .finite 1023
                else maxValue), now⟩ } := by
  unfold processIncomingData
  simp only [ht, hne, hnan, parseInt, hp, ne_eq, not_false_eq_true, and_self, if_true]

theorem libDraft_processIncomingData_of_parseInt (minValue maxValue : JsNumber) (s : AppState)
    (rawValue : String) (now : ℕ) {t : List Char} {n : ℤ} (ht : jsTrim rawValue.data = t)
    (hne : t ≠ []) (hnan : RightAngle.isNaN t = false) (hp : RightAngle.parseInt t = some n) :
    LibDraft.processIncomingData minValue maxValue s rawValue now =
      if ((JsNumber.roundToDouble n).ge minValue && (JsNumber.roundToDouble n).le maxValue) =
          true then
        { s with
          potValue := JsNumber.roundToDouble n
          angle := convertToAngle (JsNumber.roundToDouble n) minValue maxValue
          history := appendHistory s.history
            ⟨JsNumber.roundToDouble n,
              convertToAngle (JsNumber.roundToDouble n) minValue maxValue, now⟩ }
      else if ((JsNumber.roundToDouble n).ge (.finite 0) &&
          (JsNumber.roundToDouble n).le (.finite 1023)) = true then
        { s with
          potValue := JsNumber.roundToDouble n
          angle := convertToAngle (JsNumber.roundToDouble n) (.finite 0) (.finite 1023)
          history := appendHistory s.history
            ⟨JsNumber.roundToDouble n,
              convertToAngle (JsNumber.roundToDouble n) (.finite 0) (.finite 1023), now⟩ }
      else s := by
  unfold LibDraft.processIncomingData
  simp only [ht, hne, hnan, parseInt, hp, ne_eq, not_false_eq_true, and_self, if_true]

theorem isIntegerLiteral_50_line : IsIntegerLiteral (jsTrim " 50\r".data) 50 :=
  ⟨['5', '0'], by decide, by decide, Or.inl ⟨by decide, by decide⟩⟩

theorem isIntegerLiteral_30_line : IsIntegerLiteral (jsTrim "30".data) 30 :=
  ⟨['3', '0'], by decide, by decide, Or.inl ⟨by decide, by decide⟩⟩

/-- C10, as stated, fails.  A handler whose range is 100..200 records the line
` 50` with the angle 18, the conversion on the full scale 0..1023, in both
drafts, while `convertToAngle(50, 100, 200)` is 0. -/
theorem processIncomingData_current_range_counterexample :
    IsIntegerLiteral (jsTrim " 50\r".data) 50 ∧
      (processIncomingData (.finite 100) (.finite 200) AppState.initial " 50\r" 7).history =
        [⟨.finite 50, .finite 18, 7⟩] ∧
      (LibDraft.processIncomingData (.finite 100) (.finite 200) AppState.initial
        " 50\r" 7).history = [⟨.finite 50, .finite 18, 7⟩] ∧
      convertToAngle (.finite 50) (.finite 100) (.finite 200) = .finite 0 := by
  have hp := parse_integerLiteral isIntegerLiteral_50_line
  have c1 : ((JsNumber.finite 50).ge (.finite 100) && (JsNumber.finite 50).le (.finite 200)) =
      false := by
    simp [JsNumber.ge, JsNumber.le]
    norm_num
  have c2 : ((JsNumber.finite 50).ge (.finite 0) && (JsNumber.finite 50).le (.finite 1023)) =
      true := by
    simp [JsNumber.ge, JsNumber.le]
    norm_num
  refine ⟨isIntegerLiteral_50_line, ?_, ?_, convertToAngle_50_of_100_200⟩
  · rw [processIncomingData_of_parseInt _ _ _ _ 7 rfl hp.1 hp.2.1 hp.2.2, roundToDouble_50]
    simp only [c1, c2, Bool.not_false, Bool.and_self, if_true, convertToAngle_50_of_1023]
    rfl
  · rw [libDraft_processIncomingData_of_parseInt _ _ _ _ 7 rfl hp.1 hp.2.1 hp.2.2, roundToDouble_50]
    simp only [c1, c2, Bool.false_eq_true, if_false, if_true, convertToAngle_50_of_1023]
    rfl

/-- C10, amended.  For every line whose trimmed text is a base-10 integer `n`,
a handler `processIncomingData` created with the range `minValue..maxValue`
(the range of the render that created it, whatever the range is when the line
arrives) appends to the history of the moment a Reading whose value is the
double nearest to `n` and whose angle `a` is `convertToAngle` of that value
under `minValue..maxValue` when the value is inside that range or outside
0..1023, and under 0..1023 when it is outside the range but inside 0..1023.
The lib draft appends the same Reading when the value is inside the range or
inside 0..1023 and drops the line otherwise. -/
theorem processIncomingData_integer_reading (minValue maxValue : JsNumber) (s : AppState)
    (rawValue : String) (now : ℕ) (n : ℤ) (h : IsIntegerLiteral (jsTrim rawValue.data) n) :
    ∃ a : JsNumber,
      processIncomingData minValue maxValue s rawValue now =
          { s with
            potValue := JsNumber.roundToDouble n
            angle := a
            history := appendHistory s.history ⟨JsNumber.roundToDouble n, a, now⟩ } ∧
        (((JsNumber.roundToDouble n).ge minValue && (JsNumber.roundToDouble n).le maxValue) = true ∨
            ((JsNumber.roundToDouble n).ge (.finite 0) &&
              (JsNumber.roundToDouble n).le (.finite 1023)) = false →
          a = convertToAngle (JsNumber.roundToDouble n) minValue maxValue) ∧
        (((JsNumber.roundToDouble n).ge minValue && (JsNumber.roundToDouble n).le maxValue) =
              false ∧
            ((JsNumber.roundToDouble n).ge (.finite 0) &&
              (JsNumber.roundToDouble n).le (.finite 1023)) = true →
          a = convertToAngle (JsNumber.roundToDouble n) (.finite 0) (.finite 1023)) ∧
        (((JsNumber.roundToDouble n).ge minValue && (JsNumber.roundToDouble n).le maxValue) = true ∨
            ((JsNumber.roundToDouble n).ge (.finite 0) &&
              (JsNumber.roundToDouble n).le (.finite 1023)) = true →
          LibDraft.processIncomingData minValue maxValue s rawValue now =
            { s with
              potValue := JsNumber.roundToDouble n
              angle := a
              history := appendHistory s.history ⟨JsNumber.roundToDouble n, a, now⟩ }) ∧
        (((JsNumber.roundToDouble n).ge minValue && (JsNumber.roundToDouble n).le maxValue) =
              false ∧
            ((JsNumber.roundToDouble n).ge (.finite 0) &&
              (JsNumber.roundToDouble n).le (.finite 1023)) = false →
          LibDraft.processIncomingData minValue maxValue s rawValue now = s) := by
  obtain ⟨hne, hnan, hp⟩ := parse_integerLiteral h
  refine ⟨_, processIncomingData_of_parseInt minValue maxValue s rawValue now rfl hne hnan hp,
    ?_, ?_, ?_, ?_⟩
  · rintro (hc | hc) <;> simp [hc]
  · rintro ⟨h1, h2⟩
    simp [h1, h2]
  · intro hc
    rw [libDraft_processIncomingData_of_parseInt minValue maxValue s rawValue now rfl hne hnan hp]
    by_cases h1 : ((JsNumber.roundToDouble n).ge minValue &&
        (JsNumber.roundToDouble n).le maxValue) = true
    · simp [h1]
    · have h2 := hc.resolve_left h1
      simp [h1, h2]
  · rintro ⟨h1, h2⟩
    rw [libDraft_processIncomingData_of_parseInt minValue maxValue s rawValue now rfl hne hnan hp]
    simp [h1, h2]

theorem processIncomingData_integer_reading_witness :
    IsIntegerLiteral (jsTrim "30".data) 30 ∧
      ∃ a : JsNumber,
        processIncomingData (.finite 0) (.finite 1023)
            { AppState.initial with minValue := .finite 3, maxValue := .finite 50 } "30" 7 =
          { AppState.initial with
            minValue := .finite 3
            maxValue := .finite 50
            potValue := JsNumber.roundToDouble ((30 : ℤ) : ℚ)
            angle := a
            history := appendHistory [] ⟨JsNumber.roundToDouble ((30 : ℤ) : ℚ), a, 7⟩ } ∧
        (((JsNumber.roundToDouble ((30 : ℤ) : ℚ)).ge (.finite 0) &&
              (JsNumber.roundToDouble ((30 : ℤ) : ℚ)).le (.finite 1023)) = true ∨
            ((JsNumber.roundToDouble ((30 : ℤ) : ℚ)).ge (.finite 0) &&
              (JsNumber.roundToDouble ((30 : ℤ) : ℚ)).le (.finite 1023)) = false →
          a = convertToAngle (JsNumber.roundToDouble ((30 : ℤ) : ℚ)) (.finite 0)
            (.finite 1023)) :=
  ⟨isIntegerLiteral_30_line,
    let ⟨a, h1, h2, _⟩ := processIncomingData_integer_reading (.finite 0) (.finite 1023)
      { AppState.initial with minValue := .finite 3, maxValue := .finite 50 } "30" 7 30
      isIntegerLiteral_30_line
    ⟨a, h1, h2⟩⟩

/-- A listener registered when the range was 0..1023 keeps converting on that
range after a calibration to 3..50: the line `30` is stored with the angle 11,
while the conversion under the range of the moment is 207. -/
theorem stale_range_example :
    (processIncomingData (.finite 0) (.finite 1023)
        { AppState.initial with minValue := .finite 3, maxValue := .finite 50 } "30" 7).history =
        [⟨.finite 30, .finite 11, 7⟩] ∧
      (LibDraft.processIncomingData (.finite 0) (.finite 1023)
        { AppState.initial with minValue := .finite 3, maxValue := .finite 50 } "30" 7).history =
        [⟨.finite 30, .finite 11, 7⟩] ∧
      convertToAngle (.finite 30) (.finite 3) (.finite 50) = .finite 207 := by
  have hp := parse_integerLiteral isIntegerLiteral_30_line
  have c2 : ((JsNumber.finite 30).ge (.finite 0) && (JsNumber.finite 30).le (.finite 1023)) =
      true := by
    simp [JsNumber.ge, JsNumber.le]
    norm_num
  refine ⟨?_, ?_, convertToAngle_30_of_3_50⟩
  · rw [processIncomingData_of_parseInt _ _ _ _ 7 rfl hp.1 hp.2.1 hp.2.2, roundToDouble_30]
    simp only [c2, Bool.not_true, Bool.false_and, Bool.false_eq_true, if_false,
      convertToAngle_30_of_1023]
    rfl
  · rw [libDraft_processIncomingData_of_parseInt _ _ _ _ 7 rfl hp.1 hp.2.1 hp.2.2, roundToDouble_30]
    simp only [c2, if_true, convertToAngle_30_of_1023]
    rfl

end Ieee

namespace Ieee

theorem mem_appendHistory {prev : List Reading} {r x : Reading} (h : x ∈ appendHistory prev r) :
    x ∈ prev ∨ x = r := by
  have h1 := (sliceFromEnd_suffix 50 (prev ++ [r])).subset h
  rcases List.mem_append.mp h1 with h2 | h2
  · exact Or.inl h2
  · exact Or.inr (List.mem_singleton.mp h2)

theorem numeric_appendHistory {prev : List Reading} {r : Reading} (hp : Numeric prev)
    (hr : r.value ≠ .nan) : Numeric (appendHistory prev r) := by
  intro x hx
  rcases mem_appendHistory hx with h | h
  · exact hp x h
  · rw [h]
    exact hr

theorem processIncomingData_keeps_range (minValue maxValue : JsNumber) (s : AppState)
    (rawValue : String) (now : ℕ) :
    (processIncomingData minValue maxValue s rawValue now).minValue = s.minValue ∧
      (processIncomingData minValue maxValue s rawValue now).maxValue = s.maxValue := by
  unfold processIncomingData
  dsimp only
  split_ifs <;> exact ⟨rfl, rfl⟩

theorem libDraft_processIncomingData_range (minValue maxValue : JsNumber) (s : AppState)
    (rawValue : String) (now : ℕ) :
    (LibDraft.processIncomingData minValue maxValue s rawValue now).minValue = s.minValue ∧
      (LibDraft.processIncomingData minValue maxValue s rawValue now).maxValue = s.maxValue := by
  unfold LibDraft.processIncomingData
  dsimp only
  split_ifs <;> exact ⟨rfl, rfl⟩

/-- The src draft keeps the history free of `NaN` on every line except those
for which `storesNaN` holds. -/
theorem processIncomingData_numeric (minValue maxValue : JsNumber) (s : AppState)
    (rawValue : String) (now : ℕ) (hnum : Numeric s.history)
    (hraw : storesNaN rawValue = false) :
    Numeric (processIncomingData minValue maxValue s rawValue now).history := by
  unfold processIncomingData
  dsimp only
  by_cases hc : jsTrim rawValue.data ≠ [] ∧ RightAngle.isNaN (jsTrim rawValue.data) = false
  · rw [if_pos hc]
    apply numeric_appendHistory hnum
    intro e
    have e1 : parseInt (jsTrim rawValue.data) = .nan := e
    unfold storesNaN at hraw
    simp [hc.1, hc.2, e1, JsNumber.isNaN] at hraw
  · rw [if_neg hc]
    exact hnum

/-- The lib draft never stores a `NaN` reading: every comparison with `NaN` is
false. -/
theorem libDraft_processIncomingData_numeric (minValue maxValue : JsNumber) (s : AppState)
    (rawValue : String) (now : ℕ) (hnum : Numeric s.history) :
    Numeric (LibDraft.processIncomingData minValue maxValue s rawValue now).history := by
  have key : ∀ v b : JsNumber, (v.ge (.finite 0) && v.le b) = true → v ≠ .nan := by
    intro v b h e
    rw [e] at h
    simp [JsNumber.ge, JsNumber.le] at h
  have key2 : ∀ v a b : JsNumber, (v.ge a && v.le b) = true → v ≠ .nan := by
    intro v a b h e
    rw [e] at h
    cases a <;> cases b <;> simp [JsNumber.ge, JsNumber.le] at h
  unfold LibDraft.processIncomingData
  dsimp only
  split_ifs with h1 h2 h3
  · exact numeric_appendHistory hnum (key2 _ _ _ h2)
  · exact numeric_appendHistory hnum (key _ _ h3)
  · exact hnum
  · exact hnum

theorem resetCalibration_rangeOk (s : AppState) :
    RangeOk (resetCalibration s) ∧ Numeric (resetCalibration s).history := by
  refine ⟨⟨by simp [resetCalibration], by simp [resetCalibration], ?_⟩, ?_⟩
  · simp [resetCalibration]
  · intro r hr
    simp [resetCalibration] at hr

theorem calibrateRange_rangeOk (s : AppState) (h : RangeOk s) (hnum : Numeric s.history) :
    RangeOk (calibrateRange s) ∧ (calibrateRange s).history = s.history := by
  by_cases h10 : s.history.length < 10
  · have e : calibrateRange s = { s with toasts := s.toasts ++ [insufficientDataToast] } := by
      unfold calibrateRange
      rw [if_pos h10]
    rw [e]
    exact ⟨h, rfl⟩
  · obtain ⟨lo, hi, hlo, hhi, -, -, -, e⟩ := calibrateRange_numeric s h10 hnum
    rw [e]
    split_ifs with hne
    · exact ⟨h, rfl⟩
    · exact ⟨⟨hlo, hhi, hne⟩, rfl⟩

theorem libDraft_applyEvent_inv (s : AppState) (e : PipelineEvent) (h : RangeOk s)
    (hnum : Numeric s.history) :
    RangeOk (LibDraft.applyEvent s e) ∧ Numeric (LibDraft.applyEvent s e).history := by
  cases e with
  | line lo hi raw now =>
    obtain ⟨e1, e2⟩ := libDraft_processIncomingData_range lo hi s raw now
    refine ⟨?_, libDraft_processIncomingData_numeric lo hi s raw now hnum⟩
    unfold RangeOk LibDraft.applyEvent
    rw [e1, e2]
    exact h
  | calibrate =>
    obtain ⟨a, b⟩ := calibrateRange_rangeOk s h hnum
    refine ⟨a, ?_⟩
    show Numeric (calibrateRange s).history
    rw [b]
    exact hnum
  | reset => exact resetCalibration_rangeOk s

theorem applyEvent_inv (s : AppState) (e : PipelineEvent) (h : RangeOk s)
    (hnum : Numeric s.history)
    (hline : ∀ lo hi raw now, e = .line lo hi raw now → storesNaN raw = false) :
    RangeOk (applyEvent s e) ∧ Numeric (applyEvent s e).history := by
  cases e with
  | line lo hi raw now =>
    obtain ⟨e1, e2⟩ := processIncomingData_keeps_range lo hi s raw now
    refine ⟨?_, processIncomingData_numeric lo hi s raw now hnum (hline lo hi raw now rfl)⟩
    unfold RangeOk applyEvent
    rw [e1, e2]
    exact h
  | calibrate =>
    obtain ⟨a, b⟩ := calibrateRange_rangeOk s h hnum
    refine ⟨a, ?_⟩
    show Numeric (calibrateRange s).history
    rw [b]
    exact hnum
  | reset => exact resetCalibration_rangeOk s

theorem onMinValueChange_1023 :
    (onMinValueChange AppState.initial "1023").minValue = .finite 1023 := by
  have hp : RightAngle.parseIntAuto "1023".data = some 1023 := by decide
  have e : parseIntAuto "1023".data = .finite 1023 := by
    simp only [parseIntAuto, hp]
    exact roundToDouble_1023
  have e2 : orElse (.finite 1023) (.finite 0) = .finite 1023 := by
    simp [orElse, JsNumber.isNaN]
  have e3 : parseIntOfNumber (.finite 1023) = .finite 1023 := by
    norm_num [parseIntOfNumber]
  unfold onMinValueChange
  dsimp only
  rw [e, e2, e3]
  rfl

/-- C20, as stated, fails.  From the default range 0..1023 the entry `1023` in
the minimum field gives `minValue = maxValue = 1023`; and in the src draft ten
lines `.5` followed by `calibrateRange` give the range `NaN..NaN`. -/
theorem calibration_range_counterexample :
    RangeOk AppState.initial ∧
      (onMinValueChange AppState.initial "1023").minValue =
        (onMinValueChange AppState.initial "1023").maxValue ∧
      ¬ RangeOk (onMinValueChange AppState.initial "1023") ∧
      (calibrateRange
          ((List.range 10).foldl
            (fun s i => processIncomingData (.finite 0) (.finite 1023) s ".5" i)
            AppState.initial)).minValue = .nan := by
  have e : (onMinValueChange AppState.initial "1023").maxValue = .finite 1023 := rfl
  refine ⟨⟨by simp [AppState.initial], by simp [AppState.initial], by simp [AppState.initial]⟩,
    by rw [onMinValueChange_1023, e], ?_, ?_⟩
  · intro h
    exact h.2.2 (by rw [onMinValueChange_1023, e])
  · rw [nanState_reachable,
      calibrateRange_of_nan nanState (by decide) ⟨⟨.nan, .nan, 0⟩, by decide, rfl⟩]

/-- C20, amended.  The calibration invariant (both bounds are numbers and
`minValue ≠ maxValue`) is preserved by `calibrateRange`, by `resetCalibration`
and by incoming lines: from a state that satisfies it and whose history holds
no `NaN` reading, every sequence of these in the lib draft ends in a state
that satisfies it, and so does every sequence in the src draft in which no
line is stored as `NaN`.  Manual min/max entries are not guarded and are not
covered. -/
theorem calibration_range_invariant (s : AppState) (events : List PipelineEvent)
    (h : RangeOk s) (hnum : Numeric s.history) :
    RangeOk (events.foldl LibDraft.applyEvent s) ∧
      ((∀ lo hi raw now, PipelineEvent.line lo hi raw now ∈ events → storesNaN raw = false) →
        RangeOk (events.foldl applyEvent s)) := by
  constructor
  · have key : ∀ (events : List PipelineEvent) (s : AppState), RangeOk s → Numeric s.history →
        RangeOk (events.foldl LibDraft.applyEvent s) := by
      intro events
      induction events with
      | nil => intro s h _; exact h
      | cons e es ih =>
        intro s h hnum
        obtain ⟨a, b⟩ := libDraft_applyEvent_inv s e h hnum
        exact ih _ a b
    exact key events s h hnum
  · have key : ∀ (events : List PipelineEvent) (s : AppState), RangeOk s → Numeric s.history →
        (∀ lo hi raw now, PipelineEvent.line lo hi raw now ∈ events → storesNaN raw = false) →
        RangeOk (events.foldl applyEvent s) := by
      intro events
      induction events with
      | nil => intro s h _ _; exact h
      | cons e es ih =>
        intro s h hnum hl
        obtain ⟨a, b⟩ := applyEvent_inv s e h hnum
          (fun lo hi raw now he => hl lo hi raw now (he ▸ List.mem_cons_self _ _))
        exact ih _ a b (fun lo hi raw now hm => hl lo hi raw now (List.mem_cons_of_mem _ hm))
    exact key events s h hnum

theorem calibration_range_invariant_witness :
    RangeOk AppState.initial ∧ Numeric AppState.initial.history ∧
      RangeOk
        ([PipelineEvent.line (.finite 0) (.finite 1023) ".5" 1, .calibrate, .reset].foldl
          LibDraft.applyEvent AppState.initial) :=
  have h0 : RangeOk AppState.initial :=
    ⟨by simp [AppState.initial], by simp [AppState.initial], by simp [AppState.initial]⟩
  have h1 : Numeric AppState.initial.history := by
    intro r hr
    simp [AppState.initial] at hr
  ⟨h0, h1, (calibration_range_invariant AppState.initial _ h0 h1).1⟩

end Ieee

/-! ## Running statements with dispatch -/

namespace Closure

theorem actBasic_trace (w : World) (a : Action) : (actBasic w a).trace = w.trace ++ [a] := rfl

theorem foldl_actBasic_trace (as : List Action) (w : World) :
    (as.foldl actBasic w).trace = w.trace ++ as := by
  induction as generalizing w with
  | nil => simp
  | cons a as ih => rw [List.foldl_cons, ih, actBasic_trace]; simp

theorem actWith_of_plain (handler : Snapshot → String → World → World) (w : World) (a : Action)
    (h : ∀ d, a ≠ .gattDisconnect d) : actWith handler w a = actBasic w a := by
  cases a <;> first | rfl | exact absurd rfl (h _)

theorem actWith_connected (handler : Snapshot → String → World → World) (w : World) (d : ℕ)
    (h : d ∈ w.connectedDevices) :
    actWith handler w (.gattDisconnect d) =
      dispatchWith handler d (actBasic w (.gattDisconnect d)) := by
  simp [actWith, h]

theorem actWith_not_connected (handler : Snapshot → String → World → World) (w : World) (d : ℕ)
    (h : d ∉ w.connectedDevices) :
    actWith handler w (.gattDisconnect d) = actBasic w (.gattDisconnect d) := by
  simp [actWith, h]

theorem foldl_actWith_of_plain (handler : Snapshot → String → World → World)
    (as : List Action) (w : World) (h : ∀ a ∈ as, ∀ d, a ≠ .gattDisconnect d) :
    as.foldl (actWith handler) w = as.foldl actBasic w := by
  induction as generalizing w with
  | nil => rfl
  | cons a as ih =>
    rw [List.foldl_cons, List.foldl_cons, actWith_of_plain handler w a (h a (List.mem_cons_self _ _))]
    exact ih _ fun b hb => h b (List.mem_cons_of_mem _ hb)

theorem actsWith_of_plain
    (listener : (World → List Action → World) → Snapshot → String → World → World)
    (depth : ℕ) (w : World) (as : List Action) (h : ∀ a ∈ as, ∀ d, a ≠ .gattDisconnect d) :
    actsWith listener depth w as = as.foldl actBasic w := by
  cases depth with
  | zero => rfl
  | succ n => exact foldl_actWith_of_plain _ as w h

theorem actsWith_append
    (listener : (World → List Action → World) → Snapshot → String → World → World)
    (depth : ℕ) (w : World) (as bs : List Action) :
    actsWith listener depth w (as ++ bs) =
      actsWith listener depth (actsWith listener depth w as) bs := by
  cases depth with
  | zero => simp [actsWith, List.foldl_append]
  | succ n => simp [actsWith, List.foldl_append]

/-- A call of `gatt.disconnect()` on a connected device between statements
that are none: the statements before, the dispatch, the statements after. -/
theorem actsWith_split
    (listener : (World → List Action → World) → Snapshot → String → World → World)
    (depth : ℕ) (w : World) (before after : List Action) (d : ℕ)
    (hbefore : ∀ a ∈ before, ∀ x, a ≠ .gattDisconnect x)
    (hafter : ∀ a ∈ after, ∀ x, a ≠ .gattDisconnect x)
    (hd : d ∈ (before.foldl actBasic w).connectedDevices) :
    actsWith listener (depth + 1) w (before ++ .gattDisconnect d :: after) =
      after.foldl actBasic
        (dispatchWith (listener fun w2 bs => actsWith listener depth w2 bs) d
          (actBasic (before.foldl actBasic w) (.gattDisconnect d))) := by
  simp only [actsWith, List.foldl_append, List.foldl_cons]
  rw [foldl_actWith_of_plain _ before w hbefore, actWith_connected _ _ _ hd,
    foldl_actWith_of_plain _ after _ hafter]

/-- A property of pairs of states that every statement of a kind keeps, and
that the listeners keep when their statements do, is kept by a run of
statements of the kind. -/
theorem dispatchWith_rel (R : World → World → Prop) (hrefl : ∀ w, R w w)
    (htrans : ∀ a b c, R a b → R b c → R a c)
    (handler : Snapshot → String → World → World) (hh : ∀ c n w, R w (handler c n w))
    (d : ℕ) (w : World) : R w (dispatchWith handler d w) := by
  unfold dispatchWith
  generalize (w.lostListeners.filter fun l => l.1 = d) = ls
  induction ls generalizing w with
  | nil => exact hrefl w
  | cons l ls ih =>
    simp only [List.foldl_cons]
    split_ifs
    · exact htrans _ _ _ (hh _ _ _) (ih _)
    · exact ih _

theorem actWith_rel (R : World → World → Prop) (hrefl : ∀ w, R w w)
    (htrans : ∀ a b c, R a b → R b c → R a c) (P : Action → Prop)
    (hstep : ∀ w a, P a → R w (actBasic w a))
    (handler : Snapshot → String → World → World) (hh : ∀ c n w, R w (handler c n w))
    (w : World) (a : Action) (ha : P a) : R w (actWith handler w a) := by
  by_cases h : ∀ d, a ≠ .gattDisconnect d
  · rw [actWith_of_plain handler w a h]; exact hstep w a ha
  · push_neg at h
    obtain ⟨d, rfl⟩ := h
    by_cases hd : d ∈ w.connectedDevices
    · rw [actWith_connected handler w d hd]
      exact htrans _ _ _ (hstep w _ ha) (dispatchWith_rel R hrefl htrans handler hh d _)
    · rw [actWith_not_connected handler w d hd]; exact hstep w _ ha

theorem foldl_rel (R : World → World → Prop) (hrefl : ∀ w, R w w)
    (htrans : ∀ a b c, R a b → R b c → R a c) (P : Action → Prop)
    (f : World → Action → World) (hf : ∀ w a, P a → R w (f w a))
    (as : List Action) (w : World) (has : ∀ a ∈ as, P a) : R w (as.foldl f w) := by
  induction as generalizing w with
  | nil => exact hrefl w
  | cons a as ih =>
    rw [List.foldl_cons]
    exact htrans _ _ _ (hf w a (has a (List.mem_cons_self _ _)))
      (ih _ fun b hb => has b (List.mem_cons_of_mem _ hb))

theorem actsWith_rel (R : World → World → Prop) (hrefl : ∀ w, R w w)
    (htrans : ∀ a b c, R a b → R b c → R a c) (P : Action → Prop)
    (hstep : ∀ w a, P a → R w (actBasic w a))
    (listener : (World → List Action → World) → Snapshot → String → World → World)
    (hl : ∀ runner : World → List Action → World,
      (∀ w as, (∀ a ∈ as, P a) → R w (runner w as)) → ∀ c n w, R w (listener runner c n w))
    (depth : ℕ) (w : World) (as : List Action) (has : ∀ a ∈ as, P a) :
    R w (actsWith listener depth w as) := by
  induction depth generalizing w as with
  | zero => exact foldl_rel R hrefl htrans P actBasic hstep as w has
  | succ n ih =>
    exact foldl_rel R hrefl htrans P _
      (fun w1 a ha =>
        actWith_rel R hrefl htrans P hstep _ (hl _ fun w2 bs hbs => ih w2 bs hbs) w1 a ha)
      as w has

end Closure

/-! ## What the BLE handlers leave alone -/

namespace Closure

theorem handleBleDisconnectCleanupScript_all (c : Snapshot) (informUser : Bool) (w : World) :
    (handleBleDisconnectCleanupScript c informUser w).all Action.leavesDemoAndSerial = true := by
  unfold handleBleDisconnectCleanupScript handleConnectionChange
  rcases w.bleTxCharacteristicRef with _ | ch <;> rcases c.state.bleDevice with _ | d <;>
    cases informUser <;> dsimp only [] <;> (try split_ifs) <;> rfl

theorem onBleDisconnectedScript_all (c : Snapshot) (name : String) (w : World) :
    (onBleDisconnectedScript c name w).all Action.leavesDemoAndSerial = true := by
  unfold onBleDisconnectedScript handleConnectionChange
  rcases w.bleTxCharacteristicRef with _ | ch <;> rcases c.state.bleDevice with _ | d <;>
    dsimp only [] <;> (try split_ifs) <;> rfl

theorem connectTryScript_all (c : Snapshot) (d : ℕ) (label : String) (o : BleOutcome) :
    (connectTryScript c d label o).all Action.leavesDemoAndSerial = true := by
  cases o <;> simp [connectTryScript, handleConnectionChange, Action.leavesDemoAndSerial]

/-- The part of the platform the demo and the serial adapter live in. -/
theorem execBasic_leaves (a : Action) (w : World) (h : a.leavesDemoAndSerial = true) :
    (actBasic w a).activeIntervals = w.activeIntervals ∧
      (actBasic w a).openPorts = w.openPorts ∧
      (actBasic w a).demoIntervalRef = w.demoIntervalRef := by
  cases a <;> simp [Action.leavesDemoAndSerial] at h <;>
    simp only [actBasic, execBasic, World.dropLink] <;> (try split) <;>
    simp

theorem run_leaves (w : World) (as : List Action)
    (has : as.all Action.leavesDemoAndSerial = true) :
    (run w as).activeIntervals = w.activeIntervals ∧ (run w as).openPorts = w.openPorts ∧
      (run w as).demoIntervalRef = w.demoIntervalRef := by
  refine actsWith_rel
    (fun w w1 =>
      w1.activeIntervals = w.activeIntervals ∧ w1.openPorts = w.openPorts ∧
        w1.demoIntervalRef = w.demoIntervalRef)
    (fun _ => ⟨rfl, rfl, rfl⟩)
    (fun a b c h1 h2 => ⟨h2.1.trans h1.1, h2.2.1.trans h1.2.1, h2.2.2.trans h1.2.2⟩)
    (fun a => a.leavesDemoAndSerial = true) (fun w a h => execBasic_leaves a w h)
    onBleDisconnectedWith ?_ _ w as (by simpa [List.all_eq_true] using has)
  intro runner hr c n w1
  unfold onBleDisconnectedWith
  have h1 := hr w1 (onBleDisconnectedScript c n w1)
    (by simpa [List.all_eq_true] using onBleDisconnectedScript_all c n w1)
  cases hd : c.state.bleDevice with
  | some d => simpa using h1
  | none =>
    have h2 := hr (runner w1 (onBleDisconnectedScript c n w1))
      (handleBleDisconnectCleanupScript c false (runner w1 (onBleDisconnectedScript c n w1)))
      (by simpa [List.all_eq_true] using handleBleDisconnectCleanupScript_all c false _)
    simp only []
    exact ⟨h2.1.trans h1.1, h2.2.1.trans h1.2.1, h2.2.2.trans h1.2.2⟩

theorem handleBleDisconnectCleanup_leaves (c : Snapshot) (informUser : Bool) (w : World) :
    (handleBleDisconnectCleanup c informUser w).activeIntervals = w.activeIntervals ∧
      (handleBleDisconnectCleanup c informUser w).openPorts = w.openPorts ∧
      (handleBleDisconnectCleanup c informUser w).demoIntervalRef = w.demoIntervalRef :=
  run_leaves w _ (handleBleDisconnectCleanupScript_all c informUser w)

/-- No statement of `connectToBle` up to the wait for the GATT server, and none
of its listeners, stops an interval or closes a port. -/
theorem connectToBle_leaves (c : Snapshot) (r : BleRequest) (w : World) :
    (connectToBle c r w).activeIntervals = w.activeIntervals ∧
      (connectToBle c r w).openPorts = w.openPorts ∧
      (connectToBle c r w).demoIntervalRef = w.demoIntervalRef := by
  unfold connectToBle
  by_cases h1 : (!r.supported) = true
  · rw [if_pos h1]; exact run_leaves w _ (by simp [Action.leavesDemoAndSerial])
  · rw [if_neg h1]
    cases hd : r.device with
    | none =>
      have h2 := run_leaves w
        [.toast requestingDeviceToast, .requestDevice none r.name,
          .toast (bluetoothConnectionFailedToast r.message)]
        (by simp [Action.leavesDemoAndSerial])
      have h3 := handleBleDisconnectCleanup_leaves c false
        (run w
          [.toast requestingDeviceToast, .requestDevice none r.name,
            .toast (bluetoothConnectionFailedToast r.message)])
      simp only []
      exact ⟨h3.1.trans h2.1, h3.2.1.trans h2.2.1, h3.2.2.trans h2.2.2⟩
    | some d =>
      have h2 := run_leaves w
        [.toast requestingDeviceToast, .requestDevice (some d) r.name, .setBleDevice (some d),
          .removeLostListener d c.bleId, .addLostListener d c.bleId c,
          .toast (connectingGattToast r.label)]
        (by simp [Action.leavesDemoAndSerial])
      simp only []
      by_cases h4 : (!r.hasGatt) = true
      · rw [if_pos h4]
        have h5 := run_leaves
          (run w
            [.toast requestingDeviceToast, .requestDevice (some d) r.name,
              .setBleDevice (some d), .removeLostListener d c.bleId, .addLostListener d c.bleId c,
              .toast (connectingGattToast r.label)])
          [.toast gattNotFoundToast] (by simp [Action.leavesDemoAndSerial])
        have h6 := handleBleDisconnectCleanup_leaves c false
          (run
            (run w
              [.toast requestingDeviceToast, .requestDevice (some d) r.name,
                .setBleDevice (some d), .removeLostListener d c.bleId, .addLostListener d c.bleId c,
                .toast (connectingGattToast r.label)])
            [.toast gattNotFoundToast])
        exact ⟨h6.1.trans (h5.1.trans h2.1), h6.2.1.trans (h5.2.1.trans h2.2.1),
          h6.2.2.trans (h5.2.2.trans h2.2.2)⟩
      · rw [if_neg h4]; exact h2

/-- Nor does the rest of `connectToBle`, once the GATT server has answered. -/
theorem connectToBleResume_leaves (c : Snapshot) (r : BleRequest) (w : World) :
    (connectToBleResume c r w).activeIntervals = w.activeIntervals ∧
      (connectToBleResume c r w).openPorts = w.openPorts ∧
      (connectToBleResume c r w).demoIntervalRef = w.demoIntervalRef := by
  unfold connectToBleResume
  cases hd : r.device with
  | none => exact ⟨rfl, rfl, rfl⟩
  | some d =>
    simp only []
    split_ifs with h1
    · have h2 := run_leaves w
        (connectTryScript c d r.label r.outcome ++
          [.toast (bluetoothConnectionFailedToast r.message)])
        (by
          rw [List.all_append, connectTryScript_all]
          simp [Action.leavesDemoAndSerial])
      have h3 := handleBleDisconnectCleanup_leaves c false
        (run w
          (connectTryScript c d r.label r.outcome ++
            [.toast (bluetoothConnectionFailedToast r.message)]))
      exact ⟨h3.1.trans h2.1, h3.2.1.trans h2.2.1, h3.2.2.trans h2.2.2⟩
    · exact run_leaves w _ (connectTryScript_all c d r.label r.outcome)

end Closure

/-! ## Toasts and traces of a run -/

namespace Closure

theorem actBasic_toasts_extends (w : World) (a : Action) :
    ∃ shown, (actBasic w a).toasts = w.toasts ++ shown := by
  cases a <;> simp only [actBasic, execBasic, World.dropLink] <;> (try split) <;>
    first
      | exact ⟨[], (List.append_nil _).symm⟩
      | exact ⟨_, rfl⟩

theorem onBleDisconnectedWith_rel (R : World → World → Prop)
    (htrans : ∀ a b c, R a b → R b c → R a c) (runner : World → List Action → World)
    (hr : ∀ w as, R w (runner w as)) (c : Snapshot) (name : String) (w : World) :
    R w (onBleDisconnectedWith runner c name w) := by
  unfold onBleDisconnectedWith
  cases c.state.bleDevice with
  | some d => exact hr _ _
  | none => exact htrans _ _ _ (hr _ _) (hr _ _)

theorem libDraft_onBleDisconnectedWith_rel (R : World → World → Prop)
    (htrans : ∀ a b c, R a b → R b c → R a c) (runner : World → List Action → World)
    (hr : ∀ w as, R w (runner w as)) (c : Snapshot) (name : String) (w : World) :
    R w (LibDraft.onBleDisconnectedWith runner c name w) := by
  unfold LibDraft.onBleDisconnectedWith
  cases c.state.bleDevice with
  | some d => exact hr _ _
  | none => exact htrans _ _ _ (hr _ _) (hr _ _)

/-- A property of pairs of states that every statement keeps is kept by the
dispatch to the listeners of the hook. -/
theorem dispatch_rel (R : World → World → Prop) (hrefl : ∀ w, R w w)
    (htrans : ∀ a b c, R a b → R b c → R a c) (hstep : ∀ w a, R w (actBasic w a))
    (depth d : ℕ) (w : World) :
    R w
      (dispatchWith
        (onBleDisconnectedWith fun w2 bs => actsWith onBleDisconnectedWith depth w2 bs) d w) :=
  dispatchWith_rel R hrefl htrans _
    (fun c n w1 =>
      onBleDisconnectedWith_rel R htrans _
        (fun w2 as =>
          actsWith_rel R hrefl htrans (fun _ => True) (fun w3 a _ => hstep w3 a)
            onBleDisconnectedWith
            (fun runner hr c1 n1 w3 =>
              onBleDisconnectedWith_rel R htrans runner (fun w4 bs => hr w4 bs fun _ _ => trivial)
                c1 n1 w3)
            depth w2 as fun _ _ => trivial)
        c n w1)
    d w

theorem libDraft_dispatch_rel (R : World → World → Prop) (hrefl : ∀ w, R w w)
    (htrans : ∀ a b c, R a b → R b c → R a c) (hstep : ∀ w a, R w (actBasic w a))
    (depth d : ℕ) (w : World) :
    R w
      (dispatchWith
        (LibDraft.onBleDisconnectedWith fun w2 bs =>
          actsWith LibDraft.onBleDisconnectedWith depth w2 bs) d w) :=
  dispatchWith_rel R hrefl htrans _
    (fun c n w1 =>
      libDraft_onBleDisconnectedWith_rel R htrans _
        (fun w2 as =>
          actsWith_rel R hrefl htrans (fun _ => True) (fun w3 a _ => hstep w3 a)
            LibDraft.onBleDisconnectedWith
            (fun runner hr c1 n1 w3 =>
              libDraft_onBleDisconnectedWith_rel R htrans runner
                (fun w4 bs => hr w4 bs fun _ _ => trivial) c1 n1 w3)
            depth w2 as fun _ _ => trivial)
        c n w1)
    d w

theorem run_rel (R : World → World → Prop) (hrefl : ∀ w, R w w)
    (htrans : ∀ a b c, R a b → R b c → R a c) (hstep : ∀ w a, R w (actBasic w a))
    (w : World) (as : List Action) : R w (run w as) :=
  actsWith_rel R hrefl htrans (fun _ => True) (fun w3 a _ => hstep w3 a) onBleDisconnectedWith
    (fun runner hr c1 n1 w3 =>
      onBleDisconnectedWith_rel R htrans runner (fun w4 bs => hr w4 bs fun _ _ => trivial)
        c1 n1 w3)
    _ w as fun _ _ => trivial

theorem run_toasts_extends (w : World) (as : List Action) :
    ∃ shown, (run w as).toasts = w.toasts ++ shown :=
  run_rel (fun w w1 => ∃ shown, w1.toasts = w.toasts ++ shown)
    (fun _ => ⟨[], (List.append_nil _).symm⟩)
    (fun a b c h1 h2 => by
      obtain ⟨s1, e1⟩ := h1
      obtain ⟨s2, e2⟩ := h2
      exact ⟨s1 ++ s2, by rw [e2, e1, List.append_assoc]⟩)
    actBasic_toasts_extends w as

/-- A run that ends with a toast shows it last. -/
theorem run_append_toast (w : World) (as : List Action) (t : Toast) :
    ∃ shown, (run w (as ++ [.toast t])).toasts = w.toasts ++ shown ++ [t] := by
  obtain ⟨shown, h⟩ := run_toasts_extends w as
  refine ⟨shown, ?_⟩
  unfold run at h ⊢
  rw [actsWith_append,
    actsWith_of_plain _ _ _ [.toast t] (by simp), ← h]
  rfl

theorem handleBleDisconnectCleanupScript_informUser (c : Snapshot) (w : World) :
    handleBleDisconnectCleanupScript c true w =
      handleBleDisconnectCleanupScript c false w ++ [.toast bluetoothDisconnectedToast] := by
  simp [handleBleDisconnectCleanupScript]

theorem handleSerialDisconnectCleanupScript_informUser (c : Snapshot) :
    handleSerialDisconnectCleanupScript c true =
      handleSerialDisconnectCleanupScript c false ++ [.toast serialDisconnectedToast] := by
  simp [handleSerialDisconnectCleanupScript]

/-- Every call of the `disconnect` of a render whose method is BLE ends with the
toast of the BLE teardown. -/
theorem disconnect_ble_toasts (c : Snapshot) (w : World)
    (h : c.state.connectionMethod = some .ble) :
    ∃ shown, (disconnect c w).toasts = w.toasts ++ shown ++ [bluetoothDisconnectedToast] := by
  obtain ⟨s1, h1⟩ := run_toasts_extends w [.setIsReading false]
  obtain ⟨s2, h2⟩ := run_append_toast (run w [.setIsReading false])
    (handleBleDisconnectCleanupScript c false (run w [.setIsReading false]))
    bluetoothDisconnectedToast
  refine ⟨s1 ++ s2, ?_⟩
  have e : disconnect c w =
      run (run w [.setIsReading false])
        (handleBleDisconnectCleanupScript c true (run w [.setIsReading false])) := by
    simp [disconnect, h, disconnectBle, handleBleDisconnectCleanup]
  rw [e, handleBleDisconnectCleanupScript_informUser, h2, h1]
  simp

/-- Every call of the `disconnect` of a render whose method is serial and that
holds a port ends with the toast of the serial teardown. -/
theorem disconnect_serial_toasts (c : Snapshot) (w : World)
    (h : c.state.connectionMethod = some .serial) (hp : c.state.serialPort ≠ none) :
    ∃ shown, (disconnect c w).toasts = w.toasts ++ shown ++ [serialDisconnectedToast] := by
  obtain ⟨s1, h1⟩ := run_toasts_extends w [.setIsReading false]
  obtain ⟨s2, h2⟩ := run_append_toast (run w [.setIsReading false])
    (handleSerialDisconnectCleanupScript c false) serialDisconnectedToast
  refine ⟨s1 ++ s2, ?_⟩
  have e : disconnect c w =
      run (run w [.setIsReading false]) (handleSerialDisconnectCleanupScript c true) := by
    simp [disconnect, h, hp, handleSerialDisconnectCleanup]
  rw [e, handleSerialDisconnectCleanupScript_informUser, h2, h1]
  simp

end Closure

/-! ## The statements of a BLE teardown -/

namespace Closure

theorem run_plain_trace (w : World) (as : List Action)
    (h : ∀ a ∈ as, ∀ d, a ≠ .gattDisconnect d) : (run w as).trace = w.trace ++ as := by
  unfold run
  rw [actsWith_of_plain _ _ _ _ h, foldl_actBasic_trace]

theorem libDraft_run_plain_trace (w : World) (as : List Action)
    (h : ∀ a ∈ as, ∀ d, a ≠ .gattDisconnect d) : (LibDraft.run w as).trace = w.trace ++ as := by
  unfold LibDraft.run
  rw [actsWith_of_plain _ _ _ _ h, foldl_actBasic_trace]

theorem trace_extends_refl (w : World) : ∃ t, w.trace = w.trace ++ t :=
  ⟨[], (List.append_nil _).symm⟩

theorem trace_extends_trans (a b c : World) (h1 : ∃ t, b.trace = a.trace ++ t)
    (h2 : ∃ t, c.trace = b.trace ++ t) : ∃ t, c.trace = a.trace ++ t := by
  obtain ⟨s1, e1⟩ := h1
  obtain ⟨s2, e2⟩ := h2
  exact ⟨s1 ++ s2, by rw [e2, e1, List.append_assoc]⟩

/-- The trace of a run in which `gatt.disconnect()` is called once, on a
connected device: the statements before, the call, the statements of the
listeners, the statements after; without a listener on the device nothing
comes in between. -/
theorem actsWith_split_trace
    (listener : (World → List Action → World) → Snapshot → String → World → World)
    (hl : ∀ depth d w, ∃ t,
      (dispatchWith (listener fun w2 bs => actsWith listener depth w2 bs) d w).trace =
        w.trace ++ t)
    (w : World) (before after : List Action) (d : ℕ)
    (hbefore : ∀ a ∈ before, ∀ x, a ≠ .gattDisconnect x)
    (hafter : ∀ a ∈ after, ∀ x, a ≠ .gattDisconnect x)
    (hw : d ∈ w.connectedDevices)
    (hd : d ∈ (before.foldl actBasic w).connectedDevices) :
    ∃ nested,
      (actsWith listener w.connectedDevices.length w
          (before ++ .gattDisconnect d :: after)).trace =
        w.trace ++ before ++ [.gattDisconnect d] ++ nested ++ after ∧
      (((before.foldl actBasic w).lostListeners.filter fun l => l.1 = d) = [] →
        nested = []) := by
  obtain ⟨n, hn⟩ : ∃ n, w.connectedDevices.length = n + 1 :=
    Nat.exists_eq_succ_of_ne_zero (by
      intro h0
      rw [List.length_eq_zero] at h0
      rw [h0] at hw
      exact absurd hw (List.not_mem_nil d))
  rw [hn, actsWith_split listener n w before after d hbefore hafter hd, foldl_actBasic_trace]
  obtain ⟨t, ht⟩ := hl n d (actBasic (before.foldl actBasic w) (.gattDisconnect d))
  refine ⟨t, ?_, ?_⟩
  · rw [ht, actBasic_trace, foldl_actBasic_trace]
  · intro hnone
    have e : dispatchWith (listener fun w2 bs => actsWith listener n w2 bs) d
        (actBasic (before.foldl actBasic w) (.gattDisconnect d)) =
        actBasic (before.foldl actBasic w) (.gattDisconnect d) := by
      unfold dispatchWith
      have e1 : (actBasic (before.foldl actBasic w) (.gattDisconnect d)).lostListeners =
          (before.foldl actBasic w).lostListeners := rfl
      rw [e1, hnone]
      rfl
    rw [e] at ht
    exact List.self_eq_append_right.mp ht

theorem run_split_trace (w : World) (before after : List Action) (d : ℕ)
    (hbefore : ∀ a ∈ before, ∀ x, a ≠ .gattDisconnect x)
    (hafter : ∀ a ∈ after, ∀ x, a ≠ .gattDisconnect x)
    (hw : d ∈ w.connectedDevices)
    (hd : d ∈ (before.foldl actBasic w).connectedDevices) :
    ∃ nested,
      (run w (before ++ .gattDisconnect d :: after)).trace =
        w.trace ++ before ++ [.gattDisconnect d] ++ nested ++ after ∧
      (((before.foldl actBasic w).lostListeners.filter fun l => l.1 = d) = [] →
        nested = []) :=
  actsWith_split_trace onBleDisconnectedWith
    (fun depth d1 w1 =>
      dispatch_rel (fun w w1 => ∃ t, w1.trace = w.trace ++ t) trace_extends_refl
        trace_extends_trans (fun _ a => ⟨[a], rfl⟩) depth d1 w1)
    w before after d hbefore hafter hw hd

theorem libDraft_run_split_trace (w : World) (before after : List Action) (d : ℕ)
    (hbefore : ∀ a ∈ before, ∀ x, a ≠ .gattDisconnect x)
    (hafter : ∀ a ∈ after, ∀ x, a ≠ .gattDisconnect x)
    (hw : d ∈ w.connectedDevices)
    (hd : d ∈ (before.foldl actBasic w).connectedDevices) :
    ∃ nested,
      (LibDraft.run w (before ++ .gattDisconnect d :: after)).trace =
        w.trace ++ before ++ [.gattDisconnect d] ++ nested ++ after ∧
      (((before.foldl actBasic w).lostListeners.filter fun l => l.1 = d) = [] →
        nested = []) :=
  actsWith_split_trace LibDraft.onBleDisconnectedWith
    (fun depth d1 w1 =>
      libDraft_dispatch_rel (fun w w1 => ∃ t, w1.trace = w.trace ++ t) trace_extends_refl
        trace_extends_trans (fun _ a => ⟨[a], rfl⟩) depth d1 w1)
    w before after d hbefore hafter hw hd

theorem cleanupTail_plain (informUser : Bool) :
    ∀ a ∈ cleanupTail informUser, ∀ d, a ≠ .gattDisconnect d := by
  cases informUser <;> simp [cleanupTail]

theorem libDraft_cleanupTail_plain :
    ∀ a ∈ LibDraft.cleanupTail, ∀ d, a ≠ .gattDisconnect d := by
  simp [LibDraft.cleanupTail]

theorem script_no_device (c : Snapshot) (informUser : Bool) (w : World)
    (h : c.state.bleDevice = none) :
    handleBleDisconnectCleanupScript c informUser w =
      [.setBleTxCharacteristicRef none, .setBleServerRef none] ++ cleanupTail informUser := by
  unfold handleBleDisconnectCleanupScript cleanupTail handleConnectionChange gattConnected
  rw [h]
  cases w.bleTxCharacteristicRef <;> simp

theorem script_not_connected (c : Snapshot) (informUser : Bool) (w : World) (d : ℕ)
    (h : c.state.bleDevice = some d) (hd : d ∉ w.connectedDevices) :
    handleBleDisconnectCleanupScript c informUser w =
      [.setBleTxCharacteristicRef none, .setBleServerRef none, .removeLostListener d c.bleId] ++
        cleanupTail informUser := by
  unfold handleBleDisconnectCleanupScript cleanupTail handleConnectionChange gattConnected
  rw [h]
  cases w.bleTxCharacteristicRef <;> simp [hd]

theorem script_connected (c : Snapshot) (informUser : Bool) (w : World) (d ch : ℕ)
    (h : c.state.bleDevice = some d) (hd : d ∈ w.connectedDevices)
    (hc : w.bleTxCharacteristicRef = some ch) :
    handleBleDisconnectCleanupScript c informUser w =
      [.setBleTxCharacteristicRef none, .setBleServerRef none,
          .removeValueListener ch c.valueHandlerId, .stopNotifications ch,
          .removeLostListener d c.bleId] ++
        .gattDisconnect d :: cleanupTail informUser := by
  unfold handleBleDisconnectCleanupScript cleanupTail handleConnectionChange gattConnected
  rw [h, hc]
  simp [hd]

theorem script_connected_no_characteristic (c : Snapshot) (informUser : Bool) (w : World)
    (d : ℕ) (h : c.state.bleDevice = some d) (hd : d ∈ w.connectedDevices)
    (hc : w.bleTxCharacteristicRef = none) :
    handleBleDisconnectCleanupScript c informUser w =
      [.setBleTxCharacteristicRef none, .setBleServerRef none, .removeLostListener d c.bleId] ++
        .gattDisconnect d :: cleanupTail informUser := by
  unfold handleBleDisconnectCleanupScript cleanupTail handleConnectionChange gattConnected
  rw [h, hc]
  simp [hd]

theorem libDraft_script_no_device (c : Snapshot) (w : World) (h : c.state.bleDevice = none) :
    LibDraft.handleBleDisconnectCleanupScript c w =
      [.setBleTxCharacteristicRef none, .setBleServerRef none, .setBleDevice none] ++
        (w.bleTxCharacteristicRef.toList.map fun ch => Action.removeValueListener ch c.render) ++
        LibDraft.cleanupTail := by
  unfold LibDraft.handleBleDisconnectCleanupScript LibDraft.cleanupTail gattConnected
  rw [h]
  cases w.bleTxCharacteristicRef <;> simp

theorem libDraft_script_not_connected (c : Snapshot) (w : World) (d : ℕ)
    (h : c.state.bleDevice = some d) (hd : d ∉ w.connectedDevices) :
    LibDraft.handleBleDisconnectCleanupScript c w =
      [.setBleTxCharacteristicRef none, .setBleServerRef none, .setBleDevice none] ++
        (w.bleTxCharacteristicRef.toList.map fun ch => Action.removeValueListener ch c.render) ++
        [.removeLostListener d c.render] ++ LibDraft.cleanupTail := by
  unfold LibDraft.handleBleDisconnectCleanupScript LibDraft.cleanupTail gattConnected
  rw [h]
  cases w.bleTxCharacteristicRef <;> simp [hd]

theorem libDraft_script_connected (c : Snapshot) (w : World) (d ch : ℕ)
    (h : c.state.bleDevice = some d) (hd : d ∈ w.connectedDevices)
    (hc : w.bleTxCharacteristicRef = some ch) :
    LibDraft.handleBleDisconnectCleanupScript c w =
      [.setBleTxCharacteristicRef none, .setBleServerRef none, .setBleDevice none,
          .removeValueListener ch c.render, .stopNotifications ch,
          .removeLostListener d c.render] ++
        .gattDisconnect d :: LibDraft.cleanupTail := by
  unfold LibDraft.handleBleDisconnectCleanupScript LibDraft.cleanupTail gattConnected
  rw [h, hc]
  simp [hd]

theorem libDraft_script_connected_no_characteristic (c : Snapshot) (w : World) (d : ℕ)
    (h : c.state.bleDevice = some d) (hd : d ∈ w.connectedDevices)
    (hc : w.bleTxCharacteristicRef = none) :
    LibDraft.handleBleDisconnectCleanupScript c w =
      [.setBleTxCharacteristicRef none, .setBleServerRef none, .setBleDevice none,
          .removeLostListener d c.render] ++
        .gattDisconnect d :: LibDraft.cleanupTail := by
  unfold LibDraft.handleBleDisconnectCleanupScript LibDraft.cleanupTail gattConnected
  rw [h, hc]
  simp [hd]

end Closure

/-! ## The order of a BLE teardown, with the functions of a render -/

namespace Closure

/-- C18, as stated, fails.  On the page connected by the Connect button, the
teardown of the latest render releases the two refs first and calls
`removeEventListener` for the value handler before `stopNotifications`; its
last statements release the device handle and report `Disconnected` before
they reset the counter.  Its `removeEventListener` for
`gattserverdisconnected` is given the function of render 1, the registered
one is that of render 0: the listener is still registered after the
teardown. -/
theorem teardown_order_counterexample :
    (stepsSince connectedWorld
        (handleBleDisconnectCleanup connectedWorld.rendered true connectedWorld)).take 6 =
      [.setBleTxCharacteristicRef none, .setBleServerRef none, .removeValueListener 9 0,
        .stopNotifications 9, .removeLostListener 7 1, .gattDisconnect 7] ∧
    (stepsSince connectedWorld
        (handleBleDisconnectCleanup connectedWorld.rendered true connectedWorld)).reverse.take 6 =
      [.toast bluetoothDisconnectedToast, .setReconnectAttempts 0, .setIsReading false,
        .setConnectionMethod none, .setIsConnected false, .setBleDevice none] ∧
    connectedWorld.lostListeners = [(7, 0, Snapshot.initial)] ∧
    (handleBleDisconnectCleanup connectedWorld.rendered true connectedWorld).lostListeners =
      [(7, 0, Snapshot.initial)] := by
  decide

/-- C18, amended.  The statements `handleBleDisconnectCleanup` of a render adds
to the trace, in every state.  Hook: the two refs are released; if the device
of the render is connected and a characteristic was held, `removeEventListener`
is called for the value handler of the render and notifications are stopped;
if the render holds a device, `removeEventListener` is called for the
connection-lost handler of the render and, if the device is connected,
`gatt.disconnect()`, inside which the listeners still registered run; then the
device handle is released, `Disconnected` is reported, the counter is reset and
the user is told if asked for.  Lib draft: the three handles are released
first; `removeEventListener` is called for the value handler whenever a
characteristic was held; the rest is in the same order, without a toast.
Nothing runs inside `gatt.disconnect()` when every listener on the device is
the one of the render. -/
theorem teardown_statement_order (c : Snapshot) (informUser : Bool) (w : World) :
    ((c.state.bleDevice = none →
        (handleBleDisconnectCleanup c informUser w).trace =
          w.trace ++ [.setBleTxCharacteristicRef none, .setBleServerRef none] ++
            cleanupTail informUser) ∧
      (∀ d, c.state.bleDevice = some d → d ∉ w.connectedDevices →
        (handleBleDisconnectCleanup c informUser w).trace =
          w.trace ++
            [.setBleTxCharacteristicRef none, .setBleServerRef none,
              .removeLostListener d c.bleId] ++
            cleanupTail informUser) ∧
      (∀ d ch, c.state.bleDevice = some d → d ∈ w.connectedDevices →
        w.bleTxCharacteristicRef = some ch →
        ∃ nested,
          (handleBleDisconnectCleanup c informUser w).trace =
            w.trace ++
              [.setBleTxCharacteristicRef none, .setBleServerRef none,
                .removeValueListener ch c.valueHandlerId, .stopNotifications ch,
                .removeLostListener d c.bleId, .gattDisconnect d] ++
              nested ++ cleanupTail informUser ∧
          ((∀ l ∈ w.lostListeners, l.1 = d → l.2.1 = c.bleId) → nested = [])) ∧
      (∀ d, c.state.bleDevice = some d → d ∈ w.connectedDevices →
        w.bleTxCharacteristicRef = none →
        ∃ nested,
          (handleBleDisconnectCleanup c informUser w).trace =
            w.trace ++
              [.setBleTxCharacteristicRef none, .setBleServerRef none,
                .removeLostListener d c.bleId, .gattDisconnect d] ++
              nested ++ cleanupTail informUser ∧
          ((∀ l ∈ w.lostListeners, l.1 = d → l.2.1 = c.bleId) → nested = []))) ∧
    ((c.state.bleDevice = none →
        (LibDraft.handleBleDisconnectCleanup c w).trace =
          w.trace ++
            [.setBleTxCharacteristicRef none, .setBleServerRef none, .setBleDevice none] ++
            (w.bleTxCharacteristicRef.toList.map fun ch =>
              Action.removeValueListener ch c.render) ++
            LibDraft.cleanupTail) ∧
      (∀ d, c.state.bleDevice = some d → d ∉ w.connectedDevices →
        (LibDraft.handleBleDisconnectCleanup c w).trace =
          w.trace ++
            [.setBleTxCharacteristicRef none, .setBleServerRef none, .setBleDevice none] ++
            (w.bleTxCharacteristicRef.toList.map fun ch =>
              Action.removeValueListener ch c.render) ++
            [.removeLostListener d c.render] ++ LibDraft.cleanupTail) ∧
      (∀ d ch, c.state.bleDevice = some d → d ∈ w.connectedDevices →
        w.bleTxCharacteristicRef = some ch →
        ∃ nested,
          (LibDraft.handleBleDisconnectCleanup c w).trace =
            w.trace ++
              [.setBleTxCharacteristicRef none, .setBleServerRef none, .setBleDevice none,
                .removeValueListener ch c.render, .stopNotifications ch,
                .removeLostListener d c.render, .gattDisconnect d] ++
              nested ++ LibDraft.cleanupTail ∧
          ((∀ l ∈ w.lostListeners, l.1 = d → l.2.1 = c.render) → nested = [])) ∧
      (∀ d, c.state.bleDevice = some d → d ∈ w.connectedDevices →
        w.bleTxCharacteristicRef = none →
        ∃ nested,
          (LibDraft.handleBleDisconnectCleanup c w).trace =
            w.trace ++
              [.setBleTxCharacteristicRef none, .setBleServerRef none, .setBleDevice none,
                .removeLostListener d c.render, .gattDisconnect d] ++
              nested ++ LibDraft.cleanupTail ∧
          ((∀ l ∈ w.lostListeners, l.1 = d → l.2.1 = c.render) → nested = []))) := by
  refine ⟨⟨?_, ?_, ?_, ?_⟩, ⟨?_, ?_, ?_, ?_⟩⟩
  · intro h
    unfold handleBleDisconnectCleanup
    rw [script_no_device c informUser w h, run_plain_trace, List.append_assoc]
    intro a ha
    rcases List.mem_append.mp ha with h1 | h1
    · simp at h1; rcases h1 with rfl | rfl <;> simp
    · exact cleanupTail_plain informUser a h1
  · intro d h hd
    unfold handleBleDisconnectCleanup
    rw [script_not_connected c informUser w d h hd, run_plain_trace, List.append_assoc]
    intro a ha
    rcases List.mem_append.mp ha with h1 | h1
    · simp at h1; rcases h1 with rfl | rfl | rfl <;> simp
    · exact cleanupTail_plain informUser a h1
  · intro d ch h hd hc
    unfold handleBleDisconnectCleanup
    rw [script_connected c informUser w d ch h hd hc]
    obtain ⟨nested, h1, h2⟩ := run_split_trace w
      [.setBleTxCharacteristicRef none, .setBleServerRef none,
        .removeValueListener ch c.valueHandlerId, .stopNotifications ch,
        .removeLostListener d c.bleId]
      (cleanupTail informUser) d (by simp) (cleanupTail_plain informUser) hd
      (by simpa [actBasic, execBasic] using hd)
    refine ⟨nested, ?_, ?_⟩
    · rw [h1]; simp
    · intro hl
      apply h2
      simp only [List.foldl_cons, List.foldl_nil, actBasic, execBasic]
      rw [List.filter_filter, List.filter_eq_nil_iff]
      intro l hmem
      have := hl l hmem
      simp
      tauto
  · intro d h hd hc
    unfold handleBleDisconnectCleanup
    rw [script_connected_no_characteristic c informUser w d h hd hc]
    obtain ⟨nested, h1, h2⟩ := run_split_trace w
      [.setBleTxCharacteristicRef none, .setBleServerRef none, .removeLostListener d c.bleId]
      (cleanupTail informUser) d (by simp) (cleanupTail_plain informUser) hd
      (by simpa [actBasic, execBasic] using hd)
    refine ⟨nested, ?_, ?_⟩
    · rw [h1]; simp
    · intro hl
      apply h2
      simp only [List.foldl_cons, List.foldl_nil, actBasic, execBasic]
      rw [List.filter_filter, List.filter_eq_nil_iff]
      intro l hmem
      have := hl l hmem
      simp
      tauto
  · intro h
    unfold LibDraft.handleBleDisconnectCleanup
    rw [libDraft_script_no_device c w h, libDraft_run_plain_trace]
    · simp
    · cases w.bleTxCharacteristicRef <;> simp [LibDraft.cleanupTail]
  · intro d h hd
    unfold LibDraft.handleBleDisconnectCleanup
    rw [libDraft_script_not_connected c w d h hd, libDraft_run_plain_trace]
    · simp
    · cases w.bleTxCharacteristicRef <;> simp [LibDraft.cleanupTail]
  · intro d ch h hd hc
    unfold LibDraft.handleBleDisconnectCleanup
    rw [libDraft_script_connected c w d ch h hd hc]
    obtain ⟨nested, h1, h2⟩ := libDraft_run_split_trace w
      [.setBleTxCharacteristicRef none, .setBleServerRef none, .setBleDevice none,
        .removeValueListener ch c.render, .stopNotifications ch,
        .removeLostListener d c.render]
      LibDraft.cleanupTail d (by simp) libDraft_cleanupTail_plain hd
      (by simpa [actBasic, execBasic] using hd)
    refine ⟨nested, ?_, ?_⟩
    · rw [h1]; simp
    · intro hl
      apply h2
      simp only [List.foldl_cons, List.foldl_nil, actBasic, execBasic]
      rw [List.filter_filter, List.filter_eq_nil_iff]
      intro l hmem
      have := hl l hmem
      simp
      tauto
  · intro d h hd hc
    unfold LibDraft.handleBleDisconnectCleanup
    rw [libDraft_script_connected_no_characteristic c w d h hd hc]
    obtain ⟨nested, h1, h2⟩ := libDraft_run_split_trace w
      [.setBleTxCharacteristicRef none, .setBleServerRef none, .setBleDevice none,
        .removeLostListener d c.render]
      LibDraft.cleanupTail d (by simp) libDraft_cleanupTail_plain hd
      (by simpa [actBasic, execBasic] using hd)
    refine ⟨nested, ?_, ?_⟩
    · rw [h1]; simp
    · intro hl
      apply h2
      simp only [List.foldl_cons, List.foldl_nil, actBasic, execBasic]
      rw [List.filter_filter, List.filter_eq_nil_iff]
      intro l hmem
      have := hl l hmem
      simp
      tauto

/-- C18, witness: the teardown of the latest render on the page connected by
the Connect button, where device 7 is connected and characteristic 9 held. -/
theorem teardown_statement_order_witness :
    connectedWorld.rendered.state.bleDevice = some 7 ∧ 7 ∈ connectedWorld.connectedDevices ∧
      connectedWorld.bleTxCharacteristicRef = some 9 ∧
      ∃ nested,
        (handleBleDisconnectCleanup connectedWorld.rendered true connectedWorld).trace =
          connectedWorld.trace ++
            [.setBleTxCharacteristicRef none, .setBleServerRef none,
              .removeValueListener 9 connectedWorld.rendered.valueHandlerId,
              .stopNotifications 9, .removeLostListener 7 connectedWorld.rendered.bleId,
              .gattDisconnect 7] ++
            nested ++ cleanupTail true :=
  ⟨by decide, by decide, by decide,
    ((teardown_statement_order connectedWorld.rendered true connectedWorld).1.2.2.1 7 9
      (by decide) (by decide) (by decide)).imp fun _ h => h.1⟩

/-! ## A link that drops -/

theorem runEvents_timerFires_of_no_timers (w : World) (h : w.timers = [])
    (outcomes : List BleOutcome) : runEvents w (outcomes.map Event.timerFires) = w := by
  induction outcomes with
  | nil => rfl
  | cons o os ih =>
    have e : step w (.timerFires o) = w := by simp [step, Event.enabled, h]
    rw [List.map_cons, runEvents, List.foldl_cons, e]
    exact ih

/-- C12, the run that fails.  On the page connected by the Connect button the
state holds device 7, but the listener of `gattserverdisconnected` is the
function of render 0, in which `bleDevice` is null.  When the link drops, that
function takes its branch without a device: the step arms no timer and calls
`gatt.connect()` not once, the page is left in the initial state with the
counter at 0, and whatever the platform would answer, no timer fires. -/
theorem link_loss_makes_no_reconnect_attempt :
    connectedWorld.state.isConnected = true ∧
    connectedWorld.state.connectionMethod = some .ble ∧
    connectedWorld.state.bleDevice = some 7 ∧
    connectedWorld.lostListeners = [(7, 0, Snapshot.initial)] ∧
    Snapshot.initial.state.bleDevice = none ∧
    (Event.linkLost 7).enabled connectedWorld = true ∧
    lostWorld.timers = [] ∧
    (stepsSince connectedWorld lostWorld).any Action.isGattConnect = false ∧
    lostWorld.state = ReactState.initial ∧
    lostWorld.reconnectAttemptsRef = 0 ∧
    ∀ outcomes : List BleOutcome,
      runEvents lostWorld (outcomes.map Event.timerFires) = lostWorld :=
  ⟨by decide, by decide, by decide, by decide, by decide, by decide, by decide, by decide,
    by decide, by decide, runEvents_timerFires_of_no_timers lostWorld (by decide)⟩

/-- When Connect Bluetooth has been clicked twice before the server answered,
the listener of the second click belongs to a render that holds the device:
after the loss, four firings of the timer make three attempts and the fourth
gives up, with no timer left. -/
theorem second_click_listener_reconnects :
    allEnabled World.initial
        (twoClicksThenLoss ++
          [.timerFires .connectFails, .timerFires .connectFails, .timerFires .connectFails,
            .timerFires .connectFails]) = true ∧
    ((stepsSince (runEvents World.initial twoClicksThenLoss)
        (runEvents World.initial
          (twoClicksThenLoss ++
            [.timerFires .connectFails, .timerFires .connectFails, .timerFires .connectFails,
              .timerFires .connectFails]))).filter Action.isGattConnect).length = 3 ∧
    (runEvents World.initial
        (twoClicksThenLoss ++
          [.timerFires .connectFails, .timerFires .connectFails, .timerFires .connectFails,
            .timerFires .connectFails])).timers = [] := by
  decide

/-- C13, the runs that fail.  After the loss on the page connected by the
Connect button no timer is pending: whatever the platform would answer to an
attempt, none is made and the page stays disconnected.  On the page where the
button was clicked twice a timer is pending after the loss; its first attempt
fails and its second succeeds: the counter is 0, no timer is left and the page
is connected over BLE, but `isReading` is false, since the change of
`connectionMethod` replaces `disconnect` and the effect calls the previous
one, which starts with `setIsReading(false)`. -/
theorem reconnect_does_not_resume_reading :
    lostWorld.timers = [] ∧
    (∀ outcomes : List BleOutcome,
      (runEvents lostWorld (outcomes.map Event.timerFires)).state.isConnected = false ∧
        (runEvents lostWorld (outcomes.map Event.timerFires)).state.isReading = false) ∧
    allEnabled World.initial
        (twoClicksThenLoss ++ [.timerFires .connectFails, .timerFires (.ok 8 9)]) = true ∧
    (runEvents World.initial
        (twoClicksThenLoss ++
          [.timerFires .connectFails, .timerFires (.ok 8 9)])).reconnectAttemptsRef = 0 ∧
    (runEvents World.initial
        (twoClicksThenLoss ++ [.timerFires .connectFails, .timerFires (.ok 8 9)])).timers = [] ∧
    (runEvents World.initial
        (twoClicksThenLoss ++
          [.timerFires .connectFails, .timerFires (.ok 8 9)])).state.isConnected = true ∧
    (runEvents World.initial
        (twoClicksThenLoss ++
          [.timerFires .connectFails, .timerFires (.ok 8 9)])).state.connectionMethod =
      some .ble ∧
    (runEvents World.initial
        (twoClicksThenLoss ++
          [.timerFires .connectFails, .timerFires (.ok 8 9)])).state.isReading = false := by
  refine ⟨by decide, ?_, by decide, by decide, by decide, by decide, by decide, by decide⟩
  intro outcomes
  rw [runEvents_timerFires_of_no_timers lostWorld (by decide)]
  exact ⟨by decide, by decide⟩

/-! ## A click on Disconnect -/

/-- C17, the run that fails.  On the page connected by the Connect button a
click on Disconnect runs the teardown of the latest render.  It calls
`removeEventListener` for the connection-lost handler of render 1 and then
`gatt.disconnect()`; the registered listener is the function of render 0, so
it is still registered when the GATT connection is closed, and it runs: the
click shows its toast that the connection is lost and a reconnect is
attempted, and the toast of the teardown twice.  The listener is registered
after the click as before; no timer is armed, because render 0 holds no
device. -/
theorem disconnect_click_keeps_lost_listener :
    Event.clickDisconnect.enabled connectedWorld = true ∧
    connectedWorld.lostListeners = [(7, 0, Snapshot.initial)] ∧
    connectedWorld.rendered.bleId = 1 ∧
    (stepsSince connectedWorld disconnectedWorld).take 7 =
      [.setIsReading false, .setBleTxCharacteristicRef none, .setBleServerRef none,
        .removeValueListener 9 0, .stopNotifications 9, .removeLostListener 7 1,
        .gattDisconnect 7] ∧
    connectionLostToast "PotUART" ∈ toastsSince connectedWorld disconnectedWorld ∧
    (toastsSince connectedWorld disconnectedWorld).count bluetoothDisconnectedToast = 2 ∧
    (toastsSince connectedWorld disconnectedWorld).length = 3 ∧
    disconnectedWorld.lostListeners = [(7, 0, Snapshot.initial)] ∧
    disconnectedWorld.timers = [] := by
  decide

/-! ## Disconnecting twice, with the functions of a render -/

/-- C16, the calls that fail.  A second call of the `disconnect` of a render
whose method is BLE, or whose method is serial with a port, ends with the
toast of the teardown like the first, in every state.  The page makes that
second call itself: after a click on Disconnect the state has changed,
`disconnect` is replaced, and the effect calls the function the click has
called.  One click on the BLE page shows the toast of the teardown twice, and
the toast of the lost connection; one click on the serial page shows its toast
twice; only the demo branch, which tests a ref, shows its toast once. -/
theorem disconnect_twice_repeats_toast (c : Snapshot) (w : World) :
    (c.state.connectionMethod = some .ble →
      ∃ shown,
        (disconnect c (disconnect c w)).toasts =
          (disconnect c w).toasts ++ shown ++ [bluetoothDisconnectedToast]) ∧
    (c.state.connectionMethod = some .serial → c.state.serialPort ≠ none →
      ∃ shown,
        (disconnect c (disconnect c w)).toasts =
          (disconnect c w).toasts ++ shown ++ [serialDisconnectedToast]) ∧
    (toastsSince connectedWorld (step connectedWorld .clickDisconnect)).count
        bluetoothDisconnectedToast = 2 ∧
    toastsSince serialWorld (step serialWorld .clickDisconnect) =
      [serialDisconnectedToast, serialDisconnectedToast] ∧
    toastsSince demoWorld (step demoWorld .clickDisconnect) = [demoDisconnectedToast] :=
  ⟨fun h => disconnect_ble_toasts c (disconnect c w) h,
    fun h hp => disconnect_serial_toasts c (disconnect c w) h hp, by decide, by decide,
    by decide⟩

/-- C16, witness: the two calls on the page connected by the Connect button,
with the function of its latest render. -/
theorem disconnect_twice_repeats_toast_witness :
    connectedWorld.rendered.state.connectionMethod = some .ble ∧
      ∃ shown,
        (disconnect connectedWorld.rendered
            (disconnect connectedWorld.rendered connectedWorld)).toasts =
          (disconnect connectedWorld.rendered connectedWorld).toasts ++ shown ++
            [bluetoothDisconnectedToast] :=
  ⟨by decide,
    (disconnect_twice_repeats_toast connectedWorld.rendered connectedWorld).1 (by decide)⟩

/-! ## One adapter at a time, with the functions of a render -/

/-- C14, the run that fails.  No statement of `connectToBle`, in any render and
state, stops an interval or closes a port: it never runs `disconnect`.  On a
fresh page Connect Bluetooth is clicked and device 7 chosen; while the GATT
server has not answered the page still shows the three connect buttons, and
Start Demo is clicked; then the server answers.  The page offers each of these
events.  When the rest of `connectToBle` has run, the demo interval runs and
characteristic 9 notifies the registered listener: two adapters are active.
The renders that follow call the previous `disconnect` from the effect twice,
which stops the demo and then the BLE connection: the page ends disconnected,
with no adapter. -/
theorem connectToBle_starts_beside_demo :
    (∀ (c : Snapshot) (r : BleRequest) (w : World),
      (connectToBle c r w).activeIntervals = w.activeIntervals ∧
        (connectToBle c r w).openPorts = w.openPorts ∧
        (connectToBleResume c r w).activeIntervals = w.activeIntervals ∧
        (connectToBleResume c r w).openPorts = w.openPorts) ∧
    allEnabled World.initial
        [.clickConnectBle goodBleRequest, .clickStartDemo 1, .gattAnswers] = true ∧
    demoBesideBle.rendered.state.isConnected = true ∧
    demoActive demoBesideBle = true ∧ bleActive demoBesideBle = false ∧
    demoActive (handle .gattAnswers demoBesideBle) = true ∧
    bleActive (handle .gattAnswers demoBesideBle) = true ∧
    activeAdapters (handle .gattAnswers demoBesideBle) = 2 ∧
    activeAdapters (step demoBesideBle .gattAnswers) = 0 ∧
    (step demoBesideBle .gattAnswers).state.isConnected = false :=
  ⟨fun c r w =>
      ⟨(connectToBle_leaves c r w).1, (connectToBle_leaves c r w).2.1,
        (connectToBleResume_leaves c r w).1, (connectToBleResume_leaves c r w).2.1⟩,
    by decide, by decide, by decide, by decide, by decide, by decide, by decide, by decide,
    by decide⟩

/-! ## The runs of the page used above -/

/-- In each run used above the page offers every event when its turn comes,
and after every event the renders catch up with the state within the bound of
`settle`. -/
theorem sample_runs_offered_and_settled :
    allEnabled World.initial
        [.clickConnectBle goodBleRequest, .gattAnswers, .linkLost 7] = true ∧
    settledAlong World.initial
        [.clickConnectBle goodBleRequest, .gattAnswers, .linkLost 7] = true ∧
    allEnabled World.initial
        [.clickConnectBle goodBleRequest, .gattAnswers, .clickDisconnect] = true ∧
    settledAlong World.initial
        [.clickConnectBle goodBleRequest, .gattAnswers, .clickDisconnect] = true ∧
    allEnabled World.initial [.clickConnectSerial goodSerialRequest, .clickDisconnect] = true ∧
    settledAlong World.initial [.clickConnectSerial goodSerialRequest, .clickDisconnect] = true ∧
    allEnabled World.initial [.clickStartDemo 1, .clickDisconnect] = true ∧
    settledAlong World.initial [.clickStartDemo 1, .clickDisconnect] = true ∧
    settledAlong World.initial
        [.clickConnectBle goodBleRequest, .clickStartDemo 1, .gattAnswers] = true ∧
    settledAlong World.initial
        (twoClicksThenLoss ++
          [.timerFires .connectFails, .timerFires .connectFails, .timerFires .connectFails,
            .timerFires .connectFails]) = true ∧
    settledAlong World.initial
        (twoClicksThenLoss ++ [.timerFires .connectFails, .timerFires (.ok 8 9)]) = true := by
  decide

end Closure

end RightAngle
